import Mathlib

/-!
# deviceplugin-mock: identifier formatting, the resolver chain and the node daemon

A shallow embedding of `pkg/util/api_helper.go`,
`pkg/controller/dpmock/resource_resolver.go`, the methods `resolve` and
`Reconcile` of `pkg/controller/dpmock/noderesourceconfiguration_controller.go`,
`syncConfigOnce` and `applyConfig` of `pkg/daemon/controller/sync_config.go`,
the resource manager of `pkg/daemon/resmanager/resource_manager.go`, and of
`pkg/daemon/resmanager/deviceplugin` the list monitor (`device.go`), `Allocate`
(`interface.go`) and `Serve` (`server.go`).

Conventions of the embedding:

* a Go `int32`/`int64` is an `Int`; arithmetic that can overflow is wrapped
  explicitly (`wrap32`), and the range of a stored value is a hypothesis
  (`isInt32`);
* a Go `map[string]int32` is the list of its entries *in the order in which
  `range` visits them on this call*.  Keys are distinct.  The language leaves
  the visiting order unspecified, so two lists that are permutations of each
  other stand for the same map (`SameMap`);
* a Go pointer is an `Option`; dereferencing `nil` is the outcome `panic`;
* a Go `(value, error)` result is an `Outcome`: `ok`, `err` or `panic`;
* what a function does outside its own state (cancelling, starting a manager,
  pushing device ids, patching the node) is returned as a list of effects in the
  order they happen; what it consumes from outside (API server, libraries) is a
  parameter;
* a Go slice is an address, an offset and a length over a memory of backing
  arrays; a Go channel is `none` when `nil` and its state when made;
* concurrent parts are taken as sequences of atomic steps: one call of `Update`,
  one run of a periodic function, one poll.
-/

namespace DPMock

/-! ## Machine integers and `strconv.Itoa` -/

/-- Two's complement wrap-around of an integer to 32 bits (Go `int32` arithmetic). -/
def wrap32 (x : Int) : Int := (x + 2147483648) % 4294967296 - 2147483648

/-- The values a Go `int32` can hold. -/
def isInt32 (x : Int) : Prop := -2147483648 ≤ x ∧ x ≤ 2147483647

instance (x : Int) : Decidable (isInt32 x) := by unfold isInt32; infer_instance

/-- Go `strconv.Itoa`: decimal digits, with a leading minus sign for a negative number. -/
def Itoa : Int → String
  | Int.ofNat m => Nat.repr m
  | Int.negSucc m => "-" ++ Nat.repr (m + 1)

/-! ## API types (`api/dpmock/v1alpha1`) -/

/-- Go `ResourceReference` (common_types.go). -/
structure ResourceReference where
  APIGroup : String
  Kind : String
  Name : String
  deriving DecidableEq, Repr

/-- Go `DeviceIDFormat` (noderesourceconfiguration_types.go).  `Prefix` lists the
entries of the Go map in the order `range` visits them. -/
structure DeviceIDFormat where
  Prefix : List (String × Int)
  Delimiter : String
  OrdinalStart : Int
  deriving DecidableEq, Repr

/-- The keys of a Go map are distinct. -/
def DistinctKeys (m : List (String × Int)) : Prop := (m.map Prod.fst).Nodup

instance (m : List (String × Int)) : Decidable (DistinctKeys m) := by
  unfold DistinctKeys; infer_instance

/-- Two entry lists stand for the same Go map: same entries, possibly visited in
another order. -/
def SameMap (m₁ m₂ : List (String × Int)) : Prop := m₁.Perm m₂

/-- Well-formedness of a `DeviceIDFormat` as a Go value: distinct map keys and
`int32` counts and ordinal start. -/
def DeviceIDFormat.WF (f : DeviceIDFormat) : Prop :=
  DistinctKeys f.Prefix ∧ (∀ e ∈ f.Prefix, isInt32 e.2) ∧ isInt32 f.OrdinalStart

instance (f : DeviceIDFormat) : Decidable f.WF := by
  unfold DeviceIDFormat.WF; infer_instance

/-! ## `pkg/util/api_helper.go` -/

/-- Go `BuildDeviceID`: the outer loop ranges over the map entries, the inner
loop `for i := range amount` runs `i = 0 .. amount-1` (no iteration when
`amount ≤ 0`); the ordinal is the `int32` sum `format.OrdinalStart + i`. -/
def BuildDeviceID (format : DeviceIDFormat) : List String :=
  format.Prefix.foldl
    (fun ids entry =>
      (List.range entry.2.toNat).foldl
        (fun ids (i : Nat) =>
          ids ++ [entry.1 ++ format.Delimiter ++ Itoa (wrap32 (format.OrdinalStart + (i : Int)))])
        ids)
    []

/-- The identifiers the specification lists for one enumeration of the prefix
map: for each entry and each `0 ≤ i < count`, `prefix + delimiter +
decimal(ordinalStart + i)`, with the sum taken over the integers. -/
def specDeviceIDs (entries : List (String × Int)) (delimiter : String) (ordinalStart : Int) :
    List String :=
  entries.flatMap fun entry =>
    (List.range entry.2.toNat).map fun (i : Nat) =>
      entry.1 ++ delimiter ++ Itoa (ordinalStart + (i : Int))

/-- The same enumeration with the ordinal reduced to 32 bits, as `int32` addition does. -/
def specDeviceIDs32 (entries : List (String × Int)) (delimiter : String) (ordinalStart : Int) :
    List String :=
  entries.flatMap fun entry =>
    (List.range entry.2.toNat).map fun (i : Nat) =>
      entry.1 ++ delimiter ++ Itoa (wrap32 (ordinalStart + (i : Int)))

/-- Go `IsNodeResourceReference`.  `SchemeGroup` stands for
`dpmockv1alpha1.SchemeGroupVersion.Group`. -/
def IsNodeResourceReference (SchemeGroup : String) (ref : Option ResourceReference) : Bool :=
  match ref with
  | none => false
  | some r => r.APIGroup == SchemeGroup && r.Kind == "NodeResource"

/-! ## `resource.Quantity` (k8s.io/apimachinery), as far as the resolvers use it -/

/-- The values a Go `int64` can hold. -/
def isInt64 (x : Int) : Prop := -9223372036854775808 ≤ x ∧ x ≤ 9223372036854775807

instance (x : Int) : Decidable (isInt64 x) := by unfold isInt64; infer_instance

/-- A `resource.Quantity` by representation: the `int64Amount` form
`value * 10^scale`, or the arbitrary-precision `inf.Dec` form
`unscaled * 10^exp`.  (The cached string and the display format play no part
in what the resolvers compute.) -/
inductive Quantity where
  | int64 (value : Int) (scale : Int)
  | dec (unscaled : Int) (exp : Int)
  deriving DecidableEq, Repr

/-- The Go zero value `resource.Quantity{}`. -/
def Quantity.zero : Quantity := Quantity.int64 0 0

/-- Method `(q *Quantity) AsInt64` on a non-nil receiver: fails in the `inf.Dec`
form; in the `int64Amount` form it is the value at scale 0, fails at a negative
scale, and at a positive scale is `value * 10^scale` when that fits an `int64`. -/
def Quantity.AsInt64 : Quantity → Option Int
  | Quantity.dec _ _ => none
  | Quantity.int64 v s =>
    if s = 0 then some v
    else if s < 0 then none
    else if isInt64 (v * 10 ^ s.toNat) then some (v * 10 ^ s.toNat) else none

/-- Method `(q *Quantity) Mul(y)` (its boolean result is discarded by the
caller): the `int64Amount` form is kept when the product fits and stays exact at
the scale, otherwise the quantity moves to the `inf.Dec` form. -/
def Quantity.Mul (q : Quantity) (y : Int) : Quantity :=
  match q with
  | Quantity.dec u e => Quantity.dec (u * y) e
  | Quantity.int64 v s =>
    if v = 0 then q
    else if y = 0 then Quantity.int64 0 0
    else if isInt64 (v * y) ∧
        (s = 0 ∨ (0 < s ∧ isInt64 (v * y * 10 ^ s.toNat)) ∨
          (s < 0 ∧ (v * y) % 10 ^ (-s).toNat = 0)) then
      Quantity.int64 (v * y) s
    else Quantity.dec (v * y) s

/-! ## API types, continued -/

/-- Go `ResourceRequirement` with its inlined `ResourceInfo`. -/
structure ResourceRequirement where
  ResourceName : String
  ResourceRef : Option ResourceReference
  Capacity : Option Quantity
  NodePatchTemplate : String
  NodeUndoPatch : String
  deriving DecidableEq, Repr

/-- Go `ResourceBasicDescription`. -/
structure ResourceBasicDescription where
  ResourceName : String
  Capacity : Quantity
  DeviceIDFormat : DeviceIDFormat
  deriving DecidableEq, Repr

/-- Go `ResourceDescription`. -/
structure ResourceDescription extends ResourceBasicDescription where
  NodePatch : String
  NodeUndoPatch : String
  deriving DecidableEq, Repr

/-- Go `metav1.LabelSelectorRequirement`. -/
structure LabelSelectorRequirement where
  Key : String
  Operator : String
  Values : List String
  deriving DecidableEq, Repr

/-- Go `metav1.LabelSelector`; `MatchLabels` is a map, listed by its entries. -/
structure LabelSelector where
  MatchLabels : List (String × String)
  MatchExpressions : List LabelSelectorRequirement
  deriving DecidableEq, Repr

/-- Go `NodeResourceConfigurationSpec`; `NodeSelector` is a pointer and plays no
part in resolution. -/
structure NodeResourceConfigurationSpec where
  Resources : List ResourceRequirement
  NodeSelector : Option LabelSelector := none
  deriving DecidableEq, Repr

/-- Go `NodeResourceConfigurationStatus` (the rollout counters play no part in resolution). -/
structure NodeResourceConfigurationStatus where
  ResourceDescriptions : List ResourceDescription
  deriving DecidableEq, Repr

/-- Go `NodeResourceConfiguration`.  Of its `ObjectMeta` the name, the creation
timestamp (an instant, as a number) and the UID are kept; the last two play no
part in resolution. -/
structure NodeResourceConfiguration where
  Name : String
  Spec : NodeResourceConfigurationSpec
  Status : NodeResourceConfigurationStatus
  CreationTimestamp : Int := 0
  UID : String := ""
  deriving DecidableEq, Repr

/-- Go `PrefixGeneratePolicy`. -/
structure PrefixGeneratePolicy where
  Static : List String
  ParentResourceRef : Option ResourceReference
  deriving DecidableEq, Repr

/-- Go `DeviceIDGeneratePolicy`; `Prefix` is a pointer. -/
structure DeviceIDGeneratePolicy where
  Prefix : Option PrefixGeneratePolicy
  Delimiter : String
  OrdinalStart : Int
  deriving DecidableEq, Repr

/-- Go `NodeResourceSpec`; `DeviceIDGeneratePolicy` is a pointer. -/
structure NodeResourceSpec where
  ResourceName : String
  DeviceIDGeneratePolicy : Option DeviceIDGeneratePolicy
  DefaultCapacity : Quantity
  DefaultNodePatchTemplate : String
  DefaultNodeUndoPatch : String
  deriving DecidableEq, Repr

/-- Go `NodeResource`. -/
structure NodeResource where
  Name : String
  Spec : NodeResourceSpec
  deriving DecidableEq, Repr

/-! ## Errors, outcomes and the collaborators of the resolvers -/

/-- An error of the object lookup `cli.Get`; `IsNotFound` is what
`apierrors.IsNotFound` answers on it. -/
structure ClientErr where
  IsNotFound : Bool
  msg : String
  deriving DecidableEq, Repr

/-- The errors the resolvers return. -/
inductive Err where
  /-- The sentinel `ErrUnsupported`. -/
  | unsupported
  /-- `errors.New("resIdx out of range")`. -/
  | outOfRange
  /-- `errors.New("parse capacity to int64 failed")`. -/
  | capacity
  /-- `errors.New("empty prefix generate policy")`. -/
  | emptyPrefixPolicy
  /-- An error of the API client (`cli.Get`, `Status().Update`), returned as it is. -/
  | lookup (e : ClientErr)
  /-- `fmt.Errorf("parse node patch template failed: %w", err)`. -/
  | patchTemplate (e : String)
  /-- `fmt.Errorf("parse node undo patch failed: %w", err)`. -/
  | undoPatch (e : String)
  deriving DecidableEq, Repr

/-- Modelled from the spec: the sentinel `ErrUnsupported` (its declaration is not
among the sources) and the test `errors.Is(err, ErrUnsupported)`: an error
"signals unsupported" exactly when it is that sentinel; lookup, template and
conversion errors come from other packages and never are. -/
def Err.IsUnsupported : Err → Bool
  | Err.unsupported => true
  | _ => false

/-- The result of a Go function returning `(value, error)`: a value, an error, or
a run-time panic (nil pointer dereference, index out of range). -/
inductive Outcome (α : Type) where
  | ok (a : α)
  | err (e : Err)
  | panic
  deriving DecidableEq, Repr

/-- What the resolvers consume from outside this package: the object lookup
`cli.Get` for a `NodeResource` by name, the group name
`SchemeGroupVersion.Group`, the constant `DefaultDevicePrefix`, and the three
stages of `parseNodePatch` that live in libraries: `execute` (compile the template
with `util.GoTemplateParse`, marshal the context to a JSON tree, execute), then
`html.UnescapeString`, then `yaml.YAMLToJSON`. -/
structure Env where
  Get : String → Except ClientErr NodeResource
  SchemeGroup : String
  DefaultDevicePrefix : String
  execute : String → ResourceBasicDescription → Except String String
  UnescapeString : String → String
  YAMLToJSON : String → Except String String

/-! ## `pkg/controller/dpmock/resource_resolver.go` -/

/-- Go `parseNodePatch`: the empty template gives the empty patch; otherwise the
template is executed on the context, the output is HTML-unescaped and converted
from YAML to JSON; the first failing stage gives the error. -/
def parseNodePatch (env : Env) (text : String) (jsonContext : ResourceBasicDescription) :
    Except String String :=
  if text = "" then Except.ok ""
  else
    match env.execute text jsonContext with
    | Except.error e => Except.error e
    | Except.ok yamlPatch => env.YAMLToJSON (env.UnescapeString yamlPatch)

/-- The element `nrcfg.Spec.Resources[resIdx]` once `resIdx >= len` has been
excluded: a negative index is a run-time panic. -/
def resourceAt (nrcfg : NodeResourceConfiguration) (resIdx : Int) : Option ResourceRequirement :=
  if resIdx < 0 then none else nrcfg.Spec.Resources[resIdx.toNat]?

/-- The call `p.AsInt64()` on a pointer `p *resource.Quantity`: the method reads
a field of its receiver first, so a nil receiver is a nil pointer dereference. -/
def ptrAsInt64 (p : Option Quantity) : Outcome (Option Int) :=
  match p with
  | none => Outcome.panic
  | some q => Outcome.ok q.AsInt64

/-- The tail shared by both resolvers: render the apply patch with
`parseNodePatch`, convert a non-empty undo patch with `yaml.YAMLToJSON`, and
assemble the `ResourceDescription`. -/
def finishDescription (env : Env) (basicDesc : ResourceBasicDescription)
    (nodePatchTemplate nodeUndoPatch : String) : Outcome ResourceDescription :=
  match parseNodePatch env nodePatchTemplate basicDesc with
  | Except.error e => Outcome.err (Err.patchTemplate e)
  | Except.ok patch =>
    if nodeUndoPatch ≠ "" then
      match env.YAMLToJSON nodeUndoPatch with
      | Except.error e => Outcome.err (Err.undoPatch e)
      | Except.ok undoPatch =>
        Outcome.ok { toResourceBasicDescription := basicDesc, NodePatch := patch,
                     NodeUndoPatch := undoPatch }
    else
      Outcome.ok { toResourceBasicDescription := basicDesc, NodePatch := patch,
                   NodeUndoPatch := "" }

/-- Go `(*nameResolver).Resolve`. -/
def nameResolver.Resolve (env : Env) (nrcfg : NodeResourceConfiguration) (resIdx : Int) :
    Outcome ResourceDescription :=
  if resIdx ≥ (nrcfg.Spec.Resources.length : Int) then Outcome.err Err.outOfRange
  else
    match resourceAt nrcfg resIdx with
    | none => Outcome.panic
    | some res =>
      if res.ResourceName = "" then Outcome.err Err.unsupported
      else
        let capacity : Quantity :=
          match res.Capacity with
          | some c => c
          | none => Quantity.zero
        match ptrAsInt64 res.Capacity with
        | Outcome.panic => Outcome.panic
        | Outcome.err e => Outcome.err e
        | Outcome.ok none => Outcome.err Err.capacity
        | Outcome.ok (some capInt) =>
          let basicDesc : ResourceBasicDescription :=
            { ResourceName := res.ResourceName
              Capacity := capacity
              DeviceIDFormat :=
                { Prefix := [(env.DefaultDevicePrefix, wrap32 capInt)]
                  Delimiter := ""
                  OrdinalStart := 0 } }
          finishDescription env basicDesc res.NodePatchTemplate res.NodeUndoPatch

/-- Go `(*nodeResourceResolver).getResourceRef`.  The guard returns
`ErrUnsupported` when `IsNodeResourceReference(ref)` holds; otherwise `ref.Name`
is read (a nil `ref` panics) and looked up. -/
def nodeResourceResolver.getResourceRef (env : Env) (ref : Option ResourceReference) :
    Outcome NodeResource :=
  if IsNodeResourceReference env.SchemeGroup ref then Outcome.err Err.unsupported
  else
    match ref with
    | none => Outcome.panic
    | some r =>
      match env.Get r.Name with
      | Except.error e =>
        if e.IsNotFound then Outcome.err Err.unsupported else Outcome.err (Err.lookup e)
      | Except.ok nr => Outcome.ok nr

/-- Go `(*nodeResourceResolver).getCapacity`. -/
def nodeResourceResolver.getCapacity (res : ResourceRequirement) (nr : NodeResource) : Quantity :=
  match res.Capacity with
  | some c => c
  | none => nr.Spec.DefaultCapacity

/-- The first element of `nrcfg.Status.ResourceDescriptions` whose resource name is
`resNameRef`, passed through `BuildDeviceID`; `nil` when there is none. -/
def prefixesFromStatus (descs : List ResourceDescription) (resNameRef : String) : List String :=
  match descs with
  | [] => []
  | resRef :: rest =>
    if resRef.ResourceName = resNameRef then BuildDeviceID resRef.DeviceIDFormat
    else prefixesFromStatus rest resNameRef

/-- Go `(*nodeResourceResolver).getPrefixes`.  `nr.Spec.DeviceIDGeneratePolicy`
and its `Prefix` are pointers read without a nil check. -/
def nodeResourceResolver.getPrefixes (env : Env) (nr : NodeResource)
    (nrcfg : NodeResourceConfiguration) : Outcome (List String) :=
  match nr.Spec.DeviceIDGeneratePolicy with
  | none => Outcome.panic
  | some policy =>
    match policy.Prefix with
    | none => Outcome.panic
    | some pfx =>
      if pfx.Static.length > 0 then Outcome.ok pfx.Static
      else
        match pfx.ParentResourceRef with
        | none => Outcome.err Err.emptyPrefixPolicy
        | some parentRef =>
          match nodeResourceResolver.getResourceRef env (some parentRef) with
          | Outcome.panic => Outcome.panic
          | Outcome.err e => Outcome.err e
          | Outcome.ok nrRef =>
            match nrRef.Spec.DeviceIDGeneratePolicy with
            | none => Outcome.panic
            | some parentPolicy =>
              match parentPolicy.Prefix with
              | none => Outcome.panic
              | some parentPfx =>
                if parentPfx.ParentResourceRef ≠ none then Outcome.err Err.unsupported
                else
                  Outcome.ok (prefixesFromStatus nrcfg.Status.ResourceDescriptions
                    nrRef.Spec.ResourceName)

/-- Go `(*nodeResourceResolver).getNodeUndoPatch`. -/
def nodeResourceResolver.getNodeUndoPatch (res : ResourceRequirement) (nr : NodeResource) :
    String :=
  if res.NodeUndoPatch ≠ "" then res.NodeUndoPatch else nr.Spec.DefaultNodeUndoPatch

/-- Go `(*nodeResourceResolver).getNodePatchTemplate`. -/
def nodeResourceResolver.getNodePatchTemplate (res : ResourceRequirement) (nr : NodeResource) :
    String :=
  if res.NodePatchTemplate ≠ "" then res.NodePatchTemplate else nr.Spec.DefaultNodePatchTemplate

/-- The assignment `m[k] = v` on a Go map: an existing key keeps its place and
gets the new value, a new key is added. -/
def mapSet (m : List (String × Int)) (k : String) (v : Int) : List (String × Int) :=
  if m.any (fun e => e.1 == k) then m.map (fun e => if e.1 = k then (k, v) else e)
  else m ++ [(k, v)]

/-- The loop `for _, prefix := range prefixes { prefixMap[prefix] = int32(capInt) }`
started from the empty map. -/
def buildPrefixMap (prefixes : List String) (capInt : Int) : List (String × Int) :=
  prefixes.foldl (fun m pfx => mapSet m pfx (wrap32 capInt)) []

/-- Go `(*nodeResourceResolver).Resolve`. -/
def nodeResourceResolver.Resolve (env : Env) (nrcfg : NodeResourceConfiguration) (resIdx : Int) :
    Outcome ResourceDescription :=
  if resIdx ≥ (nrcfg.Spec.Resources.length : Int) then Outcome.err Err.outOfRange
  else
    match resourceAt nrcfg resIdx with
    | none => Outcome.panic
    | some res =>
      match nodeResourceResolver.getResourceRef env res.ResourceRef with
      | Outcome.panic => Outcome.panic
      | Outcome.err e => Outcome.err e
      | Outcome.ok nr =>
        match nodeResourceResolver.getPrefixes env nr nrcfg with
        | Outcome.panic => Outcome.panic
        | Outcome.err e => Outcome.err e
        | Outcome.ok prefixes =>
          let capacity := nodeResourceResolver.getCapacity res nr
          match capacity.AsInt64 with
          | none => Outcome.err Err.capacity
          | some capInt =>
            match nr.Spec.DeviceIDGeneratePolicy with
            | none => Outcome.panic
            | some policy =>
              let basicDesc : ResourceBasicDescription :=
                { ResourceName := nr.Spec.ResourceName
                  Capacity := capacity.Mul (prefixes.length : Int)
                  DeviceIDFormat :=
                    { Prefix := buildPrefixMap prefixes capInt
                      Delimiter := policy.Delimiter
                      OrdinalStart := policy.OrdinalStart } }
              finishDescription env basicDesc
                (nodeResourceResolver.getNodePatchTemplate res nr)
                (nodeResourceResolver.getNodeUndoPatch res nr)

/-! ## `pkg/controller/dpmock/noderesourceconfiguration_controller.go` -/

/-- Go interface `ResourceResolver`. -/
structure ResourceResolver where
  Name : String
  Resolve : NodeResourceConfiguration → Int → Outcome ResourceDescription

/-- The `resolvers` field as `NewNodeResourceConfigurationReconciler` sets it:
`&nameResolver{}` first, `&nodeResourceResolver{cli: client}` second. -/
def NewNodeResourceConfigurationReconciler (env : Env) : List ResourceResolver :=
  [ { Name := "name-resolver", Resolve := nameResolver.Resolve env },
    { Name := "node-resource-resolver", Resolve := nodeResourceResolver.Resolve env } ]

/-- Go `(*NodeResourceConfigurationReconciler).resolve`: the loop over
`r.resolvers`; an error that is `ErrUnsupported` moves on to the next resolver,
any other error and any description is returned at once, and the end of the
list gives `ErrUnsupported`. -/
def resolve (resolvers : List ResourceResolver) (nrcfg : NodeResourceConfiguration)
    (resIdx : Int) : Outcome ResourceDescription :=
  match resolvers with
  | [] => Outcome.err Err.unsupported
  | resolver :: rest =>
    match resolver.Resolve nrcfg resIdx with
    | Outcome.panic => Outcome.panic
    | Outcome.err e =>
      if e.IsUnsupported then resolve rest nrcfg resIdx else Outcome.err e
    | Outcome.ok resDesc => Outcome.ok resDesc

/-! ## The value of a quantity -/

/-- The number a `resource.Quantity` denotes: `value * 10^scale` in the
`int64Amount` form, `unscaled * 10^exp` in the `inf.Dec` form. -/
def Quantity.val : Quantity → ℚ
  | Quantity.int64 v s => (v : ℚ) * (10 : ℚ) ^ s
  | Quantity.dec u e => (u : ℚ) * (10 : ℚ) ^ e

/-! ## `Reconcile` (noderesourceconfiguration_controller.go, lines 80 to 102) -/

/-- The loop `for resIdx := range nrcfg.Spec.Resources` of `Reconcile`, on the
indices still to visit and the list `resDescList` built so far.  Every index is
resolved against the same object `nrcfg`, which the loop does not modify; an
`ErrUnsupported` skips the entry, another error ends the pass. -/
def reconcileLoop (resolvers : List ResourceResolver) (nrcfg : NodeResourceConfiguration) :
    List Int → List ResourceDescription → Outcome (List ResourceDescription)
  | [], resDescList => Outcome.ok resDescList
  | resIdx :: rest, resDescList =>
    match resolve resolvers nrcfg resIdx with
    | Outcome.panic => Outcome.panic
    | Outcome.err e =>
      if e.IsUnsupported then reconcileLoop resolvers nrcfg rest resDescList
      else Outcome.err e
    | Outcome.ok resDesc => reconcileLoop resolvers nrcfg rest (resDescList ++ [resDesc])

/-- The indices `0 .. len-1` that `range nrcfg.Spec.Resources` visits. -/
def resourceIndices (nrcfg : NodeResourceConfiguration) : List Int :=
  (List.range nrcfg.Spec.Resources.length).map fun (i : Nat) => (i : Int)

/-- Go `Reconcile` from the loop on, for an object that was fetched and is not
being deleted: resolve all entries, then store the list in the status when it
differs from the stored one.  `DeepEqual` stands for
`equality.Semantic.DeepEqual` and `StatusUpdate` for `r.Status().Update`
(`none` on success).  The result is the object as it is stored after the pass. -/
def Reconcile (resolvers : List ResourceResolver)
    (DeepEqual : List ResourceDescription → List ResourceDescription → Bool)
    (StatusUpdate : NodeResourceConfiguration → Option ClientErr)
    (nrcfg : NodeResourceConfiguration) : Outcome NodeResourceConfiguration :=
  match reconcileLoop resolvers nrcfg (resourceIndices nrcfg) [] with
  | Outcome.panic => Outcome.panic
  | Outcome.err e => Outcome.err e
  | Outcome.ok resDescList =>
    if !DeepEqual nrcfg.Status.ResourceDescriptions resDescList then
      match StatusUpdate { nrcfg with Status := { ResourceDescriptions := resDescList } } with
      | some e => Outcome.err (Err.lookup e)
      | none => Outcome.ok { nrcfg with Status := { ResourceDescriptions := resDescList } }
    else Outcome.ok nrcfg

/-! ## The node daemon: `pkg/daemon/resmanager` and `pkg/daemon/controller` -/

/-- Go `resourceManager`, as far as `Update` and `applyConfig` touch it: the
stored description `desc` (nil until the first update) and the flag
`synchronized`. -/
structure resourceManager where
  resourceName : String
  desc : Option ResourceDescription
  synchronized : Bool
  deriving DecidableEq, Repr

/-- Go `resmanager.New`: no description stored, `synchronized` false. -/
def resmanager.New (resourceName : String) : resourceManager :=
  { resourceName := resourceName, desc := none, synchronized := false }

/-- Go `(*resourceManager).Update`.  `DeepEqual` stands for
`equality.Semantic.DeepEqual` on two descriptions; a nil stored description is
never equal to the new one. -/
def resourceManager.Update (DeepEqual : ResourceDescription → ResourceDescription → Bool)
    (m : resourceManager) (desc : ResourceDescription) : resourceManager :=
  match m.desc with
  | some stored =>
    if DeepEqual stored desc then m
    else { m with desc := some desc, synchronized := false }
  | none => { m with desc := some desc, synchronized := false }

/-- Go `resourceManagerWithCancel`: a manager and its cancel function.  `id` names
the manager object, its run loop and its cancel function. -/
structure resourceManagerWithCancel where
  id : Nat
  ResourceManager : resourceManager
  deriving DecidableEq, Repr

/-- What `applyConfig` does to the world besides changing the map: calling a
cancel function, creating a manager and starting its run loop, calling `Update`. -/
inductive Effect where
  | Cancel (name : String) (id : Nat)
  | New (name : String) (id : Nat)
  | Update (name : String) (id : Nat) (desc : ResourceDescription)
  deriving DecidableEq, Repr

/-- Go `Controller`: the map `managers` as its entries with distinct keys, and
the number `nextID` from which new manager objects are named. -/
structure Controller where
  managers : List (String × resourceManagerWithCancel)
  nextID : Nat
  deriving DecidableEq, Repr

/-- The assignment `m[k] = v` on a Go map with any value type. -/
def mapPut {α : Type} (m : List (String × α)) (k : String) (v : α) : List (String × α) :=
  if (m.lookup k).isSome then m.map (fun e => (e.1, if e.1 = k then v else e.2))
  else m ++ [(k, v)]

/-- The loop `for _, desc := range nrcfg.Status.ResourceDescriptions
{ resDescMap[desc.ResourceName] = &desc }` of `applyConfig` (each iteration has
its own `desc`). -/
def buildResDescMap (descs : List ResourceDescription) : List (String × ResourceDescription) :=
  descs.foldl (fun m desc => mapPut m desc.ResourceName desc) []

/-- The first loop of `applyConfig`: a manager whose name is not in `resDescMap`
is cancelled and deleted from the map. -/
def cleanUp (resDescMap : List (String × ResourceDescription)) :
    List (String × resourceManagerWithCancel) →
      List (String × resourceManagerWithCancel) × List Effect
  | [] => ([], [])
  | (name, manager) :: rest =>
    if (resDescMap.lookup name).isSome then
      ((name, manager) :: (cleanUp resDescMap rest).1, (cleanUp resDescMap rest).2)
    else ((cleanUp resDescMap rest).1, Effect.Cancel name manager.id :: (cleanUp resDescMap rest).2)

/-- One iteration of the second loop of `applyConfig`: create the manager when
the name is not in the map, then call `Update` on the manager of the name. -/
def applyDesc (DeepEqual : ResourceDescription → ResourceDescription → Bool) (c : Controller)
    (name : String) (desc : ResourceDescription) : Controller × List Effect :=
  match c.managers.lookup name with
  | some manager =>
    ({ managers := mapPut c.managers name
          { id := manager.id,
            ResourceManager := manager.ResourceManager.Update DeepEqual desc },
       nextID := c.nextID },
      [Effect.Update name manager.id desc])
  | none =>
    ({ managers := c.managers ++
        [(name, { id := c.nextID,
                  ResourceManager := (resmanager.New name).Update DeepEqual desc })],
       nextID := c.nextID + 1 },
      [Effect.New name c.nextID, Effect.Update name c.nextID desc])

/-- The second loop of `applyConfig` over the entries of `resDescMap` in the
order `order` in which `range` visits them. -/
def applyDescs (DeepEqual : ResourceDescription → ResourceDescription → Bool) :
    Controller → List (String × ResourceDescription) → Controller × List Effect
  | c, [] => (c, [])
  | c, (name, desc) :: rest =>
    ((applyDescs DeepEqual (applyDesc DeepEqual c name desc).1 rest).1,
      (applyDesc DeepEqual c name desc).2 ++
        (applyDescs DeepEqual (applyDesc DeepEqual c name desc).1 rest).2)

/-- `order` is an order in which `range` may visit the map `m`: the same entries,
each key once. -/
def VisitingOrder {α : Type} (order m : List (String × α)) : Prop :=
  (order.map Prod.fst).Nodup ∧ ∀ k, order.lookup k = m.lookup k

/-- Go `(*Controller).applyConfig`, with the order `order` in which the second
loop visits `resDescMap`; the first loop visits `c.managers` as listed.  The
result is the controller afterwards and the effects in the order they happen.
(Logging and the storage of `nrcfg` under `NrcfgKey` are left out.) -/
def Controller.applyConfig (DeepEqual : ResourceDescription → ResourceDescription → Bool)
    (c : Controller) (nrcfg : NodeResourceConfiguration)
    (order : List (String × ResourceDescription)) : Controller × List Effect :=
  ((applyDescs DeepEqual
      { c with managers :=
          (cleanUp (buildResDescMap nrcfg.Status.ResourceDescriptions) c.managers).1 } order).1,
    (cleanUp (buildResDescMap nrcfg.Status.ResourceDescriptions) c.managers).2 ++
      (applyDescs DeepEqual
        { c with managers :=
            (cleanUp (buildResDescMap nrcfg.Status.ResourceDescriptions) c.managers).1 }
        order).2)

/-- The description that `resDescMap` holds for a name: the last description of
the list with that resource name. -/
def desiredDesc (descs : List ResourceDescription) (name : String) : Option ResourceDescription :=
  descs.foldl (fun acc desc => if desc.ResourceName = name then some desc else acc) none

/-! ## The patch renderer on the `toJson` annotation template

`parseNodePatch` compiles its template with `util.GoTemplateParse`, which is not
among the sources, and runs it through the template, JSON, HTML and YAML
libraries.  The definitions of this section model those stages on the templates
of `test1` and `test3` of `Test_parseNodePatch` and on templates of the same
shape; they work on lists of characters.  The model is partial: on a template
or document that it does not cover it answers `none` or `unmodelled`, which is
not an error of the library.  The statements that rest on the model are made
for every environment that follows it (`followsModel`). -/

/-- Modelled from the spec: the order in which the JSON encoder lists the keys of
a map, ascending by character code. -/
def keyLE : List Char → List Char → Bool
  | [], _ => true
  | _ :: _, [] => false
  | a :: as, b :: bs =>
    if a.toNat < b.toNat then true
    else if b.toNat < a.toNat then false
    else keyLE as bs

/-- Modelled from the spec: how `encoding/json` writes one character of a string:
quote and backslash are escaped, control characters and `<`, `>`, `&` are
written as escapes, everything else is copied. -/
def jsonEscapeChar (c : Char) : List Char :=
  if c = '"' then ['\\', '"']
  else if c = '\\' then ['\\', '\\']
  else if c = '\n' then ['\\', 'n']
  else if c = '\r' then ['\\', 'r']
  else if c = '\t' then ['\\', 't']
  else if c = '\x08' then ['\\', 'b']
  else if c = '\x0c' then ['\\', 'f']
  else if c.toNat < 32 ∨ c = '<' ∨ c = '>' ∨ c = '&' then
    ['\\', 'u', '0', '0', Nat.digitChar (c.toNat / 16), Nat.digitChar (c.toNat % 16)]
  else if c = '\u2028' then ['\\', 'u', '2', '0', '2', '8']
  else if c = '\u2029' then ['\\', 'u', '2', '0', '2', '9']
  else [c]

/-- Modelled from the spec: a JSON string literal. -/
def jsonString (s : List Char) : List Char :=
  '"' :: (s.flatMap jsonEscapeChar ++ ['"'])

/-- Lists of characters joined by commas. -/
def joinComma : List (List Char) → List Char
  | [] => []
  | [x] => x
  | x :: y :: rest => x ++ (',' :: joinComma (y :: rest))

/-- The entries of a map in the order of the JSON encoder: keys ascending. -/
def sortedEntries (m : List (String × Int)) : List (String × Int) :=
  List.insertionSort (fun a b : String × Int => keyLE a.1.data b.1.data = true) m

/-- Modelled from the spec: the JSON object encoding of a map from strings to
integers, keys ascending, `"key":value` pairs separated by commas. -/
def jsonObject (m : List (String × Int)) : List Char :=
  '\x7b' ::
    (joinComma ((sortedEntries m).map fun e => jsonString e.1.data ++ (':' :: (Itoa e.2).data))
      ++ ['\x7d'])

/-- The value of `.deviceIDFormat.prefix` in the JSON tree of a
`ResourceBasicDescription`: the field is tagged `omitempty`, so an empty map
leaves no entry in the tree. -/
def contextPrefix (jsonContext : ResourceBasicDescription) : Option (List (String × Int)) :=
  if jsonContext.DeviceIDFormat.Prefix = [] then none
  else some jsonContext.DeviceIDFormat.Prefix

/-- Modelled from the spec: the template function `toJson` on the value of
`.deviceIDFormat.prefix`; a missing entry is encoded as `null`. -/
def toJson : Option (List (String × Int)) → List Char
  | none => ['n', 'u', 'l', 'l']
  | some m => jsonObject m

/-- Modelled from the spec: the HTML escaping of one interpolated character by the
template engine. -/
def htmlEscapeChar (c : Char) : List Char :=
  if c = '\x00' then ['\uFFFD']
  else if c = '"' then ['&', '#', '3', '4', ';']
  else if c = '\'' then ['&', '#', '3', '9', ';']
  else if c = '&' then ['&', 'a', 'm', 'p', ';']
  else if c = '+' then ['&', '#', '4', '3', ';']
  else if c = '<' then ['&', 'l', 't', ';']
  else if c = '>' then ['&', 'g', 't', ';']
  else [c]

/-- Modelled from the spec: `html.UnescapeString` on the entities that the
template engine writes; `skip` counts the characters of an entity still to
drop. -/
def unescapeChars : Nat → List Char → List Char
  | _, [] => []
  | skip + 1, _ :: cs => unescapeChars skip cs
  | 0, c :: cs =>
    if ['&', '#', '3', '4', ';'].isPrefixOf (c :: cs) then '"' :: unescapeChars 4 cs
    else if ['&', '#', '3', '9', ';'].isPrefixOf (c :: cs) then '\'' :: unescapeChars 4 cs
    else if ['&', 'a', 'm', 'p', ';'].isPrefixOf (c :: cs) then '&' :: unescapeChars 4 cs
    else if ['&', '#', '4', '3', ';'].isPrefixOf (c :: cs) then '+' :: unescapeChars 4 cs
    else if ['&', 'l', 't', ';'].isPrefixOf (c :: cs) then '<' :: unescapeChars 3 cs
    else if ['&', 'g', 't', ';'].isPrefixOf (c :: cs) then '>' :: unescapeChars 3 cs
    else c :: unescapeChars 0 cs

/-- The template action `{{ toJson .deviceIDFormat.prefix }}`. -/
def toJsonAction : List Char := "\x7b\x7b toJson .deviceIDFormat.prefix \x7d\x7d".data

/-- Modelled from the spec: execution of a template compiled by
`util.GoTemplateParse`, for templates whose only action is `toJsonAction`: text
is copied and each action is replaced by `value`.  The answer is `none` when the
text holds any other action: such templates (the one of `test2` of
`Test_parseNodePatch` among them) are outside this model, which says nothing
about them.  `skip` counts the characters of an action still to drop. -/
def executeChars (value : List Char) : Nat → List Char → Option (List Char)
  | _, [] => some []
  | skip + 1, _ :: cs => executeChars value skip cs
  | 0, c :: cs =>
    if toJsonAction.isPrefixOf (c :: cs) then
      match executeChars value (toJsonAction.length - 1) cs with
      | some out => some (value ++ out)
      | none => none
    else if ['\x7b', '\x7b'].isPrefixOf (c :: cs) then none
    else
      match executeChars value 0 cs with
      | some out => some (c :: out)
      | none => none

/-- Modelled from the spec: the text that `html.UnescapeString` gives on the
output of the template execution, that is, the text that `parseNodePatch` hands
to `yaml.YAMLToJSON`: the template with each action replaced by the `toJson` of
the prefix map.  The escaping of the interpolated value by the template engine
and its reversal are part of the computation; an engine that does not escape
gives the same text, because the JSON encoder writes no `&`.  The answer is
`none`, outside the model, for a template with a `&` or a `<` in its text
(entities and markup, which the two libraries treat in ways not modelled here)
or with another action. -/
def renderModel (text : String) (jsonContext : ResourceBasicDescription) : Option String :=
  if text.data.any (fun c => c == '&' || c == '<') then none
  else
    match executeChars ((toJson (contextPrefix jsonContext)).flatMap htmlEscapeChar) 0
        text.data with
    | some out => some (String.mk (unescapeChars 0 out))
    | none => none

/-- Modelled from the spec: a single-quoted YAML scalar on one line, read after
its opening quote: `''` stands for a quote, a lone quote ends the scalar.  The
result is the scalar and the text after it; `none` when the scalar does not end
on its line. -/
def singleQuoted : List Char → Option (List Char × List Char)
  | [] => none
  | c :: cs =>
    if c = '\'' then
      match cs with
      | [] => some ([], [])
      | c₂ :: cs₂ =>
        if c₂ = '\'' then
          match singleQuoted cs₂ with
          | some (s, rest) => some ('\'' :: s, rest)
          | none => none
        else some ([], c₂ :: cs₂)
    else if c = '\n' then none
    else
      match singleQuoted cs with
      | some (s, rest) => some (c :: s, rest)
      | none => none

/-- Modelled from the spec: the characters that the reader of the YAML parser
accepts in its input: tab, line feed, carriage return, the printable ASCII
characters, U+0085, U+00A0 to U+D7FF, U+E000 to U+FFFD and the characters from
U+10000 on.  Any other character, such as the control character U+007F, makes
the parser fail ("control characters are not allowed"). -/
def yamlReadable (c : Char) : Bool :=
  decide (c.toNat = 9 ∨ c.toNat = 10 ∨ c.toNat = 13 ∨ (32 ≤ c.toNat ∧ c.toNat ≤ 126) ∨
    c.toNat = 133 ∨ (160 ≤ c.toNat ∧ c.toNat ≤ 55295) ∨
    (57344 ≤ c.toNat ∧ c.toNat ≤ 65533) ∨ 65536 ≤ c.toNat)

/-- Modelled from the spec: the characters that YAML takes for a line break: line
feed, carriage return, U+0085, U+2028 and U+2029. -/
def yamlBreak (c : Char) : Bool :=
  decide (c.toNat = 10 ∨ c.toNat = 13 ∨ c.toNat = 133 ∨ c.toNat = 8232 ∨ c.toNat = 8233)

/-- Characters that stand for themselves inside a single-quoted scalar on one line
(the quote apart, which `singleQuoted` reads): accepted by the reader, no line
break, and not the byte order mark U+FEFF, which the model leaves out. -/
def scalarChar (c : Char) : Bool :=
  yamlReadable c && !yamlBreak c && decide (c.toNat ≠ 65279)

/-- Whether a character is an ASCII letter. -/
def asciiLetter (c : Char) : Bool :=
  decide ((65 ≤ c.toNat ∧ c.toNat ≤ 90) ∨ (97 ≤ c.toNat ∧ c.toNat ≤ 122))

/-- Whether a character is an ASCII letter or digit. -/
def asciiAlnum (c : Char) : Bool :=
  asciiLetter c || decide (48 ≤ c.toNat ∧ c.toNat ≤ 57)

/-- The characters of a Kubernetes annotation key: ASCII letters, digits, `-`, `_`,
`.` and `/`. -/
def keyChar (c : Char) : Bool :=
  asciiAlnum c || decide (c.toNat = 45 ∨ c.toNat = 95 ∨ c.toNat = 46 ∨ c.toNat = 47)

/-- The length that a Kubernetes annotation key cannot exceed: a prefix of 253
characters, the `/` and a name of 63 characters. -/
def maxKeyLength : Nat := 317

/-- Annotation keys that the model reads as a plain (unquoted) YAML scalar: made
of the characters of a Kubernetes annotation key, starting with a letter, and
not longer than such a key can be. -/
def plainKey (key : List Char) : Bool :=
  key.all keyChar && (key.head?.map asciiLetter == some true) &&
    decide (key.length ≤ maxKeyLength)

/-- Modelled from the spec: the plain scalars that YAML 1.1 reads as the boolean
`true`. -/
def yamlTrueWords : List (List Char) :=
  ["y", "Y", "yes", "Yes", "YES", "true", "True", "TRUE", "on", "On", "ON"].map String.data

/-- Modelled from the spec: the plain scalars that YAML 1.1 reads as the boolean
`false`. -/
def yamlFalseWords : List (List Char) :=
  ["n", "N", "no", "No", "NO", "false", "False", "FALSE", "off", "Off", "OFF"].map String.data

/-- Modelled from the spec: the plain scalars made of letters that YAML 1.1 reads
as the null value. -/
def yamlNullWords : List (List Char) :=
  ["null", "Null", "NULL"].map String.data

/-- Modelled from the spec: the JSON key that `yaml.YAMLToJSON` writes for a plain
key of a mapping: a boolean key becomes the text `true` or `false`, every other
plain key that starts with a letter is a string and is kept.  A null key is
outside the model (`none`). -/
def resolvedKey (key : List Char) : Option (List Char) :=
  if yamlNullWords.contains key then none
  else if yamlTrueWords.contains key then some "true".data
  else if yamlFalseWords.contains key then some "false".data
  else some key

/-- The annotation keys of the statements about the annotation template: plain
keys that YAML reads as a string, which are all plain keys but the boolean and
null words.  The key `x` of the specification's example, the key
`device-status.volcano.sh/dpmock` of the test and keys with upper-case letters
are among them. -/
def annotationKey (key : List Char) : Bool :=
  plainKey key && !yamlNullWords.contains key && !yamlTrueWords.contains key &&
    !yamlFalseWords.contains key

/-- The lines `metadata:` and `annotations:` that open the annotation document. -/
def annotationHeader : List Char := "\nmetadata:\n  annotations:\n    ".data

/-- The JSON document `{"metadata":{"annotations":{key: value}}}` with a string value. -/
def annotationDoc (key value : List Char) : List Char :=
  "\x7b\"metadata\":\x7b\"annotations\":\x7b".data ++ jsonString key ++ (':' :: jsonString value)
    ++ "\x7d\x7d\x7d".data

/-- The opening of the JSON text `{"metadata":{"annotations":{"key":null}}}`. -/
def nullAnnotationOpening : List Char := "\x7b\"metadata\":\x7b\"annotations\":\x7b\"".data

/-- The JSON text `{"metadata":{"annotations":{"key":null}}}`, the shape of the
template of `test3` of `Test_parseNodePatch`. -/
def nullAnnotationDoc (key : List Char) : List Char :=
  nullAnnotationOpening ++ key ++ "\":null\x7d\x7d\x7d".data

/-- The template that sets the annotation `key` to
`'{{ toJson .deviceIDFormat.prefix }}'`. -/
def annotationTemplate (key : String) : String :=
  String.mk (annotationHeader ++ key.data ++ [':', ' ', '\''] ++ toJsonAction ++ ['\'', '\n'])

/-- What the model of `yaml.YAMLToJSON` says about a document: the JSON text it
is converted to, that the conversion fails, or nothing: the document is outside
the model. -/
inductive YamlResult where
  | json (out : List Char)
  | fails
  | unmodelled
  deriving DecidableEq, Repr

/-- Modelled from the spec: `yaml.YAMLToJSON` on two shapes of document.

A character that the reader does not accept makes the conversion fail, whatever
the document is.  A document made of the header lines, a plain key, `: '`, a
single-quoted scalar on the same line and the end of the line is converted to
`{"metadata":{"annotations":{key: scalar}}}`, the key written as `resolvedKey`
gives it; when a letter or a digit follows the closing quote of the scalar the
conversion fails (a scalar where the parser expects the next key).  A JSON text
`{"metadata":{"annotations":{"key":null}}}` is converted to itself.  Every other
document is outside the model: the answer `unmodelled` says nothing about what
the library does with it. -/
def yamlModel (text : List Char) : YamlResult :=
  if text.any (fun c => !yamlReadable c) then YamlResult.fails
  else if annotationHeader.isPrefixOf text then
    let rest := text.drop annotationHeader.length
    let key := rest.takeWhile (fun c => c != ':')
    let rest₂ := rest.dropWhile (fun c => c != ':')
    if plainKey key && [':', ' ', '\''].isPrefixOf rest₂ then
      match resolvedKey key, singleQuoted (rest₂.drop 3) with
      | some jsonKey, some (scalar, tail) =>
        if scalar.all scalarChar then
          match tail with
          | [] => YamlResult.json (annotationDoc jsonKey scalar)
          | c :: tail₂ =>
            if c = '\n' then
              if tail₂ = [] then YamlResult.json (annotationDoc jsonKey scalar)
              else YamlResult.unmodelled
            else if asciiAlnum c then YamlResult.fails
            else YamlResult.unmodelled
        else YamlResult.unmodelled
      | _, _ => YamlResult.unmodelled
    else YamlResult.unmodelled
  else if nullAnnotationOpening.isPrefixOf text then
    let key := (text.drop nullAnnotationOpening.length).takeWhile (fun c => c != '"')
    if key.all keyChar && decide (key.length ≤ maxKeyLength) && text == nullAnnotationDoc key then
      YamlResult.json text
    else YamlResult.unmodelled
  else YamlResult.unmodelled

/-- The characters of a prefix that the statements about the annotation template
admit: every character but the single quote, the control characters U+007F to
U+009F, the byte order mark U+FEFF and U+FFFE, U+FFFF.  The JSON encoder writes
the characters it does not escape as they are, and these are the ones that may
not stand in the single-quoted scalar of the template. -/
def devicePrefixChar (c : Char) : Bool :=
  decide (c ≠ '\'' ∧ ¬ (127 ≤ c.toNat ∧ c.toNat ≤ 159) ∧ c.toNat ≠ 65279 ∧
    c.toNat ≠ 65534 ∧ c.toNat ≠ 65535)

/-- Characters that may stand inside the single-quoted scalar of the annotation
template: not the single quote, and a `scalarChar`. -/
def scalarSafe (c : Char) : Prop := c ≠ '\'' ∧ scalarChar c = true

/-- What the statements about rendered patches assume of the libraries behind an
environment: they behave as the model says wherever the model says something.
On a template and context that `renderModel` covers, the execution succeeds and
`html.UnescapeString` of its output is the modelled text; a document that
`yamlModel` converts is converted to that JSON text, and a document for which
`yamlModel` fails is answered with an error.  Nothing is assumed about inputs
outside the model. -/
def followsModel (env : Env) : Prop :=
  (∀ (text : String) (jsonContext : ResourceBasicDescription) (out : String),
    renderModel text jsonContext = some out →
    ∃ yamlPatch, env.execute text jsonContext = Except.ok yamlPatch ∧
      env.UnescapeString yamlPatch = out) ∧
  (∀ (s : String) (out : List Char), yamlModel s.data = YamlResult.json out →
    env.YAMLToJSON s = Except.ok (String.mk out)) ∧
  (∀ s : String, yamlModel s.data = YamlResult.fails → ∃ e, env.YAMLToJSON s = Except.error e)

/-- An environment that follows the model: template execution interpolates the
HTML-escaped `toJson` of the prefix map, `UnescapeString` reverses the escaping,
and `YAMLToJSON` answers as `yamlModel` says.  The lookup knows no object.  On
an input outside the model this environment answers with an error that says so;
that answer is a choice of this example and stands for no answer of the
libraries, and no statement about the libraries is read off it. -/
def rendererEnv : Env :=
  { Get := fun _ => Except.error { IsNotFound := true, msg := "not found" }
    SchemeGroup := "dpmock.volcano.sh"
    DefaultDevicePrefix := "dev"
    execute := fun text jsonContext =>
      match executeChars ((toJson (contextPrefix jsonContext)).flatMap htmlEscapeChar) 0
          text.data with
      | some out => Except.ok (String.mk out)
      | none => Except.error "template outside the model"
    UnescapeString := fun s => String.mk (unescapeChars 0 s.data)
    YAMLToJSON := fun s =>
      match yamlModel s.data with
      | YamlResult.json out => Except.ok (String.mk out)
      | YamlResult.fails => Except.error "yaml: conversion failed"
      | YamlResult.unmodelled => Except.error "document outside the model" }

/-! ## Auxiliary notions used in the statements -/

/-- The number a list of decimal digit characters denotes. -/
def decVal (cs : List Char) : Nat := cs.foldl (fun a c => 10 * a + (c.toNat - 48)) 0

/-- A string-prefix test on the characters of two strings. -/
def IsStringPrefix (a b : String) : Prop := a.data <+: b.data

instance (a b : String) : Decidable (IsStringPrefix a b) := by
  unfold IsStringPrefix; infer_instance

instance (m₁ m₂ : List (String × Int)) : Decidable (SameMap m₁ m₂) := by
  unfold SameMap; infer_instance

/-! ## A concrete cluster used to evaluate the resolvers -/

/-- A `NodeResource` named `gpu` with the static prefixes `a`, `b`. -/
def exampleGpu : NodeResource :=
  { Name := "gpu"
    Spec :=
      { ResourceName := "example.com/gpu"
        DeviceIDGeneratePolicy :=
          some { Prefix := some { Static := ["a", "b"], ParentResourceRef := none }
                 Delimiter := "-"
                 OrdinalStart := 0 }
        DefaultCapacity := Quantity.int64 2 0
        DefaultNodePatchTemplate := ""
        DefaultNodeUndoPatch := "" } }

/-- A `NodeResource` named `vgpu` that cascades to a parent named by a reference
whose kind is not `NodeResource`. -/
def exampleVgpu : NodeResource :=
  { Name := "vgpu"
    Spec :=
      { ResourceName := "example.com/vgpu"
        DeviceIDGeneratePolicy :=
          some { Prefix := some { Static := [],
                                  ParentResourceRef :=
                                    some { APIGroup := "", Kind := "ConfigMap", Name := "gpu" } }
                 Delimiter := "-"
                 OrdinalStart := 0 }
        DefaultCapacity := Quantity.int64 2 0
        DefaultNodePatchTemplate := ""
        DefaultNodeUndoPatch := "" } }

/-- A `NodeResource` named `vvgpu` that cascades to `vgpu`, which cascades itself. -/
def exampleNested : NodeResource :=
  { Name := "vvgpu"
    Spec :=
      { ResourceName := "example.com/vvgpu"
        DeviceIDGeneratePolicy :=
          some { Prefix := some { Static := [],
                                  ParentResourceRef :=
                                    some { APIGroup := "", Kind := "ConfigMap", Name := "vgpu" } }
                 Delimiter := "-"
                 OrdinalStart := 0 }
        DefaultCapacity := Quantity.int64 2 0
        DefaultNodePatchTemplate := ""
        DefaultNodeUndoPatch := "" } }

/-- A `NodeResource` named `slice` that cascades to `gpu` through a reference of
this system's group and kind `NodeResource`. -/
def exampleSlice : NodeResource :=
  { Name := "slice"
    Spec :=
      { ResourceName := "example.com/slice"
        DeviceIDGeneratePolicy :=
          some { Prefix := some { Static := [],
                                  ParentResourceRef :=
                                    some { APIGroup := "dpmock.volcano.sh", Kind := "NodeResource",
                                           Name := "gpu" } }
                 Delimiter := "-"
                 OrdinalStart := 0 }
        DefaultCapacity := Quantity.int64 2 0
        DefaultNodePatchTemplate := ""
        DefaultNodeUndoPatch := "" } }

/-- A `NodeResource` named `bare` whose device-ID policy has no prefix policy object. -/
def exampleBare : NodeResource :=
  { Name := "bare"
    Spec :=
      { ResourceName := "example.com/bare"
        DeviceIDGeneratePolicy := some { Prefix := none, Delimiter := "-", OrdinalStart := 0 }
        DefaultCapacity := Quantity.int64 2 0
        DefaultNodePatchTemplate := ""
        DefaultNodeUndoPatch := "" } }

/-- A cluster holding `exampleGpu`, `exampleVgpu`, `exampleNested`, `exampleSlice`
and `exampleBare`; the name `broken` fails with a server error and every other
name is not found.  The group is the one of the kubebuilder markers of the
controller, the default device prefix the one of the specification's example. -/
def exampleEnv : Env :=
  { Get := fun name =>
      if name = "gpu" then Except.ok exampleGpu
      else if name = "vgpu" then Except.ok exampleVgpu
      else if name = "vvgpu" then Except.ok exampleNested
      else if name = "slice" then Except.ok exampleSlice
      else if name = "bare" then Except.ok exampleBare
      else if name = "broken" then
        Except.error { IsNotFound := false, msg := "internal server error" }
      else Except.error { IsNotFound := true, msg := "not found" }
    SchemeGroup := "dpmock.volcano.sh"
    DefaultDevicePrefix := "dev"
    execute := fun _ _ => Except.error "template: execution failed"
    UnescapeString := fun s => s
    YAMLToJSON := fun s => Except.ok s }

/-- A configuration with the given entries and status. -/
def exampleConfig (resources : List ResourceRequirement)
    (descs : List ResourceDescription) : NodeResourceConfiguration :=
  { Name := "cfg", Spec := { Resources := resources },
    Status := { ResourceDescriptions := descs } }

/-- An entry with the given inline name, reference and capacity, without patch
templates. -/
def exampleEntry (name : String) (ref : Option ResourceReference) (capacity : Option Quantity) :
    ResourceRequirement :=
  { ResourceName := name, ResourceRef := ref, Capacity := capacity,
    NodePatchTemplate := "", NodeUndoPatch := "" }

/-- A reference to the `NodeResource` `gpu`: this system's group, kind `NodeResource`. -/
def gpuNodeResourceRef : ResourceReference :=
  { APIGroup := "dpmock.volcano.sh", Kind := "NodeResource", Name := "gpu" }

/-- A reference of another kind and group that carries the name `gpu`. -/
def gpuConfigMapRef : ResourceReference :=
  { APIGroup := "", Kind := "ConfigMap", Name := "gpu" }

/-- The resolved description of `example.com/gpu` with the identifiers `a-0`, `a-1`. -/
def exampleGpuDesc : ResourceDescription :=
  { ResourceName := "example.com/gpu"
    Capacity := Quantity.int64 2 0
    DeviceIDFormat := { Prefix := [("a", 2)], Delimiter := "-", OrdinalStart := 0 }
    NodePatch := ""
    NodeUndoPatch := "" }

/-- A reference of kind `ConfigMap` in the empty group that carries the given name. -/
def configMapRef (name : String) : ResourceReference :=
  { APIGroup := "", Kind := "ConfigMap", Name := name }

/-- A reference to the `NodeResource` with the given name: this system's group,
kind `NodeResource`. -/
def nodeResourceRef (name : String) : ResourceReference :=
  { APIGroup := "dpmock.volcano.sh", Kind := "NodeResource", Name := name }

/-- A description named `name` with the single identifier `name/0`. -/
def exampleDesc (name : String) : ResourceDescription :=
  { ResourceName := name
    Capacity := Quantity.int64 1 0
    DeviceIDFormat := { Prefix := [(name, 1)], Delimiter := "/", OrdinalStart := 0 }
    NodePatch := ""
    NodeUndoPatch := "" }

/-- A controller that tracks the managers `x` (id 0) and `a` (id 1), neither
updated yet. -/
def exampleController : Controller :=
  { managers := [("x", { id := 0, ResourceManager := resmanager.New "x" }),
                 ("a", { id := 1, ResourceManager := resmanager.New "a" })]
    nextID := 2 }

/-! ## The run loop of a resource manager (`pkg/daemon/resmanager/resource_manager.go`) -/

/-- The errors of `patchToNode`. -/
inductive PatchErr where
  /-- The error of `yaml.YAMLToJSON`, returned as it is. -/
  | yaml (e : String)
  /-- `fmt.Errorf("patch to node fail: %w", err)`. -/
  | patch (e : ClientErr)
  deriving DecidableEq, Repr

/-- What a resource manager does outside itself: the call
`m.dpServer.UpdateDeviceIDs(deviceIDs)` on the plugin server and the request
`Nodes().Patch(ctx, NodeName, StrategicMergePatchType, jsonPatch, ...)`. -/
inductive NodeCall where
  | UpdateDeviceIDs (deviceIDs : List String)
  | Patch (jsonPatch : String)
  deriving DecidableEq, Repr

/-- What `patchToNode` consumes from outside: `yaml.YAMLToJSON` and the answer of
the API server to a patch request for this node (`none` when it succeeds). -/
structure NodeEnv where
  YAMLToJSON : String → Except String String
  Patch : String → Option ClientErr

/-- Go `patchToNode`: the error it returns (`none` for `nil`) and the requests it
sends.  A patch that `yaml.YAMLToJSON` rejects is not sent. -/
def patchToNode (env : NodeEnv) (patch : String) : Option PatchErr × List NodeCall :=
  match env.YAMLToJSON patch with
  | Except.error e => (some (PatchErr.yaml e), [])
  | Except.ok jsonPatch =>
    match env.Patch jsonPatch with
    | some e => (some (PatchErr.patch e), [NodeCall.Patch jsonPatch])
    | none => (none, [NodeCall.Patch jsonPatch])

/-- Go `(*resourceManager).syncConfigOnce`: the error it returns and the calls it
makes.  `BuildDeviceID` visits the prefix map in the order of its entries. -/
def resourceManager.syncConfigOnce (env : NodeEnv) (m : resourceManager) :
    Option PatchErr × List NodeCall :=
  match m.desc with
  | none => (none, [])
  | some desc =>
    if desc.NodePatch ≠ "" then
      ((patchToNode env desc.NodePatch).1,
        NodeCall.UpdateDeviceIDs (BuildDeviceID desc.DeviceIDFormat) ::
          (patchToNode env desc.NodePatch).2)
    else (none, [NodeCall.UpdateDeviceIDs (BuildDeviceID desc.DeviceIDFormat)])

/-- One run of the function that `Run` hands to `wait.UntilWithContext` with the
period of one second: nothing when `synchronized` is set; otherwise the flag is
set, `syncConfigOnce` runs, and an error clears the flag again. -/
def resourceManager.syncTick (env : NodeEnv) (m : resourceManager) :
    resourceManager × List NodeCall :=
  if m.synchronized then (m, [])
  else
    match (resourceManager.syncConfigOnce env { m with synchronized := true }).1 with
    | some _ =>
      ({ m with synchronized := false },
        (resourceManager.syncConfigOnce env { m with synchronized := true }).2)
    | none =>
      ({ m with synchronized := true },
        (resourceManager.syncConfigOnce env { m with synchronized := true }).2)

/-- Go `(*resourceManager).onExit`: the requests it sends; an error is logged only. -/
def resourceManager.onExit (env : NodeEnv) (m : resourceManager) : List NodeCall :=
  match m.desc with
  | none => []
  | some desc =>
    if desc.NodeUndoPatch ≠ "" then (patchToNode env desc.NodeUndoPatch).2 else []

/-- What happens to a running manager before its context is cancelled: a call
of `Update`, or a run of the sync function. -/
inductive ManagerEvent where
  | Update (desc : ResourceDescription)
  | Tick
  deriving DecidableEq, Repr

/-- The manager after one event, and the calls made during it. -/
def resourceManager.step (DeepEqual : ResourceDescription → ResourceDescription → Bool)
    (env : NodeEnv) (m : resourceManager) : ManagerEvent → resourceManager × List NodeCall
  | ManagerEvent.Update desc => (m.Update DeepEqual desc, [])
  | ManagerEvent.Tick => m.syncTick env

/-- The manager after a sequence of events, and the calls made during them. -/
def resourceManager.steps (DeepEqual : ResourceDescription → ResourceDescription → Bool)
    (env : NodeEnv) : resourceManager → List ManagerEvent → resourceManager × List NodeCall
  | m, [] => (m, [])
  | m, ev :: rest =>
    ((resourceManager.steps DeepEqual env (resourceManager.step DeepEqual env m ev).1 rest).1,
      (resourceManager.step DeepEqual env m ev).2 ++
        (resourceManager.steps DeepEqual env (resourceManager.step DeepEqual env m ev).1 rest).2)

/-- Go `(*resourceManager).Run` from the start of the manager to its return: the
events before the cancellation, then `<-ctx.Done()` and `onExit`.  The result is
the calls of the loop and the calls of `onExit`. -/
def resourceManager.Run (DeepEqual : ResourceDescription → ResourceDescription → Bool)
    (env : NodeEnv) (m : resourceManager) (events : List ManagerEvent) :
    List NodeCall × List NodeCall :=
  ((resourceManager.steps DeepEqual env m events).2,
    resourceManager.onExit env (resourceManager.steps DeepEqual env m events).1)

/-! ## `pkg/daemon/resmanager/deviceplugin/device.go` -/

/-- A Go slice value: the address of its backing array, the offset of its first
element in that array, and its length. -/
structure Slice where
  array : Nat
  off : Nat
  len : Nat
  deriving DecidableEq, Repr

/-- The `nil` slice. -/
def Slice.nil : Slice := { array := 0, off := 0, len := 0 }

/-- The memory that slices point into: the backing arrays, by address. -/
structure Memory (T : Type) where
  arrays : List (List T)
  deriving DecidableEq, Repr

/-- The elements of a slice. -/
def Memory.elems {T : Type} (mem : Memory T) (s : Slice) : List T :=
  ((mem.arrays.getD s.array []).drop s.off).take s.len

/-- The statements `newList := make([]T, len(list)); copy(newList, list)`: a new
backing array that holds the elements of `list`, and the slice over it. -/
def Memory.makeCopy {T : Type} (mem : Memory T) (list : Slice) : Memory T × Slice :=
  ({ arrays := mem.arrays ++ [mem.elems list] },
    { array := mem.arrays.length, off := 0, len := list.len })

/-- The assignment `s[i] = v` through a slice, for `i < len(s)`. -/
def Memory.assign {T : Type} (mem : Memory T) (s : Slice) (i : Nat) (v : T) : Memory T :=
  if i < s.len then
    { arrays := mem.arrays.set s.array ((mem.arrays.getD s.array []).set (s.off + i) v) }
  else mem

/-- Go `listMonitor[T]` without its lock: the slice `list` and the `uint64`
`version`. -/
structure listMonitor where
  list : Slice
  version : Nat
  deriving DecidableEq, Repr

/-- Go `NewListMonitor`: the zero value. -/
def NewListMonitor : listMonitor := { list := Slice.nil, version := 0 }

/-- Go `(*listMonitor[T]).Update`; `m.version++` is a `uint64` increment. -/
def listMonitor.Update {T : Type} (mem : Memory T) (m : listMonitor) (list : Slice) :
    Memory T × listMonitor :=
  ((mem.makeCopy list).1,
    { list := (mem.makeCopy list).2, version := (m.version + 1) % 18446744073709551616 })

/-- The local state of one call of `ListAndWatch`: the variable `version`, and the
lists handed to `f` so far, oldest first. -/
structure watcher (T : Type) where
  version : Nat
  delivered : List (List T)
  deriving DecidableEq, Repr

/-- The start of `(*listMonitor[T]).ListAndWatch`: `version` is `math.MaxUint64`. -/
def listMonitor.ListAndWatch {T : Type} : watcher T :=
  { version := 18446744073709551615, delivered := [] }

/-- One run of the function that `ListAndWatch` hands to `wait.Until`: nothing
when `version == m.version`; otherwise `version` is set, the list is copied and
the copy is handed to `f`. -/
def listMonitor.poll {T : Type} (mem : Memory T) (m : listMonitor) (w : watcher T) :
    Memory T × watcher T :=
  if w.version = m.version then (mem, w)
  else
    ((mem.makeCopy m.list).1,
      { version := m.version,
        delivered := w.delivered ++ [(mem.makeCopy m.list).1.elems (mem.makeCopy m.list).2] })

/-- The monitor after a sequence of `Update` calls. -/
def listMonitor.Updates {T : Type} :
    Memory T → listMonitor → List Slice → Memory T × listMonitor
  | mem, m, [] => (mem, m)
  | mem, m, list :: rest =>
    listMonitor.Updates (listMonitor.Update mem m list).1 (listMonitor.Update mem m list).2 rest

/-- A monitor with one stream on it. -/
structure watchState (T : Type) where
  mem : Memory T
  monitor : listMonitor
  stream : watcher T
  deriving DecidableEq, Repr

/-- What happens while a stream is open: a call of `Update`, or a poll of the
stream. -/
inductive WatchEvent where
  | Update (list : Slice)
  | Poll
  deriving DecidableEq, Repr

/-- The state after one event. -/
def watchState.step {T : Type} (s : watchState T) : WatchEvent → watchState T
  | WatchEvent.Update list =>
    { mem := (listMonitor.Update s.mem s.monitor list).1
      monitor := (listMonitor.Update s.mem s.monitor list).2
      stream := s.stream }
  | WatchEvent.Poll =>
    { mem := (listMonitor.poll s.mem s.monitor s.stream).1
      monitor := s.monitor
      stream := (listMonitor.poll s.mem s.monitor s.stream).2 }

/-- The state after a sequence of events. -/
def watchState.steps {T : Type} (s : watchState T) (events : List WatchEvent) : watchState T :=
  events.foldl watchState.step s

/-- A stream started on the monitor that a sequence of `Update` calls leaves
behind, starting from `NewListMonitor`. -/
def watchState.start {T : Type} (mem : Memory T) (lists : List Slice) : watchState T :=
  { mem := (listMonitor.Updates mem NewListMonitor lists).1
    monitor := (listMonitor.Updates mem NewListMonitor lists).2
    stream := listMonitor.ListAndWatch }

/-- The number of `Update` calls among the events. -/
def updateCount (events : List WatchEvent) : Nat :=
  (events.filter (fun ev => ev ≠ WatchEvent.Poll)).length

/-! ## `pkg/daemon/resmanager/deviceplugin/interface.go` -/

/-- Go `pluginapi.ContainerAllocateRequest`. -/
structure ContainerAllocateRequest where
  DevicesIds : List String
  deriving DecidableEq, Repr

/-- Go `pluginapi.AllocateRequest`; the elements of `ContainerRequests` are
pointers, which are not nil in a decoded request. -/
structure AllocateRequest where
  ContainerRequests : List ContainerAllocateRequest
  deriving DecidableEq, Repr

/-- Go `pluginapi.ContainerAllocateResponse`, as far as `Allocate` fills it:
the map `Envs`, listed by its entries. -/
structure ContainerAllocateResponse where
  Envs : List (String × String)
  deriving DecidableEq, Repr

/-- Go `pluginapi.AllocateResponse`. -/
structure AllocateResponse where
  ContainerResponses : List ContainerAllocateResponse
  deriving DecidableEq, Repr

/-- Go `strings.Join`: the empty string for no element, otherwise the first
element followed by each further element with `sep` before it. -/
def strings.Join (elems : List String) (sep : String) : String :=
  match elems with
  | [] => ""
  | first :: rest => rest.foldl (fun b s => b ++ sep ++ s) first

/-- Go `server`, as far as `Allocate` and `UpdateDeviceIDs` touch it: the resource
name, the monitor of the advertised device ids and the `uint64` counter
`allocateID`. -/
structure server where
  resourceName : String
  deviceIDs : listMonitor
  allocateID : Nat
  deriving DecidableEq, Repr

/-- Go `(*server).Allocate` on a non-nil request: the server afterwards (the
counter is incremented for the log lines) and the response with the error. -/
def server.Allocate (s : server) (request : AllocateRequest) :
    server × Outcome AllocateResponse :=
  ({ s with allocateID := (s.allocateID + 1) % 18446744073709551616 },
    Outcome.ok
      (request.ContainerRequests.foldl
        (fun ret req =>
          { ContainerResponses := ret.ContainerResponses ++
              [{ Envs := [("DEV_IDS", strings.Join req.DevicesIds ",")] }] })
        { ContainerResponses := [] }))

/-! ## `pkg/daemon/controller/sync_config.go`: `syncConfigOnce` -/

/-- Go `corev1.Node`, as far as `syncConfigOnce` reads it: the labels. -/
structure Node where
  Labels : List (String × String)
  deriving DecidableEq, Repr

/-- The errors of the controller's `syncConfigOnce`. -/
inductive SyncErr where
  /-- `fmt.Errorf("failed to get node %s: %w", ...)`. -/
  | getNode (e : ClientErr)
  /-- `fmt.Errorf("failed to list nrcfg: %w", err)`. -/
  | list (e : String)
  deriving DecidableEq, Repr

/-- What `syncConfigOnce` consumes from outside: the lookup of this node, the
lister of configurations, `sort.Slice`, and `metav1.LabelSelectorAsSelector`,
whose selector is given by what its `Matches` answers on a label set.
`SortSlice less l` is the slice `l` after `sort.Slice(l, less)`; the comparison,
which Go states on two indices of the slice, is given on the two elements at
these indices. -/
structure ControllerEnv where
  GetNode : Except ClientErr Node
  ListConfigs : Except String (List NodeResourceConfiguration)
  SortSlice : (NodeResourceConfiguration → NodeResourceConfiguration → Bool) →
    List NodeResourceConfiguration → List NodeResourceConfiguration
  LabelSelectorAsSelector : Option LabelSelector → Except String (List (String × String) → Bool)

/-- The comparison closure that `syncConfigOnce` hands to `sort.Slice`
(`sync_config.go`, lines 53 to 58): the UIDs decide between equal creation
timestamps, otherwise the earlier timestamp is less. -/
def nrcfgLess (a b : NodeResourceConfiguration) : Bool :=
  if a.CreationTimestamp = b.CreationTimestamp then decide (a.UID < b.UID)
  else decide (a.CreationTimestamp < b.CreationTimestamp)

/-- Go `nrcfgEmpty`. -/
def nrcfgEmpty : NodeResourceConfiguration :=
  { Name := "nrcfg-empty", Spec := { Resources := [] }, Status := { ResourceDescriptions := [] } }

/-- The loop of `syncConfigOnce` over the sorted list: the first configuration
whose selector converts and matches the labels; a selector that does not convert
is skipped. -/
def firstMatching (env : ControllerEnv) (labels : List (String × String)) :
    List NodeResourceConfiguration → Option NodeResourceConfiguration
  | [] => none
  | nrcfg :: rest =>
    match env.LabelSelectorAsSelector nrcfg.Spec.NodeSelector with
    | Except.error _ => firstMatching env labels rest
    | Except.ok selector =>
      if selector labels then some nrcfg else firstMatching env labels rest

/-- Go `(*Controller).syncConfigOnce`: the error it returns (`none` for `nil`), the
controller afterwards and the effects.  The listed configurations are sorted by
`sort.Slice` with the comparison `nrcfgLess`, and the loop runs over the sorted
slice.  `order nrcfg` is the order in which `applyConfig` visits the
`resDescMap` of the configuration it is called with. -/
def Controller.syncConfigOnce (env : ControllerEnv)
    (DeepEqual : ResourceDescription → ResourceDescription → Bool) (c : Controller)
    (order : NodeResourceConfiguration → List (String × ResourceDescription)) :
    Option SyncErr × Controller × List Effect :=
  match env.GetNode with
  | Except.error e => (some (SyncErr.getNode e), c, [])
  | Except.ok node =>
    match env.ListConfigs with
    | Except.error e => (some (SyncErr.list e), c, [])
    | Except.ok nrcfgList =>
      match firstMatching env node.Labels (env.SortSlice nrcfgLess nrcfgList) with
      | some nrcfg => (none, c.applyConfig DeepEqual nrcfg (order nrcfg))
      | none => (none, c.applyConfig DeepEqual nrcfgEmpty (order nrcfgEmpty))

/-! ## `pkg/daemon/resmanager/deviceplugin/server.go`: `Serve` -/

/-- A Go channel that has been made: its capacity, the values in its buffer, the
values of the senders blocked on it, and whether it is closed. -/
structure chanState (α : Type) where
  cap : Nat
  buffer : List α
  senders : List α
  closed : Bool
  deriving DecidableEq, Repr

/-- The statement `make(chan α, cap)`; a channel variable that is only declared
holds `nil`, which is `none` here. -/
def makeChan {α : Type} (cap : Nat) : Option (chanState α) :=
  some { cap := cap, buffer := [], senders := [], closed := false }

/-- A goroutine executing `ch <- v`: on a `nil` channel it blocks forever and the
channel stays `nil`; on a made channel the value goes into the buffer or, when
the buffer is full, waits with the blocked senders. -/
def chanSend {α : Type} (ch : Option (chanState α)) (v : α) : Option (chanState α) :=
  match ch with
  | none => none
  | some st =>
    if st.buffer.length < st.cap then some { st with buffer := st.buffer ++ [v] }
    else some { st with senders := st.senders ++ [v] }

/-- What a receive `<-ch` yields when it is ready: never on a `nil` channel; on a
made channel the first buffered value, else the value of the first blocked
sender, else the zero value `zero` when the channel is closed. -/
def chanRecv {α : Type} (zero : α) (ch : Option (chanState α)) : Option α :=
  match ch with
  | none => none
  | some st =>
    match st.buffer, st.senders with
    | v :: _, _ => some v
    | [], v :: _ => some v
    | [], [] => if st.closed then some zero else none

/-- The errors `Serve` returns. -/
inductive ServeErr where
  /-- `fmt.Errorf("failed to remove endpoint file %s: %w", ...)`. -/
  | removeEndpoint (e : String)
  /-- `fmt.Errorf("failed to create directory %s for endpoint: %w", ...)`. -/
  | createDirectory (e : String)
  /-- `fmt.Errorf("failed to listen unix socket %s: %w", ...)`. -/
  | listen (e : String)
  /-- `fmt.Errorf("failed to register to kubelet: %w", err)`. -/
  | register (e : String)
  /-- `fmt.Errorf("grpc server terminated with error: %w", e)`; `none` is the nil
  error. -/
  | grpcTerminated (e : Option String)
  /-- `errors.New("kubelet disconnected")`. -/
  | kubeletDisconnected
  deriving DecidableEq, Repr

/-- What happens around one call of `Serve`: whether the endpoint file exists and
the errors of `os.Remove`, `os.MkdirAll`, `net.Listen` and `registerToKubelet`
(`none` for `nil`); the error with which `grpcServer.Serve(sock)` returns while
`Serve` waits, if it does; whether the kubelet's `ListAndWatch` call ends, which
sends on `kubeletConnEvt`; and whether the context gets cancelled. -/
structure ServeEnv where
  endpointExists : Bool
  removeErr : Option String
  mkdirErr : Option String
  listenErr : Option String
  registerErr : Option String
  grpcServeErr : Option String
  kubeletDisconnects : Bool
  ctxDone : Bool
  deriving DecidableEq, Repr

/-- The goroutine of `Serve`: when `grpcServer.Serve(sock)` returns an error, it is
sent on `errCh`. -/
def serveGoroutine (errCh : Option (chanState (Option String))) (env : ServeEnv) :
    Option (chanState (Option String)) :=
  match env.grpcServeErr with
  | none => errCh
  | some e => chanSend errCh (some e)

/-- The `select` of `Serve`: the values it can return, one for each case that is
ready; the empty list when no case ever gets ready. -/
def serveSelect (errCh : Option (chanState (Option String)))
    (kubeletConnEvt : Option (chanState Unit)) (ctxDone : Bool) : List (Option ServeErr) :=
  (match chanRecv none errCh with
    | some e => [some (ServeErr.grpcTerminated e)]
    | none => []) ++
  (match chanRecv () kubeletConnEvt with
    | some _ => [some ServeErr.kubeletDisconnected]
    | none => []) ++
  (if ctxDone then [none] else [])

/-- Go `(*server).Serve`: the values it can return (`none` for `nil`); the empty
list when it never returns.  `errCh` is declared by `var errCh chan error` and
never assigned, `kubeletConnEvt` is `make(chan any, 1)`. -/
def server.Serve (env : ServeEnv) : List (Option ServeErr) :=
  match (if env.endpointExists then env.removeErr else none) with
  | some e => [some (ServeErr.removeEndpoint e)]
  | none =>
    match env.mkdirErr with
    | some e => [some (ServeErr.createDirectory e)]
    | none =>
      match env.listenErr with
      | some e => [some (ServeErr.listen e)]
      | none =>
        match env.registerErr with
        | some e => [some (ServeErr.register e)]
        | none =>
          serveSelect (serveGoroutine none env)
            (if env.kubeletDisconnects then chanSend (makeChan 1) () else makeChan 1)
            env.ctxDone

/-! ## Auxiliary notions for the daemon -/

/-- The descriptions that the `Update` calls among the events store, oldest first,
when `stored` is the description stored before them: a call whose description
`DeepEqual` finds equal to the stored one stores nothing. -/
def acceptedDescs (DeepEqual : ResourceDescription → ResourceDescription → Bool) :
    Option ResourceDescription → List ManagerEvent → List ResourceDescription
  | _, [] => []
  | stored, ManagerEvent.Tick :: rest => acceptedDescs DeepEqual stored rest
  | stored, ManagerEvent.Update desc :: rest =>
    if (match stored with
        | some s => DeepEqual s desc
        | none => false) then acceptedDescs DeepEqual stored rest
    else desc :: acceptedDescs DeepEqual (some desc) rest

/-- What the claims on a stream rest on, after `n` calls of `Update` in all: the
version of the monitor is `n`, below `math.MaxUint64`; the stored slice is empty
or points into the memory; and the stream either has delivered nothing and holds
`math.MaxUint64`, or holds a version that is at most `n` and, when it is `n`, has
delivered the stored list last. -/
def watchInv {T : Type} (n : Nat) (s : watchState T) : Prop :=
  s.monitor.version = n ∧ n < 18446744073709551615 ∧
  (s.monitor.list.len = 0 ∨ s.monitor.list.array < s.mem.arrays.length) ∧
  ((s.stream.version = 18446744073709551615 ∧ s.stream.delivered = []) ∨
    (s.stream.version ≤ n ∧
      (s.stream.version = n →
        s.stream.delivered.getLast? = some (s.mem.elems s.monitor.list))))

/-- Whether the loop of `syncConfigOnce` takes a configuration on a node with the
given labels: its node selector converts and the selector matches the labels. -/
def selects (env : ControllerEnv) (labels : List (String × String))
    (nrcfg : NodeResourceConfiguration) : Bool :=
  match env.LabelSelectorAsSelector nrcfg.Spec.NodeSelector with
  | Except.ok selector => selector labels
  | Except.error _ => false

/-- What Go asks of a comparison given to `sort.Slice`: a strict weak ordering.
Nothing is less than itself, the comparison is transitive, and so is being
ordered neither way. -/
def strictWeakOrder {α : Type} (less : α → α → Bool) : Prop :=
  (∀ a, less a a = false) ∧
  (∀ a b c, less a b = true → less b c = true → less a c = true) ∧
  (∀ a b c, less a b = false → less b a = false → less b c = false → less c b = false →
    less a c = false ∧ less c a = false)

/-- What `sort.Slice` promises: called with a strict weak ordering it leaves the
same elements, none of them less than an element before it.  Elements ordered
neither way may end in any order (the sort is not stable). -/
def sortSliceContract (env : ControllerEnv) : Prop :=
  ∀ (less : NodeResourceConfiguration → NodeResourceConfiguration → Bool)
    (l : List NodeResourceConfiguration), strictWeakOrder less →
    (env.SortSlice less l).Perm l ∧
    (env.SortSlice less l).Pairwise (fun a b => less b a = false)

/-! ## A concrete node used to evaluate the daemon -/

/-- A strategic merge patch that sets the node label `key` to `on`. -/
def exampleApplyPatch (key : String) : String :=
  "\x7b\"metadata\":\x7b\"labels\":\x7b\"" ++ key ++ "\":\"on\"\x7d\x7d\x7d"

/-- A strategic merge patch that removes the node label `key`. -/
def exampleUndoPatch (key : String) : String :=
  "\x7b\"metadata\":\x7b\"labels\":\x7b\"" ++ key ++ "\":null\x7d\x7d\x7d"

/-- A node that accepts every patch; the conversion leaves a text as it is (the
patches of the examples are JSON texts) and rejects a text that is a tab. -/
def exampleNodeEnv : NodeEnv :=
  { YAMLToJSON := fun s =>
      if s = "\t" then Except.error "yaml: found character that cannot start any token"
      else Except.ok s
    Patch := fun _ => none }

/-- A node whose API server refuses every patch. -/
def refusingNodeEnv : NodeEnv :=
  { YAMLToJSON := fun s =>
      if s = "\t" then Except.error "yaml: found character that cannot start any token"
      else Except.ok s
    Patch := fun _ => some { IsNotFound := false, msg := "connection refused" } }

/-- The description `exampleDesc name` with an apply patch that sets the label
`key` and an undo patch that removes it. -/
def exampleLabelDesc (name key : String) : ResourceDescription :=
  { ResourceName := name
    Capacity := Quantity.int64 1 0
    DeviceIDFormat := { Prefix := [(name, 1)], Delimiter := "/", OrdinalStart := 0 }
    NodePatch := exampleApplyPatch key
    NodeUndoPatch := exampleUndoPatch key }

/-- A manager named `a` that stores `exampleLabelDesc "a" "gpu-a"` and is not
synchronized. -/
def exampleDirtyManager : resourceManager :=
  { resourceName := "a", desc := some (exampleLabelDesc "a" "gpu-a"), synchronized := false }

/-- A `NodeResource` named `twin` whose static prefix list names `a` twice. -/
def exampleTwin : NodeResource :=
  { Name := "twin"
    Spec :=
      { ResourceName := "example.com/twin"
        DeviceIDGeneratePolicy :=
          some { Prefix := some { Static := ["a", "a"], ParentResourceRef := none }
                 Delimiter := "-"
                 OrdinalStart := 0 }
        DefaultCapacity := Quantity.int64 2 0
        DefaultNodePatchTemplate := ""
        DefaultNodeUndoPatch := "" } }

/-- The example cluster with `exampleTwin` added. -/
def twinEnv : Env :=
  { exampleEnv with
    Get := fun name => if name = "twin" then Except.ok exampleTwin else exampleEnv.Get name }

/-- A configuration named `name` with the creation timestamp `created`, the given
node selector and one desired description named `name`. -/
def exampleSelecting (name : String) (created : Int) (selector : Option LabelSelector) :
    NodeResourceConfiguration :=
  { Name := name
    Spec := { Resources := [], NodeSelector := selector }
    Status := { ResourceDescriptions := [exampleDesc name] }
    CreationTimestamp := created
    UID := name }

/-- A selector for the label `pool` with the value `value`. -/
def poolSelector (value : String) : Option LabelSelector :=
  some { MatchLabels := [("pool", value)], MatchExpressions := [] }

/-- A selector with an operator that `metav1.LabelSelectorAsSelector` rejects. -/
def brokenSelector : Option LabelSelector :=
  some { MatchLabels := [],
         MatchExpressions := [{ Key := "pool", Operator := "Near", Values := ["mock"] }] }

/-- A node daemon on a node with the label `pool=mock`.  The lister holds four
configurations: `late` (created at 3, selects `pool=mock`), `broken` (created at
0, selector does not convert), `other` (created at 1, selects `pool=real`) and
`early` (created at 2, selects `pool=mock`).  The conversion knows `nil` (selects
nothing) and selectors by labels only; the sort is an insertion sort. -/
def exampleControllerEnv : ControllerEnv :=
  { GetNode := Except.ok { Labels := [("pool", "mock")] }
    ListConfigs := Except.ok
      [exampleSelecting "late" 3 (poolSelector "mock"),
       exampleSelecting "broken" 0 brokenSelector,
       exampleSelecting "other" 1 (poolSelector "real"),
       exampleSelecting "early" 2 (poolSelector "mock")]
    SortSlice := fun less l => l.insertionSort (fun a b => less b a = false)
    LabelSelectorAsSelector := fun sel =>
      match sel with
      | none => Except.ok (fun _ => false)
      | some s =>
        if s.MatchExpressions = [] then
          Except.ok (fun labels => s.MatchLabels.all (fun kv => labels.contains kv))
        else Except.error "not a valid label selector operator" }

/-- The order in which `applyConfig` visits `resDescMap` in the examples: the
order of the map model. -/
def exampleOrder (nrcfg : NodeResourceConfiguration) : List (String × ResourceDescription) :=
  buildResDescMap nrcfg.Status.ResourceDescriptions

/-- A call of `Serve` in which everything succeeds up to the registration, then
`grpcServer.Serve` returns an error; the kubelet stays connected and the context
is not cancelled. -/
def grpcFailsEnv : ServeEnv :=
  { endpointExists := false
    removeErr := none
    mkdirErr := none
    listenErr := none
    registerErr := none
    grpcServeErr := some "accept unix: use of closed network connection"
    kubeletDisconnects := false
    ctxDone := false }

/-! ## Decimal rendering is injective -/

theorem digitChar_toNat_sub (d : Nat) (h : d < 10) : (Nat.digitChar d).toNat - 48 = d := by
  interval_cases d <;> rfl

theorem foldl_toDigitsCore (fuel : Nat) : ∀ (n : Nat) (ds : List Char), n < fuel →
    (Nat.toDigitsCore 10 fuel n ds).foldl (fun a c => 10 * a + (c.toNat - 48)) 0
      = ds.foldl (fun a c => 10 * a + (c.toNat - 48)) n := by
  induction fuel with
  | zero => intro n ds h; omega
  | succ fuel ih =>
    intro n ds h
    simp only [Nat.toDigitsCore]
    split
    · rename_i h0
      have hn : n % 10 = n := by omega
      simp only [List.foldl_cons, digitChar_toNat_sub (n % 10) (Nat.mod_lt _ (by decide))]
      rw [hn]; simp
    · rename_i h0
      rw [ih (n / 10) _ (by omega)]
      simp only [List.foldl_cons, digitChar_toNat_sub (n % 10) (Nat.mod_lt _ (by decide))]
      congr 1; omega

theorem decVal_repr (n : Nat) : decVal (Nat.repr n).data = n := by
  have := foldl_toDigitsCore (n + 1) n [] (by omega)
  simpa [decVal, Nat.repr, Nat.toDigits, List.asString] using this

theorem decVal_minus (s : String) : decVal ("-" ++ s).data = decVal s.data := by
  have h : ("-" ++ s).data = '-' :: s.data := by rw [String.data_append]; rfl
  rw [h]; simp [decVal]

theorem Itoa_injective : Function.Injective Itoa := by
  intro a b h
  cases a with
  | ofNat m =>
    cases b with
    | ofNat k =>
      simp only [Itoa] at h
      have := congrArg (fun s => decVal s.data) h
      simp only [decVal_repr] at this
      rw [this]
    | negSucc k =>
      simp only [Itoa] at h
      have h1 := congrArg (fun s => decVal s.data) h
      simp only [decVal_repr, decVal_minus] at h1
      have h2 := congrArg (fun s => s.data.length) h
      simp only [String.data_append, List.length_append] at h2
      rw [h1] at h2
      simp only [List.length_singleton] at h2
      exfalso; omega
  | negSucc m =>
    cases b with
    | ofNat k =>
      simp only [Itoa] at h
      have h1 := congrArg (fun s => decVal s.data) h
      simp only [decVal_repr, decVal_minus] at h1
      have h2 := congrArg (fun s => s.data.length) h
      simp only [String.data_append, List.length_append] at h2
      rw [h1] at h2
      simp only [List.length_singleton] at h2
      exfalso; omega
    | negSucc k =>
      simp only [Itoa] at h
      have h1 := congrArg (fun s => decVal s.data) h
      simp only [decVal_repr, decVal_minus] at h1
      have : m = k := by omega
      rw [this]

/-! ## `BuildDeviceID` as an enumeration -/

theorem foldl_append_singleton {α β : Type} (g : α → β) (l : List α) (acc : List β) :
    l.foldl (fun ids x => ids ++ [g x]) acc = acc ++ l.map g := by
  induction l generalizing acc with
  | nil => simp
  | cons x xs ih => simp [ih]

theorem foldl_append_flatMap {α β : Type} (g : α → List β) (l : List α) (acc : List β) :
    l.foldl (fun ids x => ids ++ g x) acc = acc ++ l.flatMap g := by
  induction l generalizing acc with
  | nil => simp
  | cons x xs ih => simp [ih]

/-- The two nested loops of `BuildDeviceID` enumerate, entry by entry in visiting
order, the ordinals `0 .. amount-1` of each entry. -/
theorem BuildDeviceID_eq (f : DeviceIDFormat) :
    BuildDeviceID f = specDeviceIDs32 f.Prefix f.Delimiter f.OrdinalStart := by
  unfold BuildDeviceID specDeviceIDs32
  simp only [foldl_append_singleton]
  rw [foldl_append_flatMap (fun entry : String × Int =>
    (List.range entry.2.toNat).map fun (i : Nat) =>
      entry.1 ++ f.Delimiter ++ Itoa (wrap32 (f.OrdinalStart + (i : Int))))]
  simp

theorem wrap32_of_isInt32 (x : Int) (h : isInt32 x) : wrap32 x = x := by
  unfold isInt32 at h; unfold wrap32; omega

theorem wrap32_inj_of_close (x y : Int) (h : wrap32 x = wrap32 y)
    (hd : x - y < 4294967296 ∧ y - x < 4294967296) : x = y := by
  unfold wrap32 at h; omega

theorem specDeviceIDs32_eq_of_no_overflow (entries : List (String × Int)) (d : String) (o : Int)
    (ho : isInt32 o) (hsum : ∀ e ∈ entries, o + e.2 ≤ 2147483648) :
    specDeviceIDs32 entries d o = specDeviceIDs entries d o := by
  unfold specDeviceIDs32 specDeviceIDs
  apply List.flatMap_congr
  intro e he
  apply List.map_congr_left
  intro i hi
  have hi2 : i < e.2.toNat := List.mem_range.mp hi
  have := hsum e he
  rw [wrap32_of_isInt32]
  unfold isInt32 at ho ⊢
  omega

theorem string_append_left_cancel (p s t : String) (h : p ++ s = p ++ t) : s = t := by
  have h1 := congrArg String.data h
  simp only [String.data_append] at h1
  exact String.ext (List.append_cancel_left h1)

theorem prefix_of_append_eq (a b s t : String) (h : a ++ s = b ++ t) :
    IsStringPrefix a b ∨ IsStringPrefix b a := by
  have h1 := congrArg String.data h
  simp only [String.data_append] at h1
  rcases List.append_eq_append_iff.mp h1 with ⟨x, hx, _⟩ | ⟨x, hx, _⟩
  · exact Or.inl ⟨x, hx.symm⟩
  · exact Or.inr ⟨x, hx.symm⟩

/-! ## Claims C1 to C4: `BuildDeviceID` -/

/-- C1, as stated, fails when the ordinal overflows `int32`: for the prefix map
`p ↦ 2`, delimiter `-` and ordinal start `2147483647` (a well-formed format with
non-negative counts) `BuildDeviceID` returns `p-2147483647, p--2147483648`,
which is not a permutation of `p-2147483647, p-2147483648`. -/
theorem BuildDeviceID_spec_fails_on_overflow :
    (⟨[("p", 2)], "-", 2147483647⟩ : DeviceIDFormat).WF ∧
    (∀ e ∈ [(("p" : String), (2 : Int))], 0 ≤ e.2) ∧
    BuildDeviceID ⟨[("p", 2)], "-", 2147483647⟩ = ["p-2147483647", "p--2147483648"] ∧
    specDeviceIDs [("p", 2)] "-" 2147483647 = ["p-2147483647", "p-2147483648"] ∧
    ¬ (BuildDeviceID ⟨[("p", 2)], "-", 2147483647⟩).Perm
        (specDeviceIDs [("p", 2)] "-" 2147483647) := by
  decide

/-- C1, amended: for every `DeviceIDFormat` and every enumeration `entries` of its
prefix map, the list returned by `BuildDeviceID` is a permutation of the list of
`prefix + delimiter + decimal(ordinalStart + i)` over the entries and
`0 ≤ i < count`, the sum being the `int32` (wrap-around) sum; it is the plain
integer sum whenever `ordinalStart + count ≤ 2^31` for every entry. -/
theorem BuildDeviceID_perm_spec (f : DeviceIDFormat) (entries : List (String × Int))
    (hmap : SameMap entries f.Prefix) :
    (BuildDeviceID f).Perm (specDeviceIDs32 entries f.Delimiter f.OrdinalStart) ∧
    (isInt32 f.OrdinalStart → (∀ e ∈ f.Prefix, f.OrdinalStart + e.2 ≤ 2147483648) →
      (BuildDeviceID f).Perm (specDeviceIDs entries f.Delimiter f.OrdinalStart)) := by
  have h32 : (BuildDeviceID f).Perm (specDeviceIDs32 entries f.Delimiter f.OrdinalStart) := by
    rw [BuildDeviceID_eq]
    unfold specDeviceIDs32
    exact List.Perm.flatMap_right _ (List.Perm.symm hmap)
  refine ⟨h32, ?_⟩
  intro ho hsum
  rw [← specDeviceIDs32_eq_of_no_overflow entries f.Delimiter f.OrdinalStart ho
    (fun e he => hsum e ((List.Perm.mem_iff hmap).mp he))]
  exact h32

/-- C1, amended, at the example of the specification: prefix map
`{dev0: 2, dev1: 2}` visited as `dev1, dev0`, delimiter `-`, ordinal start 0. -/
theorem BuildDeviceID_perm_spec_witness :
    SameMap [("dev0", 2), ("dev1", 2)] [("dev1", 2), ("dev0", 2)] ∧
    isInt32 0 ∧
    (BuildDeviceID ⟨[("dev1", 2), ("dev0", 2)], "-", 0⟩).Perm
      (specDeviceIDs [("dev0", 2), ("dev1", 2)] "-" 0) ∧
    specDeviceIDs [("dev0", 2), ("dev1", 2)] "-" 0 = ["dev0-0", "dev0-1", "dev1-0", "dev1-1"] :=
  ⟨by decide, by decide,
    (BuildDeviceID_perm_spec ⟨[("dev1", 2), ("dev0", 2)], "-", 0⟩ [("dev0", 2), ("dev1", 2)]
      (by decide)).2 (by decide) (by decide),
    by decide⟩

theorem specDeviceIDs32_length (entries : List (String × Int)) (d : String) (o : Int) :
    (specDeviceIDs32 entries d o).length = (entries.map fun e => e.2.toNat).sum := by
  induction entries with
  | nil => rfl
  | cons e es ih =>
    simp only [specDeviceIDs32, List.flatMap_cons, List.length_append, List.length_map,
      List.length_range, List.map_cons, List.sum_cons] at ih ⊢
    rw [ih]

theorem sum_toNat_of_nonneg (counts : List Int) (h : ∀ c ∈ counts, 0 ≤ c) :
    (((counts.map Int.toNat).sum : Nat) : Int) = counts.sum := by
  induction counts with
  | nil => rfl
  | cons c cs ih =>
    have hc : 0 ≤ c := h c (List.mem_cons_self _ _)
    have := ih (fun x hx => h x (List.mem_cons_of_mem _ hx))
    simp only [List.map_cons, List.sum_cons, Nat.cast_add]
    rw [this, Int.toNat_of_nonneg hc]

/-- C2: when all counts are non-negative the number of identifiers returned by
`BuildDeviceID` is the sum of the counts of the prefix map; entries with count 0
can be dropped without changing the result; an empty prefix map gives the empty
list. -/
theorem BuildDeviceID_length (f : DeviceIDFormat) :
    ((∀ e ∈ f.Prefix, 0 ≤ e.2) →
      ((BuildDeviceID f).length : Int) = (f.Prefix.map Prod.snd).sum) ∧
    BuildDeviceID { f with Prefix := f.Prefix.filter (fun e => e.2 ≠ 0) } = BuildDeviceID f ∧
    (f.Prefix = [] → BuildDeviceID f = []) := by
  refine ⟨?_, ?_, ?_⟩
  · intro h
    rw [BuildDeviceID_eq, specDeviceIDs32_length]
    have := sum_toNat_of_nonneg (f.Prefix.map Prod.snd)
      (by
        intro c hc
        rcases List.mem_map.mp hc with ⟨e, he, rfl⟩
        exact h e he)
    rw [← this, List.map_map]
    rfl
  · rw [BuildDeviceID_eq, BuildDeviceID_eq]
    simp only [specDeviceIDs32]
    induction f.Prefix with
    | nil => rfl
    | cons e es ih =>
      by_cases he : e.2 = 0
      · simp only [List.filter_cons, he, ne_eq, not_true_eq_false, decide_False,
          Bool.false_eq_true, ↓reduceIte, List.flatMap_cons, Int.toNat_zero, List.range_zero,
          List.map_nil, List.nil_append]
        exact ih
      · simp only [List.filter_cons, he, ne_eq, not_false_eq_true, decide_True, ↓reduceIte,
          List.flatMap_cons]
        rw [ih]
  · intro h
    unfold BuildDeviceID
    rw [h]
    rfl

/-- C2 at the prefix map `{dev0: 2, idle: 0, dev1: 3}`: five identifiers. -/
theorem BuildDeviceID_length_witness :
    (∀ e ∈ [(("dev0" : String), (2 : Int)), ("idle", 0), ("dev1", 3)], 0 ≤ e.2) ∧
    ((BuildDeviceID ⟨[("dev0", 2), ("idle", 0), ("dev1", 3)], "-", 0⟩).length : Int) = 5 :=
  ⟨by decide,
    (BuildDeviceID_length ⟨[("dev0", 2), ("idle", 0), ("dev1", 3)], "-", 0⟩).1 (by decide)⟩

theorem ids_of_entry_nodup (p d : String) (o c : Int) (hc : isInt32 c) :
    ((List.range c.toNat).map fun (i : Nat) => p ++ d ++ Itoa (wrap32 (o + (i : Int)))).Nodup := by
  refine List.Nodup.map_on ?_ (List.nodup_range _)
  intro i hi j hj h
  have hi2 : i < c.toNat := List.mem_range.mp hi
  have hj2 : j < c.toNat := List.mem_range.mp hj
  have h1 := Itoa_injective (string_append_left_cancel _ _ _ h)
  unfold isInt32 at hc
  have h2 := wrap32_inj_of_close _ _ h1 (by omega)
  omega

/-- C3: in a well-formed `DeviceIDFormat` in which no prefix key is a
string-prefix of another prefix key, the identifiers returned by `BuildDeviceID`
are pairwise distinct, whatever the delimiter and the ordinal start. -/
theorem BuildDeviceID_nodup (f : DeviceIDFormat) (hwf : f.WF)
    (hpre : ∀ a ∈ f.Prefix, ∀ b ∈ f.Prefix, a.1 ≠ b.1 → ¬ IsStringPrefix a.1 b.1) :
    (BuildDeviceID f).Nodup := by
  obtain ⟨hkeys, hcounts, _⟩ := hwf
  rw [BuildDeviceID_eq]
  unfold specDeviceIDs32
  rw [List.nodup_flatMap]
  constructor
  · intro e he
    exact ids_of_entry_nodup e.1 f.Delimiter f.OrdinalStart e.2 (hcounts e he)
  · have hpair : List.Pairwise (fun a b : String × Int => a.1 ≠ b.1) f.Prefix :=
      List.pairwise_map.mp hkeys
    refine List.Pairwise.imp_of_mem ?_ hpair
    intro a b ha hb hab s hsa hsb
    rcases List.mem_map.mp hsa with ⟨i, _, rfl⟩
    rcases List.mem_map.mp hsb with ⟨j, _, hj⟩
    rw [String.append_assoc, String.append_assoc] at hj
    rcases prefix_of_append_eq _ _ _ _ hj with h | h
    · exact hpre b hb a ha (Ne.symm hab) h
    · exact hpre a ha b hb hab h

/-- C3 at the prefix map `{dev0: 2, dev1: 2}` with delimiter `-` and a negative
ordinal start. -/
theorem BuildDeviceID_nodup_witness :
    (⟨[("dev0", 2), ("dev1", 2)], "-", -1⟩ : DeviceIDFormat).WF ∧
    (BuildDeviceID ⟨[("dev0", 2), ("dev1", 2)], "-", -1⟩).Nodup :=
  ⟨by decide, BuildDeviceID_nodup ⟨[("dev0", 2), ("dev1", 2)], "-", -1⟩ (by decide) (by decide)⟩

/-- C4 on the code: the prefix map `{dev0: 2, dev1: 2}` visited as `dev0, dev1`
gives `dev0-0, dev0-1, dev1-0, dev1-1`, and the same map visited as `dev1, dev0`
gives `dev1-0, dev1-1, dev0-0, dev0-1`: the output order follows the visiting
order of the map, which the language does not fix, and is not the lexicographic
one in the second call. -/
theorem BuildDeviceID_order_follows_map_iteration :
    SameMap [("dev0", 2), ("dev1", 2)] [("dev1", 2), ("dev0", 2)] ∧
    BuildDeviceID ⟨[("dev0", 2), ("dev1", 2)], "-", 0⟩
      = ["dev0-0", "dev0-1", "dev1-0", "dev1-1"] ∧
    BuildDeviceID ⟨[("dev1", 2), ("dev0", 2)], "-", 0⟩
      = ["dev1-0", "dev1-1", "dev0-0", "dev0-1"] ∧
    BuildDeviceID ⟨[("dev0", 2), ("dev1", 2)], "-", 0⟩
      ≠ BuildDeviceID ⟨[("dev1", 2), ("dev0", 2)], "-", 0⟩ := by
  decide

/-! ## Claims C5 and C6: the resolver chain -/

theorem resolve_cons (r : ResourceResolver) (rest : List ResourceResolver)
    (nrcfg : NodeResourceConfiguration) (resIdx : Int) :
    resolve (r :: rest) nrcfg resIdx =
      match r.Resolve nrcfg resIdx with
      | Outcome.panic => Outcome.panic
      | Outcome.err e => if e.IsUnsupported then resolve rest nrcfg resIdx else Outcome.err e
      | Outcome.ok resDesc => Outcome.ok resDesc := by
  rw [resolve]

theorem Err.eq_unsupported_of_IsUnsupported (e : Err) (h : e.IsUnsupported = true) :
    e = Err.unsupported := by
  cases e <;> simp_all [Err.IsUnsupported]

/-- C5: the chain holds the direct-name resolver first and the reference resolver
second.  A description or a non-`unsupported` error of the direct-name resolver
is the result of the chain, whatever resolvers follow; when the direct-name
resolver answers `unsupported`, a description or a non-`unsupported` error of
the reference resolver is the result; when both answer `unsupported` the chain
answers `unsupported`. -/
theorem resolve_chain (env : Env) (nrcfg : NodeResourceConfiguration) (resIdx : Int) :
    NewNodeResourceConfigurationReconciler env
        = [ { Name := "name-resolver", Resolve := nameResolver.Resolve env },
            { Name := "node-resource-resolver", Resolve := nodeResourceResolver.Resolve env } ] ∧
    (∀ (rest : List ResourceResolver) (d : ResourceDescription),
      nameResolver.Resolve env nrcfg resIdx = Outcome.ok d →
      resolve ({ Name := "name-resolver", Resolve := nameResolver.Resolve env } :: rest)
        nrcfg resIdx = Outcome.ok d) ∧
    (∀ (rest : List ResourceResolver) (e : Err),
      nameResolver.Resolve env nrcfg resIdx = Outcome.err e → e.IsUnsupported = false →
      resolve ({ Name := "name-resolver", Resolve := nameResolver.Resolve env } :: rest)
        nrcfg resIdx = Outcome.err e) ∧
    (∀ e : Err, nameResolver.Resolve env nrcfg resIdx = Outcome.err e → e.IsUnsupported = true →
      (∀ d, nodeResourceResolver.Resolve env nrcfg resIdx = Outcome.ok d →
        resolve (NewNodeResourceConfigurationReconciler env) nrcfg resIdx = Outcome.ok d) ∧
      (∀ e₂, nodeResourceResolver.Resolve env nrcfg resIdx = Outcome.err e₂ →
        e₂.IsUnsupported = false →
        resolve (NewNodeResourceConfigurationReconciler env) nrcfg resIdx = Outcome.err e₂) ∧
      (∀ e₂, nodeResourceResolver.Resolve env nrcfg resIdx = Outcome.err e₂ →
        e₂.IsUnsupported = true →
        resolve (NewNodeResourceConfigurationReconciler env) nrcfg resIdx
          = Outcome.err Err.unsupported)) := by
  refine ⟨rfl, ?_, ?_, ?_⟩
  · intro rest d h
    rw [resolve_cons]; simp only [h]
  · intro rest e h hu
    rw [resolve_cons]; simp only [h, hu, Bool.false_eq_true, if_false]
  · intro e h hu
    refine ⟨?_, ?_, ?_⟩
    · intro d h2
      unfold NewNodeResourceConfigurationReconciler
      rw [resolve_cons]; simp only [h, hu, if_true]
      rw [resolve_cons]; simp only [h2]
    · intro e₂ h2 hu2
      unfold NewNodeResourceConfigurationReconciler
      rw [resolve_cons]; simp only [h, hu, if_true]
      rw [resolve_cons]; simp only [h2, hu2, Bool.false_eq_true, if_false]
    · intro e₂ h2 hu2
      unfold NewNodeResourceConfigurationReconciler
      rw [resolve_cons]; simp only [h, hu, if_true]
      rw [resolve_cons]; simp only [h2, hu2, if_true]
      rw [resolve]

/-- C5 on the example cluster: an entry with the inline name `gpu` and capacity 4
is resolved by the direct-name resolver, and that description is the result of
the chain. -/
theorem resolve_chain_witness :
    nameResolver.Resolve exampleEnv
      (exampleConfig [exampleEntry "gpu" none (some (Quantity.int64 4 0))] []) 0
      = Outcome.ok
          { ResourceName := "gpu", Capacity := Quantity.int64 4 0,
            DeviceIDFormat := { Prefix := [("dev", 4)], Delimiter := "", OrdinalStart := 0 },
            NodePatch := "", NodeUndoPatch := "" } ∧
    resolve (NewNodeResourceConfigurationReconciler exampleEnv)
      (exampleConfig [exampleEntry "gpu" none (some (Quantity.int64 4 0))] []) 0
      = Outcome.ok
          { ResourceName := "gpu", Capacity := Quantity.int64 4 0,
            DeviceIDFormat := { Prefix := [("dev", 4)], Delimiter := "", OrdinalStart := 0 },
            NodePatch := "", NodeUndoPatch := "" } :=
  ⟨by decide,
    (resolve_chain exampleEnv
      (exampleConfig [exampleEntry "gpu" none (some (Quantity.int64 4 0))] []) 0).2.1
      _ _ (by decide)⟩

theorem resourceAt_of_getElem (nrcfg : NodeResourceConfiguration) (resIdx : Int)
    (res : ResourceRequirement) (hidx : 0 ≤ resIdx)
    (hres : nrcfg.Spec.Resources[resIdx.toNat]? = some res) :
    ¬ (resIdx ≥ (nrcfg.Spec.Resources.length : Int)) ∧ resourceAt nrcfg resIdx = some res := by
  have hlt : resIdx.toNat < nrcfg.Spec.Resources.length := by
    rcases List.getElem?_eq_some_iff.mp hres with ⟨h, _⟩
    exact h
  constructor
  · omega
  · unfold resourceAt
    rw [if_neg (by omega)]
    exact hres

theorem getResourceRef_nil (env : Env) :
    nodeResourceResolver.getResourceRef env none = Outcome.panic := by
  simp [nodeResourceResolver.getResourceRef, IsNodeResourceReference]

/-- C6 on the code: for every configuration and in-range index whose entry has an
empty inline resource name and no resource reference, the direct-name resolver
answers `unsupported` and the reference resolver then dereferences the nil
reference (`IsNodeResourceReference(nil)` is false, so the guard of
`getResourceRef` does not return): the chain panics instead of reporting
`unsupported`. -/
theorem resolve_unclaimed_entry_panics (env : Env) (nrcfg : NodeResourceConfiguration)
    (resIdx : Int) (res : ResourceRequirement) (hidx : 0 ≤ resIdx)
    (hres : nrcfg.Spec.Resources[resIdx.toNat]? = some res)
    (hname : res.ResourceName = "") (href : res.ResourceRef = none) :
    nameResolver.Resolve env nrcfg resIdx = Outcome.err Err.unsupported ∧
    nodeResourceResolver.Resolve env nrcfg resIdx = Outcome.panic ∧
    resolve (NewNodeResourceConfigurationReconciler env) nrcfg resIdx = Outcome.panic := by
  obtain ⟨hrange, hat⟩ := resourceAt_of_getElem nrcfg resIdx res hidx hres
  have h1 : nameResolver.Resolve env nrcfg resIdx = Outcome.err Err.unsupported := by
    unfold nameResolver.Resolve
    rw [if_neg hrange]
    simp only [hat, hname, if_true]
  have h2 : nodeResourceResolver.Resolve env nrcfg resIdx = Outcome.panic := by
    unfold nodeResourceResolver.Resolve
    rw [if_neg hrange]
    simp only [hat, href, getResourceRef_nil]
  refine ⟨h1, h2, ?_⟩
  unfold NewNodeResourceConfigurationReconciler
  rw [resolve_cons]
  simp only [h1, Err.IsUnsupported, if_true]
  rw [resolve_cons]
  simp only [h2]

/-- C6 on the code, at the configuration with the single entry that has neither a
name nor a reference. -/
theorem resolve_unclaimed_entry_panics_witness :
    resolve (NewNodeResourceConfigurationReconciler exampleEnv)
      (exampleConfig [exampleEntry "" none none] []) 0 = Outcome.panic :=
  (resolve_unclaimed_entry_panics exampleEnv (exampleConfig [exampleEntry "" none none] []) 0
    (exampleEntry "" none none) (by decide) rfl rfl rfl).2.2

/-! ## Claims C7 and C8: which references the reference resolver accepts -/

/-- C7 on the code: for every in-range entry whose `resourceRef` has this system's
API group and kind `NodeResource`, `getResourceRef` returns `ErrUnsupported`
before any lookup, so the reference resolver answers `unsupported` whether or
not the named `NodeResource` exists and whatever its prefix policy is. -/
theorem nodeResourceResolver_rejects_NodeResource_reference (env : Env)
    (nrcfg : NodeResourceConfiguration) (resIdx : Int) (res : ResourceRequirement)
    (ref : ResourceReference) (hidx : 0 ≤ resIdx)
    (hres : nrcfg.Spec.Resources[resIdx.toNat]? = some res)
    (href : res.ResourceRef = some ref)
    (hgroup : ref.APIGroup = env.SchemeGroup) (hkind : ref.Kind = "NodeResource") :
    nodeResourceResolver.getResourceRef env (some ref) = Outcome.err Err.unsupported ∧
    nodeResourceResolver.Resolve env nrcfg resIdx = Outcome.err Err.unsupported := by
  obtain ⟨hrange, hat⟩ := resourceAt_of_getElem nrcfg resIdx res hidx hres
  have h1 : nodeResourceResolver.getResourceRef env (some ref) = Outcome.err Err.unsupported := by
    simp [nodeResourceResolver.getResourceRef, IsNodeResourceReference, hgroup, hkind]
  refine ⟨h1, ?_⟩
  unfold nodeResourceResolver.Resolve
  rw [if_neg hrange]
  simp only [hat, href, h1]

/-- C7 on the code, on the example cluster: the entry references the existing
`NodeResource` `gpu`, whose static prefixes are `a`, `b`, and is answered with
`unsupported`. -/
theorem nodeResourceResolver_rejects_NodeResource_reference_witness :
    exampleEnv.Get "gpu" = Except.ok exampleGpu ∧
    nodeResourceResolver.Resolve exampleEnv
      (exampleConfig [exampleEntry "" (some gpuNodeResourceRef) none] []) 0
      = Outcome.err Err.unsupported :=
  ⟨rfl,
    (nodeResourceResolver_rejects_NodeResource_reference exampleEnv
      (exampleConfig [exampleEntry "" (some gpuNodeResourceRef) none] []) 0
      (exampleEntry "" (some gpuNodeResourceRef) none) gpuNodeResourceRef
      (by decide) rfl rfl rfl rfl).2⟩

/-- C8 on the code: a reference of kind `ConfigMap` in the empty group that
carries the name `gpu` is looked up as a `NodeResource` and resolved to a
description, as an entry's `resourceRef` and as a cascade `parentResourceRef`
alike. -/
theorem nodeResourceResolver_resolves_foreign_reference :
    IsNodeResourceReference exampleEnv.SchemeGroup (some gpuConfigMapRef) = false ∧
    nodeResourceResolver.getResourceRef exampleEnv (some gpuConfigMapRef)
      = Outcome.ok exampleGpu ∧
    nodeResourceResolver.Resolve exampleEnv
      (exampleConfig [exampleEntry "" (some gpuConfigMapRef) none] []) 0
      = Outcome.ok
          { ResourceName := "example.com/gpu", Capacity := Quantity.int64 4 0,
            DeviceIDFormat :=
              { Prefix := [("a", 2), ("b", 2)], Delimiter := "-", OrdinalStart := 0 },
            NodePatch := "", NodeUndoPatch := "" } ∧
    exampleVgpu.Spec.DeviceIDGeneratePolicy
      = some { Prefix := some { Static := [], ParentResourceRef := some gpuConfigMapRef },
               Delimiter := "-", OrdinalStart := 0 } ∧
    nodeResourceResolver.getPrefixes exampleEnv exampleVgpu
      (exampleConfig [] [exampleGpuDesc]) = Outcome.ok ["a-0", "a-1"] := by
  decide

/-! ## Claims C9 and C10: the direct-name resolver -/

theorem finishDescription_not_unsupported (env : Env) (basicDesc : ResourceBasicDescription)
    (tpl undo : String) (e : Err)
    (h : finishDescription env basicDesc tpl undo = Outcome.err e) : e.IsUnsupported = false := by
  unfold finishDescription at h
  split at h
  · cases h; rfl
  · split at h
    · split at h
      · cases h; rfl
      · cases h
    · cases h

/-- C9, as stated, fails: the entry with inline name `gpu`, capacity 4 and a
reference to the `NodeResource` `gpu` has a resource reference, and the
direct-name resolver claims it all the same (it returns a description). -/
theorem nameResolver_claims_entry_with_reference :
    (exampleEntry "gpu" (some gpuNodeResourceRef) (some (Quantity.int64 4 0))).ResourceRef ≠ none ∧
    nameResolver.Resolve exampleEnv
      (exampleConfig [exampleEntry "gpu" (some gpuNodeResourceRef) (some (Quantity.int64 4 0))]
        []) 0
      = Outcome.ok
          { ResourceName := "gpu", Capacity := Quantity.int64 4 0,
            DeviceIDFormat := { Prefix := [("dev", 4)], Delimiter := "", OrdinalStart := 0 },
            NodePatch := "", NodeUndoPatch := "" } := by
  decide

/-- C9, amended: for an in-range entry the direct-name resolver answers
`unsupported` if and only if the inline resource name is empty; whether the
entry also carries a resource reference plays no part. -/
theorem nameResolver_unsupported_iff (env : Env) (nrcfg : NodeResourceConfiguration)
    (resIdx : Int) (res : ResourceRequirement) (hidx : 0 ≤ resIdx)
    (hres : nrcfg.Spec.Resources[resIdx.toNat]? = some res) :
    ((∃ e, nameResolver.Resolve env nrcfg resIdx = Outcome.err e ∧ e.IsUnsupported = true)
      ↔ res.ResourceName = "") ∧
    nameResolver.Resolve env nrcfg resIdx
      = nameResolver.Resolve env
          { nrcfg with Spec := { Resources :=
              nrcfg.Spec.Resources.map fun r => { r with ResourceRef := none } } } resIdx := by
  obtain ⟨hrange, hat⟩ := resourceAt_of_getElem nrcfg resIdx res hidx hres
  constructor
  · constructor
    · rintro ⟨e, he, hu⟩
      by_contra hname
      unfold nameResolver.Resolve at he
      rw [if_neg hrange] at he
      simp only [hat, hname, if_false] at he
      cases hcap : res.Capacity with
      | none => simp [hcap, ptrAsInt64] at he
      | some q =>
        simp only [hcap, ptrAsInt64] at he
        cases hq : q.AsInt64 with
        | none =>
          simp only [hq] at he
          cases he
          simp [Err.IsUnsupported] at hu
        | some capInt =>
          simp only [hq] at he
          have := finishDescription_not_unsupported _ _ _ _ _ he
          rw [this] at hu
          cases hu
    · intro hname
      refine ⟨Err.unsupported, ?_, rfl⟩
      unfold nameResolver.Resolve
      rw [if_neg hrange]
      simp only [hat, hname, if_true]
  · unfold nameResolver.Resolve resourceAt
    simp only [List.length_map, List.getElem?_map]
    cases hget : (if resIdx < 0 then none else nrcfg.Spec.Resources[resIdx.toNat]?) with
    | none =>
      split_ifs at hget ⊢
      all_goals simp_all
    | some r =>
      split_ifs at hget ⊢
      all_goals simp_all

/-- C9, amended, on the example cluster: the entry named `gpu` that also
references a `NodeResource` is not answered with `unsupported`. -/
theorem nameResolver_unsupported_iff_witness :
    ¬ (∃ e, nameResolver.Resolve exampleEnv
        (exampleConfig
          [exampleEntry "gpu" (some gpuNodeResourceRef) (some (Quantity.int64 4 0))] []) 0
        = Outcome.err e ∧ e.IsUnsupported = true) :=
  fun h =>
    absurd
      ((nameResolver_unsupported_iff exampleEnv
        (exampleConfig
          [exampleEntry "gpu" (some gpuNodeResourceRef) (some (Quantity.int64 4 0))] []) 0
        (exampleEntry "gpu" (some gpuNodeResourceRef) (some (Quantity.int64 4 0)))
        (by decide) rfl).1.mp h)
      (by decide)

/-- C10 on the code: for every in-range entry with a non-empty inline resource
name and no capacity, the direct-name resolver calls `AsInt64` on the nil
capacity pointer and panics; it returns neither an error nor a description. -/
theorem nameResolver_nil_capacity_panics (env : Env) (nrcfg : NodeResourceConfiguration)
    (resIdx : Int) (res : ResourceRequirement) (hidx : 0 ≤ resIdx)
    (hres : nrcfg.Spec.Resources[resIdx.toNat]? = some res)
    (hname : res.ResourceName ≠ "") (hcap : res.Capacity = none) :
    nameResolver.Resolve env nrcfg resIdx = Outcome.panic := by
  obtain ⟨hrange, hat⟩ := resourceAt_of_getElem nrcfg resIdx res hidx hres
  unfold nameResolver.Resolve
  rw [if_neg hrange]
  simp only [hat, hname, if_false, hcap, ptrAsInt64]

/-- C10 on the code, at the entry named `gpu` without a capacity. -/
theorem nameResolver_nil_capacity_panics_witness :
    nameResolver.Resolve exampleEnv (exampleConfig [exampleEntry "gpu" none none] []) 0
      = Outcome.panic :=
  nameResolver_nil_capacity_panics exampleEnv (exampleConfig [exampleEntry "gpu" none none] []) 0
    (exampleEntry "gpu" none none) (by decide) rfl (by decide) rfl

/-! ## Claim C11: what the direct-name resolver produces -/

/-- C11, as stated, fails when the capacity does not fit `int32`: the entry named
`gpu` with capacity `4294967296` (representable as an integer: `AsInt64` gives
`4294967296`) gets the prefix map `dev ↦ 0`, because the count is `int32(capInt)`. -/
theorem nameResolver_count_truncated :
    (Quantity.int64 4294967296 0).AsInt64 = some 4294967296 ∧
    nameResolver.Resolve exampleEnv
      (exampleConfig [exampleEntry "gpu" none (some (Quantity.int64 4294967296 0))] []) 0
      = Outcome.ok
          { ResourceName := "gpu", Capacity := Quantity.int64 4294967296 0,
            DeviceIDFormat := { Prefix := [("dev", 0)], Delimiter := "", OrdinalStart := 0 },
            NodePatch := "", NodeUndoPatch := "" } := by
  decide

/-- C11, amended: for every in-range entry with non-empty inline resource name,
a capacity `c` on which `AsInt64` gives `capInt`, no patch template and no undo
patch, the direct-name resolver returns the description with that resource name,
capacity `c`, the prefix map with the single default prefix mapped to
`int32(capInt)`, empty delimiter, ordinal start 0 and empty apply and undo
patches; the count is `capInt` itself whenever `capInt` fits `int32`. -/
theorem nameResolver_description (env : Env) (nrcfg : NodeResourceConfiguration)
    (resIdx : Int) (res : ResourceRequirement) (c : Quantity) (capInt : Int)
    (hidx : 0 ≤ resIdx) (hres : nrcfg.Spec.Resources[resIdx.toNat]? = some res)
    (hname : res.ResourceName ≠ "") (hcap : res.Capacity = some c)
    (hint : c.AsInt64 = some capInt)
    (htpl : res.NodePatchTemplate = "") (hundo : res.NodeUndoPatch = "") :
    nameResolver.Resolve env nrcfg resIdx
      = Outcome.ok
          { ResourceName := res.ResourceName, Capacity := c,
            DeviceIDFormat :=
              { Prefix := [(env.DefaultDevicePrefix, wrap32 capInt)], Delimiter := "",
                OrdinalStart := 0 },
            NodePatch := "", NodeUndoPatch := "" } ∧
    (isInt32 capInt → wrap32 capInt = capInt) := by
  obtain ⟨hrange, hat⟩ := resourceAt_of_getElem nrcfg resIdx res hidx hres
  refine ⟨?_, wrap32_of_isInt32 capInt⟩
  unfold nameResolver.Resolve
  rw [if_neg hrange]
  simp only [hat, hname, if_false, hcap, ptrAsInt64, hint, finishDescription, parseNodePatch,
    htpl, hundo, if_true, ne_eq, not_true_eq_false]

/-- C11, amended, at the example of the specification: name `gpu`, capacity 4
gives the prefix map `dev ↦ 4`. -/
theorem nameResolver_description_witness :
    nameResolver.Resolve exampleEnv
      (exampleConfig [exampleEntry "gpu" none (some (Quantity.int64 4 0))] []) 0
      = Outcome.ok
          { ResourceName := "gpu", Capacity := Quantity.int64 4 0,
            DeviceIDFormat := { Prefix := [("dev", 4)], Delimiter := "", OrdinalStart := 0 },
            NodePatch := "", NodeUndoPatch := "" } :=
  (nameResolver_description exampleEnv
    (exampleConfig [exampleEntry "gpu" none (some (Quantity.int64 4 0))] []) 0
    (exampleEntry "gpu" none (some (Quantity.int64 4 0))) (Quantity.int64 4 0) 4
    (by decide) rfl (by decide) rfl (by decide) rfl rfl).1

/-! ## Claims C12 to C16: the reference resolver -/

theorem getResourceRef_of_guard_false (env : Env) (ref : ResourceReference)
    (hguard : IsNodeResourceReference env.SchemeGroup (some ref) = false) :
    nodeResourceResolver.getResourceRef env (some ref) =
      match env.Get ref.Name with
      | Except.error e =>
        if e.IsNotFound then Outcome.err Err.unsupported else Outcome.err (Err.lookup e)
      | Except.ok nr => Outcome.ok nr := by
  unfold nodeResourceResolver.getResourceRef
  simp only [hguard, Bool.false_eq_true, if_false]

theorem getResourceRef_of_guard_true (env : Env) (ref : Option ResourceReference)
    (hguard : IsNodeResourceReference env.SchemeGroup ref = true) :
    nodeResourceResolver.getResourceRef env ref = Outcome.err Err.unsupported := by
  unfold nodeResourceResolver.getResourceRef
  simp only [hguard, if_true]

/-- C12 on the code: let the lookup of the name that a reference carries fail
with the error `e`.  For a reference to a `NodeResource` (this system's group,
kind `NodeResource`) the guard of `getResourceRef` answers `unsupported` before
any lookup: whatever `e` is, also an error other than not-found, it is not
returned, neither by `getResourceRef` nor by `Resolve` for an entry carrying the
reference.  The conversion that the claim describes takes place, but only for a
reference that is not a `NodeResource` reference: there a not-found error
becomes `unsupported`, and every other error is returned as it is, is not
`unsupported`, and is what `Resolve` returns. -/
theorem getResourceRef_lookup_error (env : Env) (ref : ResourceReference) (e : ClientErr)
    (hget : env.Get ref.Name = Except.error e) :
    (IsNodeResourceReference env.SchemeGroup (some ref) = true →
      nodeResourceResolver.getResourceRef env (some ref) = Outcome.err Err.unsupported ∧
      nodeResourceResolver.getResourceRef env (some ref) ≠ Outcome.err (Err.lookup e) ∧
      ∀ (nrcfg : NodeResourceConfiguration) (resIdx : Int) (res : ResourceRequirement),
        0 ≤ resIdx → nrcfg.Spec.Resources[resIdx.toNat]? = some res →
        res.ResourceRef = some ref →
        nodeResourceResolver.Resolve env nrcfg resIdx = Outcome.err Err.unsupported) ∧
    (IsNodeResourceReference env.SchemeGroup (some ref) = false →
      (e.IsNotFound = true →
        nodeResourceResolver.getResourceRef env (some ref) = Outcome.err Err.unsupported) ∧
      (e.IsNotFound = false →
        nodeResourceResolver.getResourceRef env (some ref) = Outcome.err (Err.lookup e) ∧
        (Err.lookup e).IsUnsupported = false ∧
        ∀ (nrcfg : NodeResourceConfiguration) (resIdx : Int) (res : ResourceRequirement),
          0 ≤ resIdx → nrcfg.Spec.Resources[resIdx.toNat]? = some res →
          res.ResourceRef = some ref →
          nodeResourceResolver.Resolve env nrcfg resIdx = Outcome.err (Err.lookup e))) := by
  constructor
  · intro hguard
    have h := getResourceRef_of_guard_true env (some ref) hguard
    refine ⟨h, ?_, ?_⟩
    · rw [h]
      intro hne
      cases hne
    · intro nrcfg resIdx res hidx hres href
      obtain ⟨hrange, hat⟩ := resourceAt_of_getElem nrcfg resIdx res hidx hres
      unfold nodeResourceResolver.Resolve
      rw [if_neg hrange]
      simp only [hat, href, h]
  · intro hguard
    have h := getResourceRef_of_guard_false env ref hguard
    rw [hget] at h
    constructor
    · intro hnf
      rw [h]; simp only [hnf, if_true]
    · intro hnf
      have h2 : nodeResourceResolver.getResourceRef env (some ref)
          = Outcome.err (Err.lookup e) := by
        rw [h]; simp only [hnf, Bool.false_eq_true, if_false]
      refine ⟨h2, rfl, ?_⟩
      intro nrcfg resIdx res hidx hres href
      obtain ⟨hrange, hat⟩ := resourceAt_of_getElem nrcfg resIdx res hidx hres
      unfold nodeResourceResolver.Resolve
      rw [if_neg hrange]
      simp only [hat, href, h2]

/-- C12 on the code, on the example cluster, where the lookup of the name `broken`
fails with a server error: an entry that references the `NodeResource` `broken`
is answered with `unsupported`, not with the server error; through a reference
of another kind the server error is returned, and the name `missing`, which is
not found, gives `unsupported`. -/
theorem getResourceRef_lookup_error_witness :
    exampleEnv.Get "broken"
      = Except.error { IsNotFound := false, msg := "internal server error" } ∧
    nodeResourceResolver.Resolve exampleEnv
        (exampleConfig [exampleEntry "" (some (nodeResourceRef "broken")) none] []) 0
      = Outcome.err Err.unsupported ∧
    nodeResourceResolver.Resolve exampleEnv
        (exampleConfig [exampleEntry "" (some (nodeResourceRef "broken")) none] []) 0
      ≠ Outcome.err (Err.lookup { IsNotFound := false, msg := "internal server error" }) ∧
    nodeResourceResolver.getResourceRef exampleEnv (some (configMapRef "broken"))
      = Outcome.err (Err.lookup { IsNotFound := false, msg := "internal server error" }) ∧
    nodeResourceResolver.getResourceRef exampleEnv (some (configMapRef "missing"))
      = Outcome.err Err.unsupported :=
  ⟨rfl,
    ((getResourceRef_lookup_error exampleEnv (nodeResourceRef "broken")
      { IsNotFound := false, msg := "internal server error" } rfl).1 (by decide)).2.2
      (exampleConfig [exampleEntry "" (some (nodeResourceRef "broken")) none] []) 0
      (exampleEntry "" (some (nodeResourceRef "broken")) none) (by decide) rfl rfl,
    by decide,
    ((getResourceRef_lookup_error exampleEnv (configMapRef "broken")
      { IsNotFound := false, msg := "internal server error" } rfl).2 (by decide)).2 rfl |>.1,
    ((getResourceRef_lookup_error exampleEnv (configMapRef "missing")
      { IsNotFound := true, msg := "not found" } rfl).2 (by decide)).1 rfl⟩

/-- C13: for an in-range entry whose reference names an existing `NodeResource`
without static prefixes that cascades to an existing parent `NodeResource` whose
own prefix policy has a parent reference, the reference resolver answers
`unsupported`. -/
theorem nodeResourceResolver_cascade_depth (env : Env) (nrcfg : NodeResourceConfiguration)
    (resIdx : Int) (res : ResourceRequirement) (ref parentRef : ResourceReference)
    (nr parent : NodeResource) (policy parentPolicy : DeviceIDGeneratePolicy)
    (pfx parentPfx : PrefixGeneratePolicy)
    (hidx : 0 ≤ resIdx) (hres : nrcfg.Spec.Resources[resIdx.toNat]? = some res)
    (href : res.ResourceRef = some ref) (hget : env.Get ref.Name = Except.ok nr)
    (hpolicy : nr.Spec.DeviceIDGeneratePolicy = some policy) (hpfx : policy.Prefix = some pfx)
    (hstatic : pfx.Static = []) (hparentRef : pfx.ParentResourceRef = some parentRef)
    (hgetParent : env.Get parentRef.Name = Except.ok parent)
    (hparentPolicy : parent.Spec.DeviceIDGeneratePolicy = some parentPolicy)
    (hparentPfx : parentPolicy.Prefix = some parentPfx)
    (hcascades : parentPfx.ParentResourceRef ≠ none) :
    nodeResourceResolver.Resolve env nrcfg resIdx = Outcome.err Err.unsupported := by
  obtain ⟨hrange, hat⟩ := resourceAt_of_getElem nrcfg resIdx res hidx hres
  unfold nodeResourceResolver.Resolve
  rw [if_neg hrange]
  simp only [hat, href]
  cases hg : IsNodeResourceReference env.SchemeGroup (some ref) with
  | true => simp only [getResourceRef_of_guard_true env _ hg]
  | false =>
    rw [getResourceRef_of_guard_false env ref hg]
    simp only [hget]
    have hp : nodeResourceResolver.getPrefixes env nr nrcfg = Outcome.err Err.unsupported := by
      unfold nodeResourceResolver.getPrefixes
      simp only [hpolicy, hpfx, hstatic, List.length_nil, gt_iff_lt, lt_self_iff_false, if_false,
        hparentRef]
      cases hg2 : IsNodeResourceReference env.SchemeGroup (some parentRef) with
      | true => simp only [getResourceRef_of_guard_true env _ hg2]
      | false =>
        rw [getResourceRef_of_guard_false env parentRef hg2]
        simp only [hgetParent, hparentPolicy, hparentPfx, ne_eq, hcascades, not_false_eq_true,
          if_true]
    simp only [hp]

/-- C13 on the example cluster: `vvgpu` cascades to `vgpu`, which cascades itself. -/
theorem nodeResourceResolver_cascade_depth_witness :
    nodeResourceResolver.Resolve exampleEnv
      (exampleConfig [exampleEntry "" (some (configMapRef "vvgpu")) none] [exampleGpuDesc]) 0
      = Outcome.err Err.unsupported :=
  nodeResourceResolver_cascade_depth exampleEnv
    (exampleConfig [exampleEntry "" (some (configMapRef "vvgpu")) none] [exampleGpuDesc]) 0
    (exampleEntry "" (some (configMapRef "vvgpu")) none) (configMapRef "vvgpu")
    (configMapRef "vgpu") exampleNested exampleVgpu
    { Prefix := some { Static := [], ParentResourceRef := some (configMapRef "vgpu") },
      Delimiter := "-", OrdinalStart := 0 }
    { Prefix := some { Static := [], ParentResourceRef := some gpuConfigMapRef },
      Delimiter := "-", OrdinalStart := 0 }
    { Static := [], ParentResourceRef := some (configMapRef "vgpu") }
    { Static := [], ParentResourceRef := some gpuConfigMapRef }
    (by decide) rfl rfl rfl rfl rfl rfl rfl rfl rfl rfl (by decide)

theorem IsNodeResourceReference_of_group_kind (env : Env) (ref : ResourceReference)
    (hgroup : ref.APIGroup = env.SchemeGroup) (hkind : ref.Kind = "NodeResource") :
    IsNodeResourceReference env.SchemeGroup (some ref) = true := by
  simp [IsNodeResourceReference, hgroup, hkind]

/-- C14 on the code: for every `NodeResource` without static prefixes whose
`parentResourceRef` has this system's group and kind `NodeResource`,
`getPrefixes` gets `ErrUnsupported` from `getResourceRef` and returns it: no
prefix list is computed, whatever the parent and the status are. -/
theorem getPrefixes_rejects_NodeResource_parent (env : Env) (nr : NodeResource)
    (nrcfg : NodeResourceConfiguration) (policy : DeviceIDGeneratePolicy)
    (pfx : PrefixGeneratePolicy) (parentRef : ResourceReference)
    (hpolicy : nr.Spec.DeviceIDGeneratePolicy = some policy) (hpfx : policy.Prefix = some pfx)
    (hstatic : pfx.Static = []) (hparentRef : pfx.ParentResourceRef = some parentRef)
    (hgroup : parentRef.APIGroup = env.SchemeGroup) (hkind : parentRef.Kind = "NodeResource") :
    nodeResourceResolver.getPrefixes env nr nrcfg = Outcome.err Err.unsupported := by
  unfold nodeResourceResolver.getPrefixes
  simp only [hpolicy, hpfx, hstatic, List.length_nil, gt_iff_lt, lt_self_iff_false, if_false,
    hparentRef,
    getResourceRef_of_guard_true env _
      (IsNodeResourceReference_of_group_kind env parentRef hgroup hkind)]

/-- C14 on the code, on the example cluster: `slice` cascades to the existing,
non-cascading `gpu`, the status holds the description of `example.com/gpu` with
the identifiers `a-0`, `a-1`, and `getPrefixes` answers `unsupported`. -/
theorem getPrefixes_rejects_NodeResource_parent_witness :
    exampleEnv.Get "gpu" = Except.ok exampleGpu ∧
    BuildDeviceID exampleGpuDesc.DeviceIDFormat = ["a-0", "a-1"] ∧
    nodeResourceResolver.getPrefixes exampleEnv exampleSlice (exampleConfig [] [exampleGpuDesc])
      = Outcome.err Err.unsupported :=
  ⟨rfl, by decide,
    getPrefixes_rejects_NodeResource_parent exampleEnv exampleSlice
      (exampleConfig [] [exampleGpuDesc])
      { Prefix := some { Static := [], ParentResourceRef := some gpuNodeResourceRef },
        Delimiter := "-", OrdinalStart := 0 }
      { Static := [], ParentResourceRef := some gpuNodeResourceRef } gpuNodeResourceRef
      rfl rfl rfl rfl rfl rfl⟩

theorem Quantity.val_Mul (q : Quantity) (y : Int) : (q.Mul y).val = q.val * (y : ℚ) := by
  cases q with
  | dec u e =>
    simp only [Quantity.Mul, Quantity.val]
    push_cast; ring
  | int64 v s =>
    unfold Quantity.Mul
    by_cases hv : v = 0
    · simp [hv, Quantity.val]
    · by_cases hy : y = 0
      · simp [hv, hy, Quantity.val]
      · simp only [hv, hy, if_false]
        split
        · simp only [Quantity.val]; push_cast; ring
        · simp only [Quantity.val]; push_cast; ring

theorem finishDescription_basic (env : Env) (basicDesc : ResourceBasicDescription)
    (tpl undo : String) (d : ResourceDescription)
    (h : finishDescription env basicDesc tpl undo = Outcome.ok d) :
    d.toResourceBasicDescription = basicDesc := by
  unfold finishDescription at h
  split at h
  · cases h
  · split at h
    · split at h
      · cases h
      · cases h; rfl
    · cases h; rfl

/-- What a description returned by the reference resolver was built from. -/
theorem nodeResourceResolver_Resolve_ok (env : Env) (nrcfg : NodeResourceConfiguration)
    (resIdx : Int) (res : ResourceRequirement) (d : ResourceDescription)
    (hidx : 0 ≤ resIdx) (hres : nrcfg.Spec.Resources[resIdx.toNat]? = some res)
    (hok : nodeResourceResolver.Resolve env nrcfg resIdx = Outcome.ok d) :
    ∃ nr prefixes capInt policy,
      nodeResourceResolver.getResourceRef env res.ResourceRef = Outcome.ok nr ∧
      nodeResourceResolver.getPrefixes env nr nrcfg = Outcome.ok prefixes ∧
      (nodeResourceResolver.getCapacity res nr).AsInt64 = some capInt ∧
      nr.Spec.DeviceIDGeneratePolicy = some policy ∧
      d.toResourceBasicDescription =
        { ResourceName := nr.Spec.ResourceName
          Capacity := (nodeResourceResolver.getCapacity res nr).Mul (prefixes.length : Int)
          DeviceIDFormat :=
            { Prefix := buildPrefixMap prefixes capInt
              Delimiter := policy.Delimiter
              OrdinalStart := policy.OrdinalStart } } ∧
      finishDescription env d.toResourceBasicDescription
        (nodeResourceResolver.getNodePatchTemplate res nr)
        (nodeResourceResolver.getNodeUndoPatch res nr) = Outcome.ok d := by
  obtain ⟨hrange, hat⟩ := resourceAt_of_getElem nrcfg resIdx res hidx hres
  unfold nodeResourceResolver.Resolve at hok
  rw [if_neg hrange] at hok
  simp only [hat] at hok
  cases h1 : nodeResourceResolver.getResourceRef env res.ResourceRef with
  | panic => simp [h1] at hok
  | err e => simp [h1] at hok
  | ok nr =>
    simp only [h1] at hok
    cases h2 : nodeResourceResolver.getPrefixes env nr nrcfg with
    | panic => simp [h2] at hok
    | err e => simp [h2] at hok
    | ok prefixes =>
      simp only [h2] at hok
      cases h3 : (nodeResourceResolver.getCapacity res nr).AsInt64 with
      | none => simp [h3] at hok
      | some capInt =>
        simp only [h3] at hok
        cases h4 : nr.Spec.DeviceIDGeneratePolicy with
        | none => simp [h4] at hok
        | some policy =>
          simp only [h4] at hok
          have hb := finishDescription_basic _ _ _ _ _ hok
          refine ⟨nr, prefixes, capInt, policy, rfl, h2, h3, h4, hb, ?_⟩
          rw [hb]
          exact hok

theorem AsInt64_val (q : Quantity) (c : Int) (h : q.AsInt64 = some c) : q.val = (c : ℚ) := by
  cases q with
  | dec u e => simp [Quantity.AsInt64] at h
  | int64 v s =>
    unfold Quantity.AsInt64 at h
    by_cases hs : s = 0
    · simp only [hs, if_true, Option.some.injEq] at h
      subst h
      simp [Quantity.val, hs]
    · by_cases hneg : s < 0
      · simp [hs, hneg] at h
      · simp only [hs, hneg, if_false] at h
        split at h
        · simp only [Option.some.injEq] at h
          subst h
          have hnn : 0 ≤ s := by omega
          simp only [Quantity.val]
          push_cast
          congr 1
          rw [← zpow_natCast, Int.toNat_of_nonneg hnn]
        · cases h

theorem mapSet_of_not_mem (m : List (String × Int)) (k : String) (v : Int)
    (h : k ∉ m.map Prod.fst) : mapSet m k v = m ++ [(k, v)] := by
  unfold mapSet
  have hany : m.any (fun e => e.1 == k) = false := by
    rw [Bool.eq_false_iff]
    intro hc
    rw [List.any_eq_true] at hc
    obtain ⟨e, he, hek⟩ := hc
    apply h
    have : e.1 = k := by simpa using hek
    rw [← this]
    exact List.mem_map_of_mem Prod.fst he
  simp only [hany, Bool.false_eq_true, if_false]

theorem mapSet_keys (m : List (String × Int)) (k : String) (v : Int) :
    (mapSet m k v).map Prod.fst
      = if k ∈ m.map Prod.fst then m.map Prod.fst else m.map Prod.fst ++ [k] := by
  by_cases h : k ∈ m.map Prod.fst
  · rw [if_pos h]
    unfold mapSet
    have hany : m.any (fun e => e.1 == k) = true := by
      rw [List.any_eq_true]
      obtain ⟨e, he, hek⟩ := List.mem_map.mp h
      exact ⟨e, he, by simp [hek]⟩
    simp only [hany, if_true, List.map_map]
    apply List.map_congr_left
    intro e _
    by_cases hk : e.1 = k
    · simp [hk]
    · simp [hk]
  · rw [if_neg h, mapSet_of_not_mem m k v h]
    simp

theorem mapSet_mem (m : List (String × Int)) (k : String) (v : Int) :
    ∀ e ∈ mapSet m k v, e ∈ m ∨ e = (k, v) := by
  intro e he
  unfold mapSet at he
  split at he
  · obtain ⟨x, hx, hxe⟩ := List.mem_map.mp he
    by_cases hk : x.1 = k
    · simp only [hk, if_true] at hxe
      exact Or.inr hxe.symm
    · simp only [hk, if_false] at hxe
      exact Or.inl (hxe ▸ hx)
  · rcases List.mem_append.mp he with h | h
    · exact Or.inl h
    · exact Or.inr (List.mem_singleton.mp h)

theorem foldl_mapSet_spec (v : Int) :
    ∀ (prefixes : List String) (m : List (String × Int)),
      (m.map Prod.fst).Nodup →
      ((prefixes.foldl (fun m pfx => mapSet m pfx v) m).map Prod.fst).Nodup ∧
      (∀ k, k ∈ (prefixes.foldl (fun m pfx => mapSet m pfx v) m).map Prod.fst ↔
        k ∈ m.map Prod.fst ∨ k ∈ prefixes) ∧
      (∀ e ∈ prefixes.foldl (fun m pfx => mapSet m pfx v) m, e ∈ m ∨ e.2 = v) := by
  intro prefixes
  induction prefixes with
  | nil =>
    intro m hnd
    exact ⟨hnd, fun k => by simp, fun e he => Or.inl he⟩
  | cons p rest ih =>
    intro m hnd
    have hkeys := mapSet_keys m p v
    have hnd2 : ((mapSet m p v).map Prod.fst).Nodup := by
      rw [hkeys]
      split
      · exact hnd
      · rename_i hp
        rw [List.nodup_append]
        refine ⟨hnd, List.nodup_singleton p, ?_⟩
        intro a ha hb
        rw [List.mem_singleton] at hb
        subst hb
        exact hp ha
    obtain ⟨h1, h2, h3⟩ := ih (mapSet m p v) hnd2
    simp only [List.foldl_cons]
    refine ⟨h1, ?_, ?_⟩
    · intro k
      rw [h2 k, hkeys]
      split
      · rename_i hp
        constructor
        · rintro (h | h)
          · exact Or.inl h
          · exact Or.inr (List.mem_cons_of_mem _ h)
        · rintro (h | h)
          · exact Or.inl h
          · rcases List.mem_cons.mp h with h | h
            · exact Or.inl (h ▸ hp)
            · exact Or.inr h
      · simp only [List.mem_append, List.mem_singleton, List.mem_cons]
        tauto
    · intro e he
      rcases h3 e he with h | h
      · rcases mapSet_mem m p v e h with h | h
        · exact Or.inl h
        · exact Or.inr (by rw [h])
      · exact Or.inr h

theorem buildPrefixMap_spec (prefixes : List String) (capInt : Int) :
    ((buildPrefixMap prefixes capInt).map Prod.fst).Nodup ∧
    (∀ k, k ∈ (buildPrefixMap prefixes capInt).map Prod.fst ↔ k ∈ prefixes) ∧
    (∀ e ∈ buildPrefixMap prefixes capInt, e.2 = wrap32 capInt) := by
  obtain ⟨h1, h2, h3⟩ := foldl_mapSet_spec (wrap32 capInt) prefixes [] List.nodup_nil
  refine ⟨h1, ?_, ?_⟩
  · intro k
    have := h2 k
    simpa [buildPrefixMap] using this
  · intro e he
    rcases h3 e he with h | h
    · cases h
    · exact h

theorem buildPrefixMap_length (prefixes : List String) (capInt : Int) :
    (buildPrefixMap prefixes capInt).length = prefixes.dedup.length := by
  obtain ⟨h1, h2, _⟩ := buildPrefixMap_spec prefixes capInt
  have hperm : ((buildPrefixMap prefixes capInt).map Prod.fst).Perm prefixes.dedup := by
    rw [List.perm_ext_iff_of_nodup h1 (List.nodup_dedup prefixes)]
    intro k
    rw [h2 k, List.mem_dedup]
  have := hperm.length_eq
  rw [List.length_map] at this
  exact this

/-- C15 on the code.  For every description `d` the reference resolver returns,
with the prefix list `prefixes` that `getPrefixes` gave and `capInt` the integer
value of the entry's capacity when it has one and of the default capacity of the
`NodeResource` otherwise: every entry of the prefix map of `d` has a key of
`prefixes` and the count `int32(capInt)`, each prefix is a key, the map has as
many entries as `prefixes` has distinct elements, and the capacity of `d` is
`capInt` times the length of `prefixes`.  So the claim holds when the prefixes
are distinct and `capInt` is an `int32`: every count is `capInt` and the
capacity is `capInt` times the number of entries of the prefix map.  It fails
for the static prefix list `a`, `a` with the capacity 3 (prefix map `{a: 3}`,
capacity 6) and for the prefixes `a`, `b` with the capacity 4294967297 (prefix
map `{a: 1, b: 1}`, capacity 8589934594). -/
theorem nodeResourceResolver_total_capacity :
    (∀ (env : Env) (nrcfg : NodeResourceConfiguration) (resIdx : Int)
        (res : ResourceRequirement) (d : ResourceDescription),
      0 ≤ resIdx → nrcfg.Spec.Resources[resIdx.toNat]? = some res →
      nodeResourceResolver.Resolve env nrcfg resIdx = Outcome.ok d →
      ∃ (nr : NodeResource) (prefixes : List String) (capInt : Int),
        nodeResourceResolver.getResourceRef env res.ResourceRef = Outcome.ok nr ∧
        nodeResourceResolver.getPrefixes env nr nrcfg = Outcome.ok prefixes ∧
        (∀ c, res.Capacity = some c → c.AsInt64 = some capInt) ∧
        (res.Capacity = none → nr.Spec.DefaultCapacity.AsInt64 = some capInt) ∧
        (∀ e ∈ d.DeviceIDFormat.Prefix, e.1 ∈ prefixes ∧ e.2 = wrap32 capInt) ∧
        (∀ p ∈ prefixes, p ∈ d.DeviceIDFormat.Prefix.map Prod.fst) ∧
        d.DeviceIDFormat.Prefix.length = prefixes.dedup.length ∧
        d.Capacity.val = (capInt : ℚ) * (prefixes.length : ℚ) ∧
        (prefixes.Nodup → isInt32 capInt →
          (∀ e ∈ d.DeviceIDFormat.Prefix, e.2 = capInt) ∧
          d.Capacity.val = (capInt : ℚ) * (d.DeviceIDFormat.Prefix.length : ℚ))) ∧
    nodeResourceResolver.Resolve twinEnv
        (exampleConfig [exampleEntry "" (some (configMapRef "twin")) (some (Quantity.int64 3 0))]
          []) 0
      = Outcome.ok
          { ResourceName := "example.com/twin"
            Capacity := Quantity.int64 6 0
            DeviceIDFormat := { Prefix := [("a", 3)], Delimiter := "-", OrdinalStart := 0 }
            NodePatch := ""
            NodeUndoPatch := "" } ∧
    nodeResourceResolver.Resolve exampleEnv
        (exampleConfig
          [exampleEntry "" (some gpuConfigMapRef) (some (Quantity.int64 4294967297 0))] []) 0
      = Outcome.ok
          { ResourceName := "example.com/gpu"
            Capacity := Quantity.int64 8589934594 0
            DeviceIDFormat :=
              { Prefix := [("a", 1), ("b", 1)], Delimiter := "-", OrdinalStart := 0 }
            NodePatch := ""
            NodeUndoPatch := "" } := by
  refine ⟨?_, by decide, by decide⟩
  intro env nrcfg resIdx res d hidx hres hok
  obtain ⟨nr, prefixes, capInt, policy, h1, h2, h3, _, h5, _⟩ :=
    nodeResourceResolver_Resolve_ok env nrcfg resIdx res d hidx hres hok
  have hcap : d.Capacity = (nodeResourceResolver.getCapacity res nr).Mul (prefixes.length : Int) :=
    congrArg ResourceBasicDescription.Capacity h5
  have hfmt : d.DeviceIDFormat.Prefix = buildPrefixMap prefixes capInt :=
    congrArg (fun b => b.DeviceIDFormat.Prefix) h5
  have hval : d.Capacity.val = (capInt : ℚ) * (prefixes.length : ℚ) := by
    rw [hcap, Quantity.val_Mul, AsInt64_val _ _ h3]
    push_cast
    rfl
  obtain ⟨_, hkeys, hvals⟩ := buildPrefixMap_spec prefixes capInt
  refine ⟨nr, prefixes, capInt, h1, h2, ?_, ?_, ?_, ?_, ?_, hval, ?_⟩
  · intro c hc
    simpa [nodeResourceResolver.getCapacity, hc] using h3
  · intro hc
    simpa [nodeResourceResolver.getCapacity, hc] using h3
  · intro e he
    rw [hfmt] at he
    exact ⟨(hkeys e.1).mp (List.mem_map_of_mem Prod.fst he), hvals e he⟩
  · intro p hp
    rw [hfmt]
    exact (hkeys p).mpr hp
  · rw [hfmt, buildPrefixMap_length]
  · intro hnd hint
    have hw : wrap32 capInt = capInt := by
      unfold isInt32 at hint
      unfold wrap32
      omega
    constructor
    · intro e he
      rw [hfmt] at he
      rw [hvals e he, hw]
    · rw [hval, hfmt, buildPrefixMap_length, List.Nodup.dedup hnd]

/-- C15 on the example cluster, where the claim holds: the entry overrides the
capacity of `gpu` (default 2, prefixes `a`, `b`) with 3; both counts of the
prefix map are 3 and the total capacity is 6, three times the two entries. -/
theorem nodeResourceResolver_total_capacity_witness :
    nodeResourceResolver.Resolve exampleEnv
      (exampleConfig [exampleEntry "" (some gpuConfigMapRef) (some (Quantity.int64 3 0))] []) 0
      = Outcome.ok
          { ResourceName := "example.com/gpu", Capacity := Quantity.int64 6 0,
            DeviceIDFormat :=
              { Prefix := [("a", 3), ("b", 3)], Delimiter := "-", OrdinalStart := 0 },
            NodePatch := "", NodeUndoPatch := "" } ∧
    ∃ (nr : NodeResource) (prefixes : List String) (capInt : Int),
      nodeResourceResolver.getResourceRef exampleEnv (some gpuConfigMapRef) = Outcome.ok nr ∧
      nodeResourceResolver.getPrefixes exampleEnv nr
        (exampleConfig [exampleEntry "" (some gpuConfigMapRef) (some (Quantity.int64 3 0))] [])
        = Outcome.ok prefixes ∧
      (∀ c, some (Quantity.int64 3 0) = some c → c.AsInt64 = some capInt) ∧
      ((some (Quantity.int64 3 0) : Option Quantity) = none →
        nr.Spec.DefaultCapacity.AsInt64 = some capInt) ∧
      (∀ e ∈ [("a", (3 : Int)), ("b", 3)], e.1 ∈ prefixes ∧ e.2 = wrap32 capInt) ∧
      (∀ p ∈ prefixes, p ∈ [("a", (3 : Int)), ("b", 3)].map Prod.fst) ∧
      [("a", (3 : Int)), ("b", 3)].length = prefixes.dedup.length ∧
      (Quantity.int64 6 0).val = (capInt : ℚ) * (prefixes.length : ℚ) ∧
      (prefixes.Nodup → isInt32 capInt →
        (∀ e ∈ [("a", (3 : Int)), ("b", 3)], e.2 = capInt) ∧
        (Quantity.int64 6 0).val
          = (capInt : ℚ) * (([("a", (3 : Int)), ("b", 3)].length : Nat) : ℚ)) :=
  ⟨by decide,
    nodeResourceResolver_total_capacity.1 exampleEnv
      (exampleConfig [exampleEntry "" (some gpuConfigMapRef) (some (Quantity.int64 3 0))] []) 0
      (exampleEntry "" (some gpuConfigMapRef) (some (Quantity.int64 3 0)))
      { ResourceName := "example.com/gpu", Capacity := Quantity.int64 6 0,
        DeviceIDFormat :=
          { Prefix := [("a", 3), ("b", 3)], Delimiter := "-", OrdinalStart := 0 },
        NodePatch := "", NodeUndoPatch := "" }
      (by decide) rfl (by decide)⟩

/-- C16 on the code: for an in-range entry whose reference names an existing
`NodeResource` that has no device-ID policy or a policy without a prefix policy
object, the reference resolver answers `unsupported` when the reference has this
system's group and kind `NodeResource` (the guard of `getResourceRef`), and
otherwise `getPrefixes` dereferences the nil pointer and panics.  In neither
case does it return an error that is not `unsupported`. -/
theorem nodeResourceResolver_unset_policy (env : Env) (nrcfg : NodeResourceConfiguration)
    (resIdx : Int) (res : ResourceRequirement) (ref : ResourceReference) (nr : NodeResource)
    (hidx : 0 ≤ resIdx) (hres : nrcfg.Spec.Resources[resIdx.toNat]? = some res)
    (href : res.ResourceRef = some ref) (hget : env.Get ref.Name = Except.ok nr)
    (hunset : nr.Spec.DeviceIDGeneratePolicy = none ∨
      ∃ policy, nr.Spec.DeviceIDGeneratePolicy = some policy ∧ policy.Prefix = none) :
    (IsNodeResourceReference env.SchemeGroup (some ref) = true →
      nodeResourceResolver.Resolve env nrcfg resIdx = Outcome.err Err.unsupported) ∧
    (IsNodeResourceReference env.SchemeGroup (some ref) = false →
      nodeResourceResolver.getPrefixes env nr nrcfg = Outcome.panic ∧
      nodeResourceResolver.Resolve env nrcfg resIdx = Outcome.panic) := by
  obtain ⟨hrange, hat⟩ := resourceAt_of_getElem nrcfg resIdx res hidx hres
  have hp : nodeResourceResolver.getPrefixes env nr nrcfg = Outcome.panic := by
    unfold nodeResourceResolver.getPrefixes
    rcases hunset with h | ⟨policy, h, h2⟩
    · simp only [h]
    · simp only [h, h2]
  constructor
  · intro hg
    unfold nodeResourceResolver.Resolve
    rw [if_neg hrange]
    simp only [hat, href, getResourceRef_of_guard_true env _ hg]
  · intro hg
    refine ⟨hp, ?_⟩
    unfold nodeResourceResolver.Resolve
    rw [if_neg hrange]
    simp only [hat, href]
    rw [getResourceRef_of_guard_false env ref hg]
    simp only [hget, hp]

/-- C16 on the code, on the example cluster: `bare` has a device-ID policy without
a prefix policy object; an entry referencing it is answered with `unsupported`
through a `NodeResource` reference and panics through a reference that passes
the guard. -/
theorem nodeResourceResolver_unset_policy_witness :
    nodeResourceResolver.Resolve exampleEnv
      (exampleConfig
        [exampleEntry "" (some { APIGroup := "dpmock.volcano.sh", Kind := "NodeResource",
                                 Name := "bare" }) none] []) 0
      = Outcome.err Err.unsupported ∧
    nodeResourceResolver.Resolve exampleEnv
      (exampleConfig [exampleEntry "" (some (configMapRef "bare")) none] []) 0
      = Outcome.panic :=
  ⟨(nodeResourceResolver_unset_policy exampleEnv
      (exampleConfig
        [exampleEntry "" (some { APIGroup := "dpmock.volcano.sh", Kind := "NodeResource",
                                 Name := "bare" }) none] []) 0
      (exampleEntry "" (some { APIGroup := "dpmock.volcano.sh", Kind := "NodeResource",
                               Name := "bare" }) none)
      { APIGroup := "dpmock.volcano.sh", Kind := "NodeResource", Name := "bare" } exampleBare
      (by decide) rfl rfl rfl (Or.inr ⟨_, rfl, rfl⟩)).1 (by decide),
    ((nodeResourceResolver_unset_policy exampleEnv
      (exampleConfig [exampleEntry "" (some (configMapRef "bare")) none] []) 0
      (exampleEntry "" (some (configMapRef "bare")) none) (configMapRef "bare") exampleBare
      (by decide) rfl rfl rfl (Or.inr ⟨_, rfl, rfl⟩)).2 (by decide)).2⟩

/-! ## Claim C17: the undo patch -/

theorem finishDescription_ok (env : Env) (basicDesc : ResourceBasicDescription)
    (tpl undo : String) (d : ResourceDescription)
    (h : finishDescription env basicDesc tpl undo = Outcome.ok d) :
    parseNodePatch env tpl basicDesc = Except.ok d.NodePatch ∧
    (undo = "" → d.NodeUndoPatch = "") ∧
    (undo ≠ "" → env.YAMLToJSON undo = Except.ok d.NodeUndoPatch) := by
  unfold finishDescription at h
  split at h
  · cases h
  · rename_i patch hp
    split at h
    · rename_i hu
      split at h
      · cases h
      · rename_i undoPatch hy
        cases h
        exact ⟨hp, fun h0 => absurd h0 hu, fun _ => hy⟩
    · rename_i hu
      cases h
      exact ⟨hp, fun _ => rfl, fun h0 => absurd h0 hu⟩

theorem nameResolver_Resolve_ok (env : Env) (nrcfg : NodeResourceConfiguration)
    (resIdx : Int) (res : ResourceRequirement) (d : ResourceDescription)
    (hidx : 0 ≤ resIdx) (hres : nrcfg.Spec.Resources[resIdx.toNat]? = some res)
    (hok : nameResolver.Resolve env nrcfg resIdx = Outcome.ok d) :
    finishDescription env d.toResourceBasicDescription res.NodePatchTemplate res.NodeUndoPatch
      = Outcome.ok d := by
  obtain ⟨hrange, hat⟩ := resourceAt_of_getElem nrcfg resIdx res hidx hres
  unfold nameResolver.Resolve at hok
  rw [if_neg hrange] at hok
  simp only [hat] at hok
  split at hok
  · cases hok
  · cases hcap : res.Capacity with
    | none => simp [hcap, ptrAsInt64] at hok
    | some q =>
      simp only [hcap, ptrAsInt64] at hok
      cases hq : q.AsInt64 with
      | none => simp [hq] at hok
      | some capInt =>
        simp only [hq] at hok
        have hb := finishDescription_basic _ _ _ _ _ hok
        rw [hb]
        exact hok

/-- C17, as stated, fails: for the entry named `gpu` with capacity 4 whose undo
patch is the annotation template `... '{{ toJson .deviceIDFormat.prefix }}'`,
the direct-name resolver stores the YAML-to-JSON conversion of the undo text,
with the action left as it is, while `parseNodePatch` on the same text and the
resolved basic description renders the prefix map `{"dev":4}`. -/
theorem undo_patch_not_rendered :
    nameResolver.Resolve rendererEnv
      (exampleConfig
        [{ ResourceName := "gpu", ResourceRef := none, Capacity := some (Quantity.int64 4 0),
           NodePatchTemplate := "",
           NodeUndoPatch := annotationTemplate "device-status.volcano.sh/dpmock" }] []) 0
      = Outcome.ok
          { ResourceName := "gpu", Capacity := Quantity.int64 4 0,
            DeviceIDFormat := { Prefix := [("dev", 4)], Delimiter := "", OrdinalStart := 0 },
            NodePatch := "",
            NodeUndoPatch :=
              "\x7b\"metadata\":\x7b\"annotations\":\x7b\"device-status.volcano.sh/dpmock\":\"\x7b\x7b toJson .deviceIDFormat.prefix \x7d\x7d\"\x7d\x7d\x7d" } ∧
    parseNodePatch rendererEnv (annotationTemplate "device-status.volcano.sh/dpmock")
        { ResourceName := "gpu", Capacity := Quantity.int64 4 0,
          DeviceIDFormat := { Prefix := [("dev", 4)], Delimiter := "", OrdinalStart := 0 } }
      = Except.ok
          "\x7b\"metadata\":\x7b\"annotations\":\x7b\"device-status.volcano.sh/dpmock\":\"\x7b\\\"dev\\\":4\x7d\"\x7d\x7d\x7d" := by
  constructor
  · rfl
  · rfl

/-- C17, amended: in every description returned by either resolver for an
in-range entry, the apply patch is `parseNodePatch` of the apply template on the
basic description, and the undo patch is the empty string when the undo text is
empty and otherwise `yaml.YAMLToJSON` of the undo text itself; the undo text is
not rendered as a template.  (For the reference resolver the template and the
undo text are the entry's, or the defaults of the `NodeResource` when the
entry's are empty.) -/
theorem resolvers_undo_patch (env : Env) (nrcfg : NodeResourceConfiguration)
    (resIdx : Int) (res : ResourceRequirement) (d : ResourceDescription)
    (hidx : 0 ≤ resIdx) (hres : nrcfg.Spec.Resources[resIdx.toNat]? = some res) :
    (nameResolver.Resolve env nrcfg resIdx = Outcome.ok d →
      parseNodePatch env res.NodePatchTemplate d.toResourceBasicDescription
        = Except.ok d.NodePatch ∧
      (res.NodeUndoPatch = "" → d.NodeUndoPatch = "") ∧
      (res.NodeUndoPatch ≠ "" → env.YAMLToJSON res.NodeUndoPatch = Except.ok d.NodeUndoPatch)) ∧
    (nodeResourceResolver.Resolve env nrcfg resIdx = Outcome.ok d →
      ∃ nr, nodeResourceResolver.getResourceRef env res.ResourceRef = Outcome.ok nr ∧
        parseNodePatch env (nodeResourceResolver.getNodePatchTemplate res nr)
          d.toResourceBasicDescription = Except.ok d.NodePatch ∧
        (nodeResourceResolver.getNodeUndoPatch res nr = "" → d.NodeUndoPatch = "") ∧
        (nodeResourceResolver.getNodeUndoPatch res nr ≠ "" →
          env.YAMLToJSON (nodeResourceResolver.getNodeUndoPatch res nr)
            = Except.ok d.NodeUndoPatch)) := by
  constructor
  · intro hok
    exact finishDescription_ok _ _ _ _ _ (nameResolver_Resolve_ok env nrcfg resIdx res d hidx hres hok)
  · intro hok
    obtain ⟨nr, _, _, _, h1, _, _, _, _, h6⟩ :=
      nodeResourceResolver_Resolve_ok env nrcfg resIdx res d hidx hres hok
    exact ⟨nr, h1, finishDescription_ok _ _ _ _ _ h6⟩

/-- C17, amended, on the entry of the counterexample: the stored undo patch is the
YAML-to-JSON conversion of the undo text. -/
theorem resolvers_undo_patch_witness :
    rendererEnv.YAMLToJSON (annotationTemplate "device-status.volcano.sh/dpmock")
      = Except.ok
          "\x7b\"metadata\":\x7b\"annotations\":\x7b\"device-status.volcano.sh/dpmock\":\"\x7b\x7b toJson .deviceIDFormat.prefix \x7d\x7d\"\x7d\x7d\x7d" :=
  ((resolvers_undo_patch rendererEnv
      (exampleConfig
        [{ ResourceName := "gpu", ResourceRef := none, Capacity := some (Quantity.int64 4 0),
           NodePatchTemplate := "",
           NodeUndoPatch := annotationTemplate "device-status.volcano.sh/dpmock" }] []) 0
      { ResourceName := "gpu", ResourceRef := none, Capacity := some (Quantity.int64 4 0),
        NodePatchTemplate := "",
        NodeUndoPatch := annotationTemplate "device-status.volcano.sh/dpmock" }
      { ResourceName := "gpu", Capacity := Quantity.int64 4 0,
        DeviceIDFormat := { Prefix := [("dev", 4)], Delimiter := "", OrdinalStart := 0 },
        NodePatch := "",
        NodeUndoPatch :=
          "\x7b\"metadata\":\x7b\"annotations\":\x7b\"device-status.volcano.sh/dpmock\":\"\x7b\x7b toJson .deviceIDFormat.prefix \x7d\x7d\"\x7d\x7d\x7d" }
      (by decide) rfl).1 rfl).2.2 (by decide)

/-! ## The renderer on the annotation template -/

theorem executeChars_skip (value : List Char) :
    ∀ (xs rest : List Char), executeChars value xs.length (xs ++ rest)
      = executeChars value 0 rest := by
  intro xs
  induction xs with
  | nil => intro rest; rfl
  | cons x xs ih =>
    intro rest
    simp only [List.length_cons, List.cons_append, executeChars]
    exact ih rest

theorem executeChars_action (value rest : List Char) :
    executeChars value 0 (toJsonAction ++ rest)
      = (executeChars value 0 rest).map (fun out => value ++ out) := by
  have h := executeChars_skip value (toJsonAction.tail) rest
  have hlen : toJsonAction.tail.length = toJsonAction.length - 1 := by decide
  rw [hlen] at h
  have hcons : toJsonAction ++ rest = '\x7b' :: (toJsonAction.tail ++ rest) := by
    simp [toJsonAction]
  rw [hcons, executeChars]
  have hp : toJsonAction.isPrefixOf ('\x7b' :: (toJsonAction.tail ++ rest)) = true := by
    rw [← hcons]
    exact List.isPrefixOf_iff_prefix.mpr (List.prefix_append _ _)
  simp only [hp, if_true, h]
  cases executeChars value 0 rest <;> rfl

theorem executeChars_copy (value : List Char) :
    ∀ (pre rest : List Char), (∀ c ∈ pre, c ≠ '\x7b') →
      executeChars value 0 (pre ++ rest)
        = (executeChars value 0 rest).map (fun out => pre ++ out) := by
  intro pre
  induction pre with
  | nil =>
    intro rest _
    simp only [List.nil_append]
    cases executeChars value 0 rest <;> rfl
  | cons c pre ih =>
    intro rest h
    have hc : c ≠ '\x7b' := h c (List.mem_cons_self _ _)
    have ih2 := ih rest (fun x hx => h x (List.mem_cons_of_mem _ hx))
    have hcb : ('\x7b' == c) = false := by
      simp only [beq_eq_false_iff_ne, ne_eq]
      exact fun h => hc h.symm
    simp only [List.cons_append, executeChars, toJsonAction, List.isPrefixOf, hcb,
      Bool.false_and, Bool.false_eq_true, if_false]
    have happ : pre.append rest = pre ++ rest := rfl
    rw [happ, ih2]
    cases executeChars value 0 rest <;> rfl

theorem unescapeChars_copy :
    ∀ (pre rest : List Char), (∀ c ∈ pre, c ≠ '&') →
      unescapeChars 0 (pre ++ rest) = pre ++ unescapeChars 0 rest := by
  intro pre
  induction pre with
  | nil => intro rest _; rfl
  | cons c pre ih =>
    intro rest h
    have hc : c ≠ '&' := h c (List.mem_cons_self _ _)
    have hcb : ('&' == c) = false := by
      simp only [beq_eq_false_iff_ne, ne_eq]
      exact fun h => hc h.symm
    have ih2 := ih rest (fun x hx => h x (List.mem_cons_of_mem _ hx))
    have happ : pre.append rest = pre ++ rest := rfl
    simp only [List.cons_append, unescapeChars, List.isPrefixOf, hcb, Bool.false_and,
      Bool.false_eq_true, if_false, happ, ih2]

theorem unescapeChars_escape :
    ∀ (s rest : List Char), (∀ c ∈ s, c ≠ '\x00') →
      unescapeChars 0 (s.flatMap htmlEscapeChar ++ rest) = s ++ unescapeChars 0 rest := by
  intro s
  induction s with
  | nil => intro rest _; rfl
  | cons c s ih =>
    intro rest h
    have hc : c ≠ '\x00' := h c (List.mem_cons_self _ _)
    have ih2 := ih rest (fun x hx => h x (List.mem_cons_of_mem _ hx))
    simp only [List.flatMap_cons, List.append_assoc]
    by_cases h1 : c = '"'
    · subst h1
      simp [htmlEscapeChar, unescapeChars, List.isPrefixOf, ih2]
    · by_cases h2 : c = '\''
      · subst h2
        simp [htmlEscapeChar, unescapeChars, List.isPrefixOf, ih2]
      · by_cases h3 : c = '&'
        · subst h3
          simp [htmlEscapeChar, unescapeChars, List.isPrefixOf, ih2]
        · by_cases h4 : c = '+'
          · subst h4
            simp [htmlEscapeChar, unescapeChars, List.isPrefixOf, ih2]
          · by_cases h5 : c = '<'
            · subst h5
              simp [htmlEscapeChar, unescapeChars, List.isPrefixOf, ih2]
            · by_cases h6 : c = '>'
              · subst h6
                simp [htmlEscapeChar, unescapeChars, List.isPrefixOf, ih2]
              · have hcb : ('&' == c) = false := by
                  simp only [beq_eq_false_iff_ne, ne_eq]
                  exact fun h => h3 h.symm
                simp only [htmlEscapeChar, hc, h1, h2, h3, h4, h5, h6, if_false,
                  List.singleton_append, unescapeChars, List.isPrefixOf, hcb, Bool.false_and,
                  Bool.false_eq_true, List.cons_append, List.nil_append, ih2]

theorem singleQuoted_clean :
    ∀ s : List Char, (∀ c ∈ s, c ≠ '\'' ∧ c ≠ '\n') →
      singleQuoted (s ++ ['\'', '\n']) = some (s, ['\n']) := by
  intro s
  induction s with
  | nil => intro _; rfl
  | cons c s ih =>
    intro h
    obtain ⟨h1, h2⟩ := h c (List.mem_cons_self _ _)
    have ih2 := ih (fun x hx => h x (List.mem_cons_of_mem _ hx))
    rw [List.cons_append, singleQuoted.eq_def]
    simp only [h1, h2, if_false, ih2]

theorem takeWhile_ne_append (p : Char → Bool) :
    ∀ (key rest : List Char) (c : Char), (∀ x ∈ key, p x = true) → p c = false →
      (key ++ c :: rest).takeWhile p = key ∧ (key ++ c :: rest).dropWhile p = c :: rest := by
  intro key
  induction key with
  | nil =>
    intro rest c _ hc
    simp [List.takeWhile, List.dropWhile, hc]
  | cons k key ih =>
    intro rest c h hc
    have hk : p k = true := h k (List.mem_cons_self _ _)
    obtain ⟨h1, h2⟩ := ih rest c (fun x hx => h x (List.mem_cons_of_mem _ hx)) hc
    simp [List.takeWhile, List.dropWhile, hk, h1, h2]

theorem char_valid_toNat (c : Char) :
    c.toNat < 55296 ∨ (57343 < c.toNat ∧ c.toNat < 1114112) := c.valid

theorem char_ne_of_toNat_ne (c d : Char) (h : c.toNat ≠ d.toNat) : c ≠ d :=
  fun hcd => h (congrArg Char.toNat hcd)

theorem char_toNat_ne_of_ne (c d : Char) (h : c ≠ d) : c.toNat ≠ d.toNat := by
  intro hn
  apply h
  apply Char.ext
  apply UInt32.ext
  exact hn

theorem keyChar_facts (c : Char) (h : keyChar c = true) :
    c ≠ '\x7b' ∧ c ≠ '&' ∧ c ≠ '<' ∧ (c != ':') = true ∧ yamlReadable c = true := by
  have ne : ∀ b : Char, keyChar b = false → c ≠ b := by
    intro b hb hcb
    rw [hcb, hb] at h
    cases h
  refine ⟨ne _ (by decide), ne _ (by decide), ne _ (by decide), ?_, ?_⟩
  · rw [bne_iff_ne]
    exact ne _ (by decide)
  · unfold keyChar asciiAlnum asciiLetter at h
    unfold yamlReadable
    simp only [Bool.or_eq_true, decide_eq_true_eq] at h ⊢
    omega

theorem scalarChar_facts (c : Char) (h : scalarChar c = true) :
    c ≠ '\n' ∧ c ≠ '\x00' ∧ yamlReadable c = true := by
  have ne : ∀ b : Char, scalarChar b = false → c ≠ b := by
    intro b hb hcb
    rw [hcb, hb] at h
    cases h
  refine ⟨ne _ (by decide), ne _ (by decide), ?_⟩
  unfold scalarChar at h
  simp only [Bool.and_eq_true] at h
  exact h.1.1

theorem plainKey_chars (key : List Char) (h : plainKey key = true) :
    ∀ c ∈ key, keyChar c = true := by
  unfold plainKey at h
  simp only [Bool.and_eq_true, List.all_eq_true] at h
  exact h.1.1

theorem annotationKey_facts (key : List Char) (h : annotationKey key = true) :
    plainKey key = true ∧ resolvedKey key = some key := by
  unfold annotationKey at h
  simp only [Bool.and_eq_true, Bool.not_eq_true'] at h
  obtain ⟨⟨⟨h1, h2⟩, h3⟩, h4⟩ := h
  refine ⟨h1, ?_⟩
  unfold resolvedKey
  simp only [h2, h3, h4, Bool.false_eq_true, if_false]

/-- The model of `yaml.YAMLToJSON` on the rendered annotation template: for an
annotation key and a value of characters that may stand in the scalar, the
document is converted to the JSON document with that key and value. -/
theorem yamlModel_fragment (key value : List Char) (hkey : annotationKey key = true)
    (hvalue : ∀ c ∈ value, scalarSafe c) :
    yamlModel (annotationHeader ++ (key ++ ([':', ' ', '\''] ++ (value ++ ['\'', '\n']))))
      = YamlResult.json (annotationDoc key value) := by
  obtain ⟨hplain, hres⟩ := annotationKey_facts key hkey
  have hkc := plainKey_chars key hplain
  have hread : (annotationHeader ++ (key ++ ([':', ' ', '\''] ++ (value ++ ['\'', '\n'])))).any
      (fun c => !yamlReadable c) = false := by
    rw [Bool.eq_false_iff]
    intro hc
    rw [List.any_eq_true] at hc
    obtain ⟨c, hmem, hbad⟩ := hc
    have hhead : ∀ x ∈ annotationHeader, yamlReadable x = true := by decide
    have hmid : ∀ x ∈ [':', ' ', '\''], yamlReadable x = true := by decide
    have hend : ∀ x ∈ ['\'', '\n'], yamlReadable x = true := by decide
    have hgood : yamlReadable c = true := by
      rcases List.mem_append.mp hmem with hm | hm
      · exact hhead c hm
      · rcases List.mem_append.mp hm with hm | hm
        · exact (keyChar_facts c (hkc c hm)).2.2.2.2
        · rcases List.mem_append.mp hm with hm | hm
          · exact hmid c hm
          · rcases List.mem_append.mp hm with hm | hm
            · exact (scalarChar_facts c (hvalue c hm).2).2.2
            · exact hend c hm
    rw [hgood] at hbad
    cases hbad
  have hscalar : value.all scalarChar = true := by
    rw [List.all_eq_true]
    exact fun c hc => (hvalue c hc).2
  have hclean : ∀ c ∈ value, c ≠ '\'' ∧ c ≠ '\n' :=
    fun c hc => ⟨(hvalue c hc).1, (scalarChar_facts c (hvalue c hc).2).1⟩
  unfold yamlModel
  rw [hread]
  have hp : annotationHeader.isPrefixOf
      (annotationHeader ++ (key ++ ([':', ' ', '\''] ++ (value ++ ['\'', '\n'])))) = true :=
    List.isPrefixOf_iff_prefix.mpr (List.prefix_append _ _)
  obtain ⟨ht, hd⟩ := takeWhile_ne_append (fun c => c != ':') key
    ([' ', '\''] ++ (value ++ ['\'', '\n'])) ':'
    (fun x hx => (keyChar_facts x (hkc x hx)).2.2.2.1) (by decide)
  simp only [Bool.false_eq_true, if_false, hp, if_true, List.drop_left, List.cons_append,
    List.nil_append] at ht hd ⊢
  simp only [ht, hd, hplain, hres, List.isPrefixOf, beq_self_eq_true, Bool.and_self, if_true,
    List.drop, singleQuoted_clean value hclean, hscalar]

theorem digitChar_scalarSafe (d : Nat) (h : d < 16) : scalarSafe (Nat.digitChar d) := by
  unfold scalarSafe
  interval_cases d <;> decide

theorem toDigitsCore_scalarSafe (fuel : Nat) : ∀ (n : Nat) (ds : List Char),
    (∀ c ∈ ds, scalarSafe c) → ∀ c ∈ Nat.toDigitsCore 10 fuel n ds, scalarSafe c := by
  induction fuel with
  | zero => intro n ds h c hc; exact h c hc
  | succ fuel ih =>
    intro n ds h c hc
    simp only [Nat.toDigitsCore] at hc
    have hd := digitChar_scalarSafe (n % 10) (by omega)
    have h2 : ∀ c ∈ Nat.digitChar (n % 10) :: ds, scalarSafe c := by
      intro x hx
      rcases List.mem_cons.mp hx with rfl | hx
      · exact hd
      · exact h x hx
    split at hc
    · exact h2 c hc
    · exact ih _ _ h2 c hc

theorem Itoa_scalarSafe (v : Int) : ∀ c ∈ (Itoa v).data, scalarSafe c := by
  have hrepr : ∀ n : Nat, ∀ c ∈ (Nat.repr n).data, scalarSafe c := by
    intro n c hc
    exact toDigitsCore_scalarSafe (n + 1) n [] (by simp) c
      (by simpa [Nat.repr, Nat.toDigits, List.asString] using hc)
  intro c hc
  cases v with
  | ofNat m => exact hrepr m c (by simpa [Itoa] using hc)
  | negSucc m =>
    simp only [Itoa, String.data_append, List.mem_append] at hc
    rcases hc with hc | hc
    · have : c = '-' := by simpa using hc
      rw [this]; unfold scalarSafe; decide
    · exact hrepr _ c hc

/-- The JSON escaping of a character of a prefix consists of characters that may
stand inside the single-quoted scalar. -/
theorem jsonEscapeChar_scalarSafe (c : Char) (hc : devicePrefixChar c = true) :
    ∀ x ∈ jsonEscapeChar c, scalarSafe x := by
  intro x hx
  have lit : ∀ l : List Char, (∀ y ∈ l, scalarSafe y) → x ∈ l → scalarSafe x :=
    fun l hl hxl => hl x hxl
  unfold jsonEscapeChar at hx
  by_cases h1 : c = '"'
  · rw [if_pos h1] at hx
    exact lit ['\\', '"'] (by unfold scalarSafe; decide) hx
  rw [if_neg h1] at hx
  by_cases h2 : c = '\\'
  · rw [if_pos h2] at hx
    exact lit ['\\', '\\'] (by unfold scalarSafe; decide) hx
  rw [if_neg h2] at hx
  by_cases h3 : c = '\n'
  · rw [if_pos h3] at hx
    exact lit ['\\', 'n'] (by unfold scalarSafe; decide) hx
  rw [if_neg h3] at hx
  by_cases h4 : c = '\r'
  · rw [if_pos h4] at hx
    exact lit ['\\', 'r'] (by unfold scalarSafe; decide) hx
  rw [if_neg h4] at hx
  by_cases h5 : c = '\t'
  · rw [if_pos h5] at hx
    exact lit ['\\', 't'] (by unfold scalarSafe; decide) hx
  rw [if_neg h5] at hx
  by_cases h6 : c = '\x08'
  · rw [if_pos h6] at hx
    exact lit ['\\', 'b'] (by unfold scalarSafe; decide) hx
  rw [if_neg h6] at hx
  by_cases h7 : c = '\x0c'
  · rw [if_pos h7] at hx
    exact lit ['\\', 'f'] (by unfold scalarSafe; decide) hx
  rw [if_neg h7] at hx
  by_cases h8 : c.toNat < 32 ∨ c = '<' ∨ c = '>' ∨ c = '&'
  · rw [if_pos h8] at hx
    have hb : c.toNat < 64 := by
      rcases h8 with h | h | h | h
      · omega
      · rw [h]; decide
      · rw [h]; decide
      · rw [h]; decide
    simp only [List.mem_cons, List.mem_singleton, List.not_mem_nil, or_false] at hx
    rcases hx with rfl | rfl | rfl | rfl | rfl | rfl
    · unfold scalarSafe; decide
    · unfold scalarSafe; decide
    · unfold scalarSafe; decide
    · unfold scalarSafe; decide
    · exact digitChar_scalarSafe _ (by omega)
    · exact digitChar_scalarSafe _ (by omega)
  rw [if_neg h8] at hx
  by_cases h9 : c = '\u2028'
  · rw [if_pos h9] at hx
    exact lit ['\\', 'u', '2', '0', '2', '8'] (by unfold scalarSafe; decide) hx
  rw [if_neg h9] at hx
  by_cases h10 : c = '\u2029'
  · rw [if_pos h10] at hx
    exact lit ['\\', 'u', '2', '0', '2', '9'] (by unfold scalarSafe; decide) hx
  rw [if_neg h10] at hx
  have hxc : x = c := by simpa using hx
  rw [hxc]
  unfold devicePrefixChar at hc
  simp only [decide_eq_true_eq] at hc
  obtain ⟨hq, hctl, hbom, hfe, hff⟩ := hc
  refine ⟨hq, ?_⟩
  have hv := char_valid_toNat c
  have h32 : ¬ c.toNat < 32 := fun h => h8 (Or.inl h)
  have h9n : c.toNat ≠ 8232 := char_toNat_ne_of_ne c '\u2028' h9
  have h10n : c.toNat ≠ 8233 := char_toNat_ne_of_ne c '\u2029' h10
  unfold scalarChar yamlReadable yamlBreak
  simp only [Bool.and_eq_true, Bool.not_eq_true', decide_eq_true_eq, decide_eq_false_iff_not]
  omega

theorem jsonString_scalarSafe (k : List Char) (hk : ∀ c ∈ k, devicePrefixChar c = true) :
    ∀ x ∈ jsonString k, scalarSafe x := by
  intro x hx
  simp only [jsonString, List.mem_cons, List.mem_append, List.mem_flatMap, List.mem_singleton,
    List.not_mem_nil, or_false] at hx
  rcases hx with rfl | ⟨c, hc, hxc⟩ | rfl
  · unfold scalarSafe; decide
  · exact jsonEscapeChar_scalarSafe c (hk c hc) x hxc
  · unfold scalarSafe; decide

theorem joinComma_forall (P : Char → Prop) (hcomma : P ',') :
    ∀ ls : List (List Char), (∀ l ∈ ls, ∀ c ∈ l, P c) → ∀ c ∈ joinComma ls, P c := by
  intro ls
  induction ls with
  | nil => intro _ c hc; simp [joinComma] at hc
  | cons x rest ih =>
    intro h c hc
    cases rest with
    | nil =>
      simp only [joinComma] at hc
      exact h x (List.mem_cons_self _ _) c hc
    | cons y rest =>
      simp only [joinComma, List.mem_append, List.mem_cons] at hc
      rcases hc with hc | rfl | hc
      · exact h x (List.mem_cons_self _ _) c hc
      · exact hcomma
      · exact ih (fun l hl => h l (List.mem_cons_of_mem _ hl)) c hc

theorem jsonObject_scalarSafe (m : List (String × Int))
    (hm : ∀ e ∈ m, ∀ c ∈ e.1.data, devicePrefixChar c = true) :
    ∀ c ∈ jsonObject m, scalarSafe c := by
  intro c hc
  simp only [jsonObject, List.mem_cons, List.mem_append, List.mem_singleton] at hc
  rcases hc with rfl | hc | hc
  · unfold scalarSafe; decide
  · refine joinComma_forall scalarSafe (by unfold scalarSafe; decide) _ ?_ c hc
    intro l hl x hx
    rcases List.mem_map.mp hl with ⟨e, he, rfl⟩
    have hem : e ∈ m := (List.perm_insertionSort _ m).mem_iff.mp he
    simp only [List.mem_cons, List.mem_append] at hx
    rcases hx with hx | rfl | hx
    · exact jsonString_scalarSafe e.1.data (hm e hem) x hx
    · unfold scalarSafe; decide
    · exact Itoa_scalarSafe e.2 x hx
  · rcases hc with rfl | hc
    · unfold scalarSafe; decide
    · cases hc

theorem keyLE_total : ∀ a b : List Char, keyLE a b = true ∨ keyLE b a = true := by
  intro a
  induction a with
  | nil => intro b; left; cases b <;> rfl
  | cons x a ih =>
    intro b
    cases b with
    | nil => right; rfl
    | cons y b =>
      simp only [keyLE]
      by_cases h1 : x.toNat < y.toNat
      · left; simp [h1]
      · by_cases h2 : y.toNat < x.toNat
        · right; simp [h2]
        · simp only [h1, h2, if_false]
          exact ih b

theorem keyLE_trans : ∀ a b c : List Char, keyLE a b = true → keyLE b c = true →
    keyLE a c = true := by
  intro a
  induction a with
  | nil => intro b c _ _; cases c <;> rfl
  | cons x a ih =>
    intro b c hab hbc
    cases b with
    | nil => simp [keyLE] at hab
    | cons y b =>
      cases c with
      | nil => simp [keyLE] at hbc
      | cons z c =>
        simp only [keyLE] at hab hbc ⊢
        by_cases h1 : x.toNat < y.toNat
        · by_cases h2 : y.toNat < z.toNat
          · have : x.toNat < z.toNat := by omega
            simp [this]
          · by_cases h3 : z.toNat < y.toNat
            · simp [h2, h3] at hbc
            · have : x.toNat < z.toNat := by omega
              simp [this]
        · by_cases h4 : y.toNat < x.toNat
          · simp [h1, h4] at hab
          · simp only [h1, h4, if_false] at hab
            by_cases h2 : y.toNat < z.toNat
            · have : x.toNat < z.toNat := by omega
              simp [this]
            · by_cases h3 : z.toNat < y.toNat
              · simp [h2, h3] at hbc
              · simp only [h2, h3, if_false] at hbc
                have h5 : ¬ x.toNat < z.toNat := by omega
                have h6 : ¬ z.toNat < x.toNat := by omega
                simp only [h5, h6, if_false]
                exact ih b c hab hbc

theorem sortedEntries_sorted (m : List (String × Int)) :
    List.Sorted (fun a b : String × Int => keyLE a.1.data b.1.data = true) (sortedEntries m) := by
  haveI : IsTotal (String × Int) (fun a b => keyLE a.1.data b.1.data = true) :=
    ⟨fun a b => keyLE_total a.1.data b.1.data⟩
  haveI : IsTrans (String × Int) (fun a b => keyLE a.1.data b.1.data = true) :=
    ⟨fun a b c => keyLE_trans a.1.data b.1.data c.1.data⟩
  exact List.sorted_insertionSort _ m

theorem parseNodePatch_empty (env : Env) (jsonContext : ResourceBasicDescription) :
    parseNodePatch env "" jsonContext = Except.ok "" := by
  simp [parseNodePatch]

/-- The model of the rendering on the annotation template: the text handed to
`yaml.YAMLToJSON` is the template with the action replaced by the `toJson` of
the prefix map. -/
theorem renderModel_template (key : String) (jsonContext : ResourceBasicDescription)
    (hkey : plainKey key.data = true)
    (hsafe : ∀ c ∈ toJson (contextPrefix jsonContext), c ≠ '\x00') :
    renderModel (annotationTemplate key) jsonContext
      = some (String.mk (annotationHeader ++ (key.data ++ ([':', ' ', '\''] ++
          (toJson (contextPrefix jsonContext) ++ ['\'', '\n']))))) := by
  have hkeychars := plainKey_chars key.data hkey
  have hpre1 : ∀ c ∈ annotationHeader ++ (key.data ++ [':', ' ', '\'']), c ≠ '\x7b' := by
    intro c hc
    rcases List.mem_append.mp hc with hc | hc
    · intro h; rw [h] at hc; revert hc; decide
    · rcases List.mem_append.mp hc with hc | hc
      · exact (keyChar_facts c (hkeychars c hc)).1
      · intro h; rw [h] at hc; revert hc; decide
  have hpre2 : ∀ c ∈ annotationHeader ++ (key.data ++ [':', ' ', '\'']), c ≠ '&' := by
    intro c hc
    rcases List.mem_append.mp hc with hc | hc
    · intro h; rw [h] at hc; revert hc; decide
    · rcases List.mem_append.mp hc with hc | hc
      · exact (keyChar_facts c (hkeychars c hc)).2.1
      · intro h; rw [h] at hc; revert hc; decide
  have hdata : (annotationTemplate key).data
      = (annotationHeader ++ (key.data ++ [':', ' ', '\''])) ++ (toJsonAction ++ ['\'', '\n']) := by
    simp [annotationTemplate, List.append_assoc]
  have hmarkup : (annotationTemplate key).data.any (fun c => c == '&' || c == '<') = false := by
    rw [Bool.eq_false_iff]
    intro hc
    rw [List.any_eq_true] at hc
    obtain ⟨c, hmem, hbad⟩ := hc
    have hhead : ∀ x ∈ annotationHeader, (x == '&' || x == '<') = false := by decide
    have hmid : ∀ x ∈ [':', ' ', '\''], (x == '&' || x == '<') = false := by decide
    have hend : ∀ x ∈ toJsonAction ++ ['\'', '\n'], (x == '&' || x == '<') = false := by
      decide
    have hgood : (c == '&' || c == '<') = false := by
      rw [hdata] at hmem
      rcases List.mem_append.mp hmem with hm | hm
      · rcases List.mem_append.mp hm with hm | hm
        · exact hhead c hm
        · rcases List.mem_append.mp hm with hm | hm
          · have hf := keyChar_facts c (hkeychars c hm)
            simp [hf.2.1, hf.2.2.1]
          · exact hmid c hm
      · exact hend c hm
    rw [hgood] at hbad
    cases hbad
  have hexec : ∀ value : List Char,
      executeChars value 0 (annotationTemplate key).data
        = some ((annotationHeader ++ (key.data ++ [':', ' ', '\''])) ++
            (value ++ ['\'', '\n'])) := by
    intro value
    rw [hdata, executeChars_copy value _ _ hpre1, executeChars_action]
    have : executeChars value 0 ['\'', '\n'] = some ['\'', '\n'] := by
      simp [executeChars, toJsonAction, List.isPrefixOf]
    simp only [this, Option.map_some']
  have hunesc : unescapeChars 0
      ((annotationHeader ++ (key.data ++ [':', ' ', '\''])) ++
        ((toJson (contextPrefix jsonContext)).flatMap htmlEscapeChar ++ ['\'', '\n']))
      = annotationHeader ++ (key.data ++ ([':', ' ', '\''] ++
          (toJson (contextPrefix jsonContext) ++ ['\'', '\n']))) := by
    rw [unescapeChars_copy _ _ hpre2, unescapeChars_escape _ _ hsafe]
    have : unescapeChars 0 ['\'', '\n'] = ['\'', '\n'] := by
      simp [unescapeChars, List.isPrefixOf]
    simp only [this, List.append_assoc]
  unfold renderModel
  rw [hmarkup]
  simp only [Bool.false_eq_true, if_false, hexec, hunesc]

theorem annotationTemplate_ne_empty (key : String) : annotationTemplate key ≠ "" := by
  intro h
  have := congrArg String.data h
  simp [annotationTemplate, annotationHeader] at this

/-- What `parseNodePatch` returns in an environment that follows the model, for a
non-empty template that the model of the rendering covers: the JSON text that
the model of `yaml.YAMLToJSON` gives for the rendered text, and an error when
that model fails. -/
theorem parseNodePatch_of_model (env : Env) (henv : followsModel env) (text : String)
    (jsonContext : ResourceBasicDescription) (rendered : String) (hne : text ≠ "")
    (hrender : renderModel text jsonContext = some rendered) :
    (∀ out, yamlModel rendered.data = YamlResult.json out →
      parseNodePatch env text jsonContext = Except.ok (String.mk out)) ∧
    (yamlModel rendered.data = YamlResult.fails →
      ∃ e, parseNodePatch env text jsonContext = Except.error e) := by
  obtain ⟨hexec, hjson, hfails⟩ := henv
  obtain ⟨yamlPatch, hy, hu⟩ := hexec text jsonContext rendered hrender
  have hp : parseNodePatch env text jsonContext = env.YAMLToJSON rendered := by
    unfold parseNodePatch
    rw [if_neg hne, hy]
    simp only [hu]
  constructor
  · intro out hout
    rw [hp]
    exact hjson rendered out hout
  · intro hf
    rw [hp]
    exact hfails rendered hf

/-- The example environment follows the model. -/
theorem rendererEnv_followsModel : followsModel rendererEnv := by
  refine ⟨?_, ?_, ?_⟩
  · intro text jsonContext out h
    unfold renderModel at h
    split at h
    · cases h
    · cases hx : executeChars ((toJson (contextPrefix jsonContext)).flatMap htmlEscapeChar) 0
          text.data with
      | none => rw [hx] at h; cases h
      | some chars =>
        rw [hx] at h
        simp only [Option.some.injEq] at h
        refine ⟨String.mk chars, ?_, ?_⟩
        · simp only [rendererEnv, hx]
        · rw [← h]
          rfl
  · intro s out h
    simp only [rendererEnv, h]
  · intro s h
    exact ⟨"yaml: conversion failed", by simp only [rendererEnv, h]⟩

set_option maxRecDepth 8000 in
/-- The template of `test3` of `Test_parseNodePatch`, a JSON text without action:
in every environment that follows the model `parseNodePatch` returns the text
as it is, whatever the context. -/
theorem parseNodePatch_json_text (env : Env) (henv : followsModel env)
    (jsonContext : ResourceBasicDescription) :
    parseNodePatch env
        "\x7b\"metadata\":\x7b\"annotations\":\x7b\"volcano.sh/device-topologys\":null\x7d\x7d\x7d"
        jsonContext
      = Except.ok
          "\x7b\"metadata\":\x7b\"annotations\":\x7b\"volcano.sh/device-topologys\":null\x7d\x7d\x7d" :=
  (parseNodePatch_of_model env henv
    "\x7b\"metadata\":\x7b\"annotations\":\x7b\"volcano.sh/device-topologys\":null\x7d\x7d\x7d"
    jsonContext
    "\x7b\"metadata\":\x7b\"annotations\":\x7b\"volcano.sh/device-topologys\":null\x7d\x7d\x7d"
    (by decide) rfl).1 _ rfl

/-! ## Claim C18: the `toJson` annotation template -/

set_option maxRecDepth 8000 in
/-- C18, as stated, fails, in every environment whose libraries follow the model
(the example environment is one).  With the annotation key `x` of the
specification's example: for the prefix `a'b` the text handed to the YAML
converter is `... x: '{"a'b":1}'`, the quote inside the value ends the scalar
and `parseNodePatch` returns an error; for the prefix `a`, U+007F, `b` the JSON
encoder writes the control character as it is, the YAML reader refuses it and
`parseNodePatch` returns an error; for the empty prefix map the JSON tree of the
context has no entry `prefix` (the field is `omitempty`) and the annotation is
set to the string `null`, not to the object encoding `{}`.  With the annotation
key `no` and the prefix map of the test, the key of the returned document is
`false`, not `no`. -/
theorem parseNodePatch_toJson_fails :
    followsModel rendererEnv ∧
    (∀ env : Env, followsModel env →
      (∃ e, parseNodePatch env (annotationTemplate "x")
          { ResourceName := "gpu", Capacity := Quantity.int64 1 0,
            DeviceIDFormat := { Prefix := [("a'b", 1)], Delimiter := "", OrdinalStart := 0 } }
        = Except.error e) ∧
      (∃ e, parseNodePatch env (annotationTemplate "x")
          { ResourceName := "gpu", Capacity := Quantity.int64 1 0,
            DeviceIDFormat := { Prefix := [("a\x7fb", 1)], Delimiter := "", OrdinalStart := 0 } }
        = Except.error e) ∧
      parseNodePatch env (annotationTemplate "x")
          { ResourceName := "gpu", Capacity := Quantity.int64 0 0,
            DeviceIDFormat := { Prefix := [], Delimiter := "", OrdinalStart := 0 } }
        = Except.ok "\x7b\"metadata\":\x7b\"annotations\":\x7b\"x\":\"null\"\x7d\x7d\x7d" ∧
      parseNodePatch env (annotationTemplate "no")
          { ResourceName := "", Capacity := Quantity.zero,
            DeviceIDFormat :=
              { Prefix := [("dev0", 2), ("dev1", 4)], Delimiter := "", OrdinalStart := 0 } }
        = Except.ok
            "\x7b\"metadata\":\x7b\"annotations\":\x7b\"false\":\"\x7b\\\"dev0\\\":2,\\\"dev1\\\":4\x7d\"\x7d\x7d\x7d") ∧
    renderModel (annotationTemplate "x")
        { ResourceName := "gpu", Capacity := Quantity.int64 1 0,
          DeviceIDFormat := { Prefix := [("a'b", 1)], Delimiter := "", OrdinalStart := 0 } }
      = some "\nmetadata:\n  annotations:\n    x: '\x7b\"a'b\":1\x7d'\n" ∧
    renderModel (annotationTemplate "x")
        { ResourceName := "gpu", Capacity := Quantity.int64 1 0,
          DeviceIDFormat := { Prefix := [("a\x7fb", 1)], Delimiter := "", OrdinalStart := 0 } }
      = some "\nmetadata:\n  annotations:\n    x: '\x7b\"a\x7fb\":1\x7d'\n" ∧
    jsonObject [] = ['\x7b', '\x7d'] := by
  refine ⟨rendererEnv_followsModel, ?_, rfl, rfl, rfl⟩
  intro env henv
  refine ⟨?_, ?_, ?_, ?_⟩
  · exact (parseNodePatch_of_model env henv (annotationTemplate "x")
      { ResourceName := "gpu", Capacity := Quantity.int64 1 0,
        DeviceIDFormat := { Prefix := [("a'b", 1)], Delimiter := "", OrdinalStart := 0 } }
      "\nmetadata:\n  annotations:\n    x: '\x7b\"a'b\":1\x7d'\n"
      (annotationTemplate_ne_empty "x") rfl).2 rfl
  · exact (parseNodePatch_of_model env henv (annotationTemplate "x")
      { ResourceName := "gpu", Capacity := Quantity.int64 1 0,
        DeviceIDFormat := { Prefix := [("a\x7fb", 1)], Delimiter := "", OrdinalStart := 0 } }
      "\nmetadata:\n  annotations:\n    x: '\x7b\"a\x7fb\":1\x7d'\n"
      (annotationTemplate_ne_empty "x") rfl).2 rfl
  · exact (parseNodePatch_of_model env henv (annotationTemplate "x")
      { ResourceName := "gpu", Capacity := Quantity.int64 0 0,
        DeviceIDFormat := { Prefix := [], Delimiter := "", OrdinalStart := 0 } }
      "\nmetadata:\n  annotations:\n    x: 'null'\n"
      (annotationTemplate_ne_empty "x") rfl).1 _ rfl
  · exact (parseNodePatch_of_model env henv (annotationTemplate "no")
      { ResourceName := "", Capacity := Quantity.zero,
        DeviceIDFormat :=
          { Prefix := [("dev0", 2), ("dev1", 4)], Delimiter := "", OrdinalStart := 0 } }
      "\nmetadata:\n  annotations:\n    no: '\x7b\"dev0\":2,\"dev1\":4\x7d'\n"
      (annotationTemplate_ne_empty "no") rfl).1 _ rfl

/-- C18, amended: in every environment whose libraries follow the model, for
every annotation key (letters, digits, `-`, `_`, `.`, `/`, starting with a
letter, at most 317 characters, not a boolean or null word of YAML) and every
non-empty prefix map whose keys hold no single quote, no control character
U+007F to U+009F and none of U+FEFF, U+FFFE, U+FFFF, `parseNodePatch` on the
template that sets the annotation to `'{{ toJson .deviceIDFormat.prefix }}'`
succeeds and returns the JSON document `{"metadata":{"annotations":{key: s}}}`,
where `s` is the JSON object encoding of the prefix map, its entries listed with
keys ascending; and for every context and every environment the empty template
gives the empty string without error. -/
theorem parseNodePatch_toJson_template (env : Env) (key : String)
    (jsonContext : ResourceBasicDescription)
    (henv : followsModel env)
    (hkey : annotationKey key.data = true)
    (hne : jsonContext.DeviceIDFormat.Prefix ≠ [])
    (hchars : ∀ e ∈ jsonContext.DeviceIDFormat.Prefix, ∀ c ∈ e.1.data,
      devicePrefixChar c = true) :
    parseNodePatch env (annotationTemplate key) jsonContext
      = Except.ok (String.mk
          (annotationDoc key.data (jsonObject jsonContext.DeviceIDFormat.Prefix))) ∧
    (sortedEntries jsonContext.DeviceIDFormat.Prefix).Perm jsonContext.DeviceIDFormat.Prefix ∧
    List.Sorted (fun a b : String × Int => keyLE a.1.data b.1.data = true)
      (sortedEntries jsonContext.DeviceIDFormat.Prefix) ∧
    (∀ (env₀ : Env) (d : ResourceBasicDescription), parseNodePatch env₀ "" d = Except.ok "") := by
  have hctx : contextPrefix jsonContext = some jsonContext.DeviceIDFormat.Prefix := by
    simp [contextPrefix, hne]
  have hsafe : ∀ c ∈ toJson (contextPrefix jsonContext), scalarSafe c := by
    rw [hctx]
    exact jsonObject_scalarSafe _ hchars
  refine ⟨?_, List.perm_insertionSort _ _, sortedEntries_sorted _, parseNodePatch_empty⟩
  have hrender := renderModel_template key jsonContext (annotationKey_facts key.data hkey).1
    (fun c hc => (scalarChar_facts c (hsafe c hc).2).2.1)
  have hyaml := yamlModel_fragment key.data (toJson (contextPrefix jsonContext)) hkey hsafe
  have h := (parseNodePatch_of_model env henv (annotationTemplate key) jsonContext _
    (annotationTemplate_ne_empty key) hrender).1 _ hyaml
  rw [hctx] at h
  exact h

/-- C18, amended, on the example environment: with the key of the test the prefix
map `{dev0: 2, dev1: 4}`, visited as `dev1, dev0`, gives the annotation value
`{"dev0":2,"dev1":4}`, the document that `test1` of `Test_parseNodePatch`
expects; with the key `x` of the specification's example and a prefix with an
upper-case letter, a space and a double quote the document is the one the
claim describes. -/
theorem parseNodePatch_toJson_template_witness :
    parseNodePatch rendererEnv (annotationTemplate "device-status.volcano.sh/dpmock")
        { ResourceName := "", Capacity := Quantity.zero,
          DeviceIDFormat :=
            { Prefix := [("dev1", 4), ("dev0", 2)], Delimiter := "", OrdinalStart := 0 } }
      = Except.ok
          "\x7b\"metadata\":\x7b\"annotations\":\x7b\"device-status.volcano.sh/dpmock\":\"\x7b\\\"dev0\\\":2,\\\"dev1\\\":4\x7d\"\x7d\x7d\x7d" ∧
    parseNodePatch rendererEnv (annotationTemplate "x")
        { ResourceName := "", Capacity := Quantity.zero,
          DeviceIDFormat :=
            { Prefix := [("Dev \"0\"", 2)], Delimiter := "", OrdinalStart := 0 } }
      = Except.ok
          "\x7b\"metadata\":\x7b\"annotations\":\x7b\"x\":\"\x7b\\\"Dev \\\\\\\"0\\\\\\\"\\\":2\x7d\"\x7d\x7d\x7d" :=
  ⟨(parseNodePatch_toJson_template rendererEnv "device-status.volcano.sh/dpmock"
      { ResourceName := "", Capacity := Quantity.zero,
        DeviceIDFormat :=
          { Prefix := [("dev1", 4), ("dev0", 2)], Delimiter := "", OrdinalStart := 0 } }
      rendererEnv_followsModel (by decide) (by decide) (by decide)).1,
    (parseNodePatch_toJson_template rendererEnv "x"
      { ResourceName := "", Capacity := Quantity.zero,
        DeviceIDFormat :=
          { Prefix := [("Dev \"0\"", 2)], Delimiter := "", OrdinalStart := 0 } }
      rendererEnv_followsModel (by decide) (by decide) (by decide)).1⟩

/-! ## Claim C19: what a cascading entry sees during one pass -/

theorem prefixesFromStatus_of_absent (descs : List ResourceDescription) (resNameRef : String)
    (h : ∀ d ∈ descs, d.ResourceName ≠ resNameRef) :
    prefixesFromStatus descs resNameRef = [] := by
  induction descs with
  | nil => rfl
  | cons d rest ih =>
    have hd : d.ResourceName ≠ resNameRef := h d (List.mem_cons_self _ _)
    simp only [prefixesFromStatus, hd, if_false]
    exact ih (fun x hx => h x (List.mem_cons_of_mem _ hx))

/-- What `getPrefixes` returns for a cascading `NodeResource` once the lookup of
the parent has succeeded and the parent does not cascade. -/
theorem getPrefixes_cascade (env : Env) (nr parent : NodeResource)
    (nrcfg : NodeResourceConfiguration) (policy parentPolicy : DeviceIDGeneratePolicy)
    (pfx parentPfx : PrefixGeneratePolicy) (parentRef : ResourceReference)
    (hpolicy : nr.Spec.DeviceIDGeneratePolicy = some policy) (hpfx : policy.Prefix = some pfx)
    (hstatic : pfx.Static = []) (hparentRef : pfx.ParentResourceRef = some parentRef)
    (hparent : nodeResourceResolver.getResourceRef env (some parentRef) = Outcome.ok parent)
    (hparentPolicy : parent.Spec.DeviceIDGeneratePolicy = some parentPolicy)
    (hparentPfx : parentPolicy.Prefix = some parentPfx)
    (hnocascade : parentPfx.ParentResourceRef = none) :
    nodeResourceResolver.getPrefixes env nr nrcfg
      = Outcome.ok (prefixesFromStatus nrcfg.Status.ResourceDescriptions
          parent.Spec.ResourceName) := by
  unfold nodeResourceResolver.getPrefixes
  simp only [hpolicy, hpfx, hstatic, List.length_nil, gt_iff_lt, lt_self_iff_false, if_false,
    hparentRef, hparent, hparentPolicy, hparentPfx, hnocascade, ne_eq, not_true_eq_false]

theorem reconcileLoop_ok (resolvers : List ResourceResolver) (nrcfg : NodeResourceConfiguration) :
    ∀ (idxs : List Int) (acc l : List ResourceDescription),
      reconcileLoop resolvers nrcfg idxs acc = Outcome.ok l →
      l = acc ++ idxs.filterMap (fun i =>
        match resolve resolvers nrcfg i with
        | Outcome.ok d => some d
        | _ => none) := by
  intro idxs
  induction idxs with
  | nil =>
    intro acc l h
    simp only [reconcileLoop] at h
    cases h
    simp
  | cons i rest ih =>
    intro acc l h
    rw [reconcileLoop] at h
    cases hr : resolve resolvers nrcfg i with
    | panic => simp [hr] at h
    | err e =>
      simp only [hr] at h
      by_cases hu : e.IsUnsupported = true
      · simp only [hu, if_true] at h
        rw [ih acc l h]
        simp [List.filterMap_cons, hr]
      · simp [hu] at h
    | ok d =>
      simp only [hr] at h
      rw [ih _ l h]
      simp [List.filterMap_cons, hr]

theorem mem_resourceIndices (nrcfg : NodeResourceConfiguration) (resIdx : Int)
    (res : ResourceRequirement) (hidx : 0 ≤ resIdx)
    (hres : nrcfg.Spec.Resources[resIdx.toNat]? = some res) :
    resIdx ∈ resourceIndices nrcfg := by
  have hlt : resIdx.toNat < nrcfg.Spec.Resources.length := by
    rcases List.getElem?_eq_some_iff.mp hres with ⟨h, _⟩
    exact h
  unfold resourceIndices
  refine List.mem_map.mpr ⟨resIdx.toNat, List.mem_range.mpr hlt, ?_⟩
  omega

/-- C19, as stated, fails: in the configuration with the parent entry
`example.com/gpu` (capacity 2) at index 0, the child entry referencing `vgpu`
(which cascades to `gpu`) at index 1 and an empty stored status, one pass
resolves the parent to the identifiers `dev0`, `dev1` and the child to an empty
prefix map: the child is resolved against the stored status, which the loop
does not touch.  Only a pass that starts from the stored result of the first
gives the child the prefixes `dev0`, `dev1`. -/
theorem reconcile_child_misses_fresh_parent :
    Reconcile (NewNodeResourceConfigurationReconciler exampleEnv)
        (fun stored fresh => decide (stored = fresh)) (fun _ => none)
        (exampleConfig
          [exampleEntry "example.com/gpu" none (some (Quantity.int64 2 0)),
           exampleEntry "" (some (configMapRef "vgpu")) none] [])
      = Outcome.ok
          (exampleConfig
            [exampleEntry "example.com/gpu" none (some (Quantity.int64 2 0)),
             exampleEntry "" (some (configMapRef "vgpu")) none]
            [{ ResourceName := "example.com/gpu", Capacity := Quantity.int64 2 0,
               DeviceIDFormat := { Prefix := [("dev", 2)], Delimiter := "", OrdinalStart := 0 },
               NodePatch := "", NodeUndoPatch := "" },
             { ResourceName := "example.com/vgpu", Capacity := Quantity.int64 0 0,
               DeviceIDFormat := { Prefix := [], Delimiter := "-", OrdinalStart := 0 },
               NodePatch := "", NodeUndoPatch := "" }]) ∧
    BuildDeviceID { Prefix := [("dev", 2)], Delimiter := "", OrdinalStart := 0 }
      = ["dev0", "dev1"] ∧
    Reconcile (NewNodeResourceConfigurationReconciler exampleEnv)
        (fun stored fresh => decide (stored = fresh)) (fun _ => none)
        (exampleConfig
          [exampleEntry "example.com/gpu" none (some (Quantity.int64 2 0)),
           exampleEntry "" (some (configMapRef "vgpu")) none]
          [{ ResourceName := "example.com/gpu", Capacity := Quantity.int64 2 0,
             DeviceIDFormat := { Prefix := [("dev", 2)], Delimiter := "", OrdinalStart := 0 },
             NodePatch := "", NodeUndoPatch := "" },
           { ResourceName := "example.com/vgpu", Capacity := Quantity.int64 0 0,
             DeviceIDFormat := { Prefix := [], Delimiter := "-", OrdinalStart := 0 },
             NodePatch := "", NodeUndoPatch := "" }])
      = Outcome.ok
          (exampleConfig
            [exampleEntry "example.com/gpu" none (some (Quantity.int64 2 0)),
             exampleEntry "" (some (configMapRef "vgpu")) none]
            [{ ResourceName := "example.com/gpu", Capacity := Quantity.int64 2 0,
               DeviceIDFormat := { Prefix := [("dev", 2)], Delimiter := "", OrdinalStart := 0 },
               NodePatch := "", NodeUndoPatch := "" },
             { ResourceName := "example.com/vgpu", Capacity := Quantity.int64 4 0,
               DeviceIDFormat :=
                 { Prefix := [("dev0", 2), ("dev1", 2)], Delimiter := "-", OrdinalStart := 0 },
               NodePatch := "", NodeUndoPatch := "" }]) := by
  decide

/-- C19, amended: during one pass every entry is resolved against the
configuration as it was stored before the pass.  For an in-range entry without
inline name whose reference is looked up to a `NodeResource` that cascades to a
looked-up, non-cascading parent, when the stored status holds no description
of the parent's resource name: `getPrefixes` returns the empty list, every
description the chain resolves for the entry has an empty prefix map, whatever
entries stand before it, and that description is the one the pass puts into its
result. -/
theorem reconcile_child_sees_stored_status (env : Env) (nrcfg : NodeResourceConfiguration)
    (resIdx : Int) (res : ResourceRequirement) (nr parent : NodeResource)
    (policy parentPolicy : DeviceIDGeneratePolicy) (pfx parentPfx : PrefixGeneratePolicy)
    (parentRef : ResourceReference)
    (hidx : 0 ≤ resIdx) (hres : nrcfg.Spec.Resources[resIdx.toNat]? = some res)
    (hname : res.ResourceName = "")
    (hlookup : nodeResourceResolver.getResourceRef env res.ResourceRef = Outcome.ok nr)
    (hpolicy : nr.Spec.DeviceIDGeneratePolicy = some policy) (hpfx : policy.Prefix = some pfx)
    (hstatic : pfx.Static = []) (hparentRef : pfx.ParentResourceRef = some parentRef)
    (hparent : nodeResourceResolver.getResourceRef env (some parentRef) = Outcome.ok parent)
    (hparentPolicy : parent.Spec.DeviceIDGeneratePolicy = some parentPolicy)
    (hparentPfx : parentPolicy.Prefix = some parentPfx)
    (hnocascade : parentPfx.ParentResourceRef = none)
    (hstored : ∀ d ∈ nrcfg.Status.ResourceDescriptions,
      d.ResourceName ≠ parent.Spec.ResourceName) :
    nodeResourceResolver.getPrefixes env nr nrcfg = Outcome.ok [] ∧
    (∀ d, resolve (NewNodeResourceConfigurationReconciler env) nrcfg resIdx = Outcome.ok d →
      d.DeviceIDFormat.Prefix = [] ∧
      ∀ l, reconcileLoop (NewNodeResourceConfigurationReconciler env) nrcfg
          (resourceIndices nrcfg) [] = Outcome.ok l → d ∈ l) := by
  obtain ⟨hrange, hat⟩ := resourceAt_of_getElem nrcfg resIdx res hidx hres
  have hp : nodeResourceResolver.getPrefixes env nr nrcfg = Outcome.ok [] := by
    rw [getPrefixes_cascade env nr parent nrcfg policy parentPolicy pfx parentPfx parentRef
      hpolicy hpfx hstatic hparentRef hparent hparentPolicy hparentPfx hnocascade,
      prefixesFromStatus_of_absent _ _ hstored]
  refine ⟨hp, ?_⟩
  intro d hd
  have hn : nameResolver.Resolve env nrcfg resIdx = Outcome.err Err.unsupported := by
    unfold nameResolver.Resolve
    rw [if_neg hrange]
    simp only [hat, hname, if_true]
  have h2 : nodeResourceResolver.Resolve env nrcfg resIdx = Outcome.ok d := by
    unfold NewNodeResourceConfigurationReconciler at hd
    rw [resolve_cons] at hd
    simp only [hn, Err.IsUnsupported, if_true] at hd
    rw [resolve_cons] at hd
    cases hr : nodeResourceResolver.Resolve env nrcfg resIdx with
    | panic => simp [hr] at hd
    | err e =>
      simp only [hr] at hd
      by_cases hu : e.IsUnsupported = true
      · simp only [hu, if_true] at hd
        rw [resolve] at hd
        cases hd
      · simp [hu] at hd
    | ok d2 =>
      simp only [hr] at hd
      exact hd
  constructor
  · obtain ⟨nr2, prefixes, capInt, policy2, h3, h4, _, _, h7, _⟩ :=
      nodeResourceResolver_Resolve_ok env nrcfg resIdx res d hidx hres h2
    rw [hlookup] at h3
    cases h3
    rw [hp] at h4
    cases h4
    have := congrArg (fun b => b.DeviceIDFormat.Prefix) h7
    simpa [buildPrefixMap] using this
  · intro l hl
    rw [reconcileLoop_ok _ _ _ _ _ hl]
    simp only [List.nil_append, List.mem_filterMap]
    exact ⟨resIdx, mem_resourceIndices nrcfg resIdx res hidx hres, by simp [hd]⟩

/-- C19, amended, on the configuration of the counterexample. -/
theorem reconcile_child_sees_stored_status_witness :
    nodeResourceResolver.getPrefixes exampleEnv exampleVgpu
      (exampleConfig
        [exampleEntry "example.com/gpu" none (some (Quantity.int64 2 0)),
         exampleEntry "" (some (configMapRef "vgpu")) none] []) = Outcome.ok [] :=
  (reconcile_child_sees_stored_status exampleEnv
    (exampleConfig
      [exampleEntry "example.com/gpu" none (some (Quantity.int64 2 0)),
       exampleEntry "" (some (configMapRef "vgpu")) none] []) 1
    (exampleEntry "" (some (configMapRef "vgpu")) none) exampleVgpu exampleGpu
    { Prefix := some { Static := [], ParentResourceRef := some gpuConfigMapRef },
      Delimiter := "-", OrdinalStart := 0 }
    { Prefix := some { Static := ["a", "b"], ParentResourceRef := none },
      Delimiter := "-", OrdinalStart := 0 }
    { Static := [], ParentResourceRef := some gpuConfigMapRef }
    { Static := ["a", "b"], ParentResourceRef := none }
    gpuConfigMapRef (by decide) rfl rfl (by decide) rfl rfl rfl rfl (by decide) rfl rfl rfl
    (by decide)).1

/-! ## Claim C20: `applyConfig` -/

theorem lookup_append {α : Type} (m₁ m₂ : List (String × α)) (n : String) :
    (m₁ ++ m₂).lookup n = match m₁.lookup n with
      | some v => some v
      | none => m₂.lookup n := by
  induction m₁ with
  | nil => rfl
  | cons e rest ih =>
    obtain ⟨a, b⟩ := e
    simp only [List.cons_append, List.lookup]
    cases h : (n == a) with
    | true => rfl
    | false => simpa using ih

theorem lookup_map_put {α : Type} (m : List (String × α)) (k n : String) (v : α) :
    (m.map (fun e => (e.1, if e.1 = k then v else e.2))).lookup n
      = if n = k then (m.lookup k).map (fun _ => v) else m.lookup n := by
  induction m with
  | nil => simp [List.lookup]
  | cons e rest ih =>
    obtain ⟨a, b⟩ := e
    simp only [List.map_cons, List.lookup]
    by_cases hna : n = a
    · subst hna
      by_cases hnk : n = k
      · subst hnk
        simp
      · simp [hnk]
    · have h1 : (n == a) = false := by simpa using hna
      simp only [h1, ih]
      by_cases hnk : n = k
      · subst hnk
        have h2 : (n == a) = false := h1
        simp [h2]
      · simp [hnk]

theorem lookup_mapPut {α : Type} (m : List (String × α)) (k n : String) (v : α) :
    (mapPut m k v).lookup n = if n = k then some v else m.lookup n := by
  unfold mapPut
  cases h : m.lookup k with
  | some w =>
    simp only [Option.isSome_some, if_true, lookup_map_put, h, Option.map_some']
  | none =>
    simp only [Option.isSome_none, Bool.false_eq_true, if_false, lookup_append]
    by_cases hn : n = k
    · subst hn
      simp [h, List.lookup]
    · have h1 : (n == k) = false := by simpa using hn
      simp only [hn, if_false, List.lookup, h1]
      cases m.lookup n <;> rfl

theorem lookup_isSome_iff_mem_keys {α : Type} (m : List (String × α)) (k : String) :
    (m.lookup k).isSome = true ↔ k ∈ m.map Prod.fst := by
  induction m with
  | nil => simp [List.lookup]
  | cons e rest ih =>
    obtain ⟨a, b⟩ := e
    by_cases h : k = a
    · subst h
      simp [List.lookup]
    · have h1 : (k == a) = false := by simpa using h
      simp only [List.lookup, h1, ih, List.map_cons, List.mem_cons, h, false_or]

theorem mem_of_lookup_eq_some {α : Type} (m : List (String × α)) (k : String) (v : α)
    (h : m.lookup k = some v) : (k, v) ∈ m := by
  induction m with
  | nil => simp [List.lookup] at h
  | cons e rest ih =>
    obtain ⟨a, b⟩ := e
    by_cases hk : k = a
    · subst hk
      simp only [List.lookup, beq_self_eq_true, Option.some.injEq] at h
      subst h
      exact List.mem_cons_self _ _
    · have h1 : (k == a) = false := by simpa using hk
      simp only [List.lookup, h1] at h
      exact List.mem_cons_of_mem _ (ih h)

theorem keys_mapPut_nodup {α : Type} (m : List (String × α)) (k : String) (v : α)
    (h : (m.map Prod.fst).Nodup) : ((mapPut m k v).map Prod.fst).Nodup := by
  unfold mapPut
  cases hl : (m.lookup k).isSome with
  | true =>
    simp only [if_true]
    have : (m.map (fun e => (e.1, if e.1 = k then v else e.2))).map Prod.fst
        = m.map Prod.fst := by
      rw [List.map_map]
      apply List.map_congr_left
      intro e _
      rfl
    rw [this]
    exact h
  | false =>
    simp only [Bool.false_eq_true, if_false, List.map_append, List.map_cons, List.map_nil]
    have hk : k ∉ m.map Prod.fst := by
      intro hmem
      have := (lookup_isSome_iff_mem_keys m k).mpr hmem
      rw [hl] at this
      cases this
    exact List.Nodup.append h (List.nodup_singleton k)
      (by
        intro x hx hx2
        rw [List.mem_singleton] at hx2
        subst hx2
        exact hk hx)

theorem foldl_desired (name : String) :
    ∀ (descs : List ResourceDescription) (m : List (String × ResourceDescription)),
      (descs.foldl (fun m desc => mapPut m desc.ResourceName desc) m).lookup name
        = descs.foldl (fun acc desc => if desc.ResourceName = name then some desc else acc)
            (m.lookup name) := by
  intro descs
  induction descs with
  | nil => intro m; rfl
  | cons d rest ih =>
    intro m
    simp only [List.foldl_cons]
    rw [ih, lookup_mapPut]
    by_cases h : d.ResourceName = name
    · simp [h]
    · have h2 : ¬ name = d.ResourceName := fun h3 => h h3.symm
      simp [h, h2]

theorem lookup_buildResDescMap (descs : List ResourceDescription) (name : String) :
    (buildResDescMap descs).lookup name = desiredDesc descs name := by
  unfold buildResDescMap desiredDesc
  rw [foldl_desired]
  rfl

theorem foldl_desired_some (name : String) :
    ∀ (descs : List ResourceDescription) (acc : Option ResourceDescription)
      (d : ResourceDescription),
      descs.foldl (fun acc desc => if desc.ResourceName = name then some desc else acc) acc
        = some d → (d ∈ descs ∧ d.ResourceName = name) ∨ acc = some d := by
  intro descs
  induction descs with
  | nil => intro acc d h; right; exact h
  | cons x rest ih =>
    intro acc d h
    simp only [List.foldl_cons] at h
    rcases ih _ d h with ⟨h1, h2⟩ | h1
    · left; exact ⟨List.mem_cons_of_mem _ h1, h2⟩
    · by_cases hx : x.ResourceName = name
      · simp only [hx, if_true, Option.some.injEq] at h1
        subst h1
        left; exact ⟨List.mem_cons_self _ _, hx⟩
      · simp only [hx, if_false] at h1
        right; exact h1

theorem foldl_desired_isSome (name : String) :
    ∀ (descs : List ResourceDescription) (acc : Option ResourceDescription),
      ((∃ d ∈ descs, d.ResourceName = name) ∨ acc.isSome = true) →
      (descs.foldl (fun acc desc => if desc.ResourceName = name then some desc else acc)
        acc).isSome = true := by
  intro descs
  induction descs with
  | nil =>
    intro acc h
    rcases h with ⟨d, hd, _⟩ | h
    · cases hd
    · exact h
  | cons x rest ih =>
    intro acc h
    simp only [List.foldl_cons]
    apply ih
    rcases h with ⟨d, hd, hn⟩ | h
    · rcases List.mem_cons.mp hd with rfl | hd
      · right; simp [hn]
      · left; exact ⟨d, hd, hn⟩
    · right
      by_cases hx : x.ResourceName = name
      · simp [hx]
      · simp [hx, h]

theorem desiredDesc_isSome_iff (descs : List ResourceDescription) (name : String) :
    (desiredDesc descs name).isSome = true ↔ ∃ d ∈ descs, d.ResourceName = name := by
  constructor
  · intro h
    obtain ⟨d, hd⟩ := Option.isSome_iff_exists.mp h
    rcases foldl_desired_some name descs none d hd with ⟨h1, h2⟩ | h1
    · exact ⟨d, h1, h2⟩
    · cases h1
  · intro h
    exact foldl_desired_isSome name descs none (Or.inl h)

theorem lookup_cleanUp (resDescMap : List (String × ResourceDescription)) (name : String) :
    ∀ managers : List (String × resourceManagerWithCancel),
      (cleanUp resDescMap managers).1.lookup name
        = if (resDescMap.lookup name).isSome then managers.lookup name else none := by
  intro managers
  induction managers with
  | nil => simp [cleanUp, List.lookup]
  | cons e rest ih =>
    obtain ⟨a, m⟩ := e
    by_cases ha : (resDescMap.lookup a).isSome = true
    · simp only [cleanUp, ha, if_true, List.lookup]
      by_cases hna : name = a
      · subst hna
        simp [ha]
      · have h1 : (name == a) = false := by simpa using hna
        simp only [h1, ih]
    · simp only [cleanUp, ha, Bool.false_eq_true, if_false, List.lookup, ih]
      by_cases hna : name = a
      · subst hna
        simp [ha]
      · have h1 : (name == a) = false := by simpa using hna
        simp only [h1]

theorem effects_cleanUp (resDescMap : List (String × ResourceDescription)) (e : Effect) :
    ∀ managers : List (String × resourceManagerWithCancel),
      e ∈ (cleanUp resDescMap managers).2 ↔
        ∃ name m, (name, m) ∈ managers ∧ (resDescMap.lookup name).isSome = false ∧
          e = Effect.Cancel name m.id := by
  intro managers
  induction managers with
  | nil => simp [cleanUp]
  | cons x rest ih =>
    obtain ⟨a, m⟩ := x
    by_cases ha : (resDescMap.lookup a).isSome = true
    · simp only [cleanUp, ha, if_true, ih, List.mem_cons]
      constructor
      · rintro ⟨name, m', h1, h2, h3⟩
        exact ⟨name, m', Or.inr h1, h2, h3⟩
      · rintro ⟨name, m', h1 | h1, h2, h3⟩
        · cases h1
          rw [ha] at h2
          cases h2
        · exact ⟨name, m', h1, h2, h3⟩
    · simp only [cleanUp, ha, Bool.false_eq_true, if_false, List.mem_cons, ih]
      constructor
      · rintro (h | ⟨name, m', h1, h2, h3⟩)
        · exact ⟨a, m, Or.inl rfl, Bool.eq_false_iff.mpr ha, h⟩
        · exact ⟨name, m', Or.inr h1, h2, h3⟩
      · rintro ⟨name, m', h1 | h1, h2, h3⟩
        · cases h1
          left; exact h3
        · right; exact ⟨name, m', h1, h2, h3⟩

theorem keys_cleanUp_sublist (resDescMap : List (String × ResourceDescription)) :
    ∀ managers : List (String × resourceManagerWithCancel),
      ((cleanUp resDescMap managers).1.map Prod.fst).Sublist (managers.map Prod.fst) := by
  intro managers
  induction managers with
  | nil => simp [cleanUp]
  | cons x rest ih =>
    obtain ⟨a, m⟩ := x
    by_cases ha : (resDescMap.lookup a).isSome = true
    · simp only [cleanUp, ha, if_true, List.map_cons]
      exact List.Sublist.cons₂ _ ih
    · simp only [cleanUp, ha, Bool.false_eq_true, if_false, List.map_cons]
      exact List.Sublist.cons _ ih

theorem applyDesc_tracked (DeepEqual : ResourceDescription → ResourceDescription → Bool)
    (c : Controller) (k : String) (desc : ResourceDescription) (m : resourceManagerWithCancel)
    (h : c.managers.lookup k = some m) :
    applyDesc DeepEqual c k desc =
      ({ managers := mapPut c.managers k
          { id := m.id, ResourceManager := m.ResourceManager.Update DeepEqual desc },
         nextID := c.nextID },
        [Effect.Update k m.id desc]) := by
  simp only [applyDesc, h]

theorem applyDesc_new (DeepEqual : ResourceDescription → ResourceDescription → Bool)
    (c : Controller) (k : String) (desc : ResourceDescription)
    (h : c.managers.lookup k = none) :
    applyDesc DeepEqual c k desc =
      ({ managers := c.managers ++
          [(k, { id := c.nextID,
                 ResourceManager := (resmanager.New k).Update DeepEqual desc })],
         nextID := c.nextID + 1 },
        [Effect.New k c.nextID, Effect.Update k c.nextID desc]) := by
  simp only [applyDesc, h]

theorem applyDesc_lookup_ne (DeepEqual : ResourceDescription → ResourceDescription → Bool)
    (c : Controller) (k n : String) (desc : ResourceDescription) (hn : n ≠ k) :
    (applyDesc DeepEqual c k desc).1.managers.lookup n = c.managers.lookup n := by
  cases h : c.managers.lookup k with
  | some m =>
    rw [applyDesc_tracked DeepEqual c k desc m h]
    simp only [lookup_mapPut, hn, if_false]
  | none =>
    rw [applyDesc_new DeepEqual c k desc h]
    have h1 : (n == k) = false := by simpa using hn
    simp only [lookup_append, List.lookup, h1]
    cases c.managers.lookup n <;> rfl

theorem applyDesc_nextID (DeepEqual : ResourceDescription → ResourceDescription → Bool)
    (c : Controller) (k : String) (desc : ResourceDescription) :
    c.nextID ≤ (applyDesc DeepEqual c k desc).1.nextID := by
  cases h : c.managers.lookup k with
  | some m => rw [applyDesc_tracked DeepEqual c k desc m h]
  | none =>
    rw [applyDesc_new DeepEqual c k desc h]
    exact Nat.le_succ _

theorem applyDesc_nodup (DeepEqual : ResourceDescription → ResourceDescription → Bool)
    (c : Controller) (k : String) (desc : ResourceDescription)
    (hk : (c.managers.map Prod.fst).Nodup) :
    ((applyDesc DeepEqual c k desc).1.managers.map Prod.fst).Nodup := by
  cases h : c.managers.lookup k with
  | some m =>
    rw [applyDesc_tracked DeepEqual c k desc m h]
    exact keys_mapPut_nodup _ _ _ hk
  | none =>
    rw [applyDesc_new DeepEqual c k desc h]
    have := keys_mapPut_nodup c.managers k
      ({ id := c.nextID, ResourceManager := (resmanager.New k).Update DeepEqual desc } :
        resourceManagerWithCancel) hk
    simpa [mapPut, h] using this

theorem lookup_eq_none_of_not_mem_keys {α : Type} (m : List (String × α)) (k : String)
    (h : k ∉ m.map Prod.fst) : m.lookup k = none := by
  cases hl : m.lookup k with
  | none => rfl
  | some v =>
    exfalso
    apply h
    apply (lookup_isSome_iff_mem_keys m k).mp
    rw [hl]; rfl

theorem applyDescs_spec (DeepEqual : ResourceDescription → ResourceDescription → Bool) :
    ∀ (order : List (String × ResourceDescription)) (c : Controller),
      (order.map Prod.fst).Nodup →
      c.nextID ≤ (applyDescs DeepEqual c order).1.nextID ∧
      (∀ n, order.lookup n = none →
        (applyDescs DeepEqual c order).1.managers.lookup n = c.managers.lookup n) ∧
      (∀ n desc m, order.lookup n = some desc → c.managers.lookup n = some m →
        (applyDescs DeepEqual c order).1.managers.lookup n
          = some { id := m.id, ResourceManager := m.ResourceManager.Update DeepEqual desc } ∧
        Effect.Update n m.id desc ∈ (applyDescs DeepEqual c order).2) ∧
      (∀ n desc, order.lookup n = some desc → c.managers.lookup n = none →
        ∃ id, c.nextID ≤ id ∧
          (applyDescs DeepEqual c order).1.managers.lookup n
            = some { id := id,
                     ResourceManager := (resmanager.New n).Update DeepEqual desc } ∧
          Effect.New n id ∈ (applyDescs DeepEqual c order).2 ∧
          Effect.Update n id desc ∈ (applyDescs DeepEqual c order).2) ∧
      (∀ n id, Effect.New n id ∈ (applyDescs DeepEqual c order).2 →
        c.managers.lookup n = none) ∧
      (∀ n id, Effect.Cancel n id ∉ (applyDescs DeepEqual c order).2) ∧
      ((c.managers.map Prod.fst).Nodup →
        ((applyDescs DeepEqual c order).1.managers.map Prod.fst).Nodup) := by
  intro order
  induction order with
  | nil =>
    intro c _
    refine ⟨Nat.le_refl _, fun n _ => rfl, ?_, ?_, ?_, ?_, fun h => h⟩
    · intro n desc m h; simp [List.lookup] at h
    · intro n desc h; simp [List.lookup] at h
    · intro n id h; simp [applyDescs] at h
    · intro n id h; simp [applyDescs] at h
  | cons e rest ih =>
    obtain ⟨k, kdesc⟩ := e
    intro c hnodup
    have hk : k ∉ rest.map Prod.fst := (List.nodup_cons.mp hnodup).1
    have hrest : (rest.map Prod.fst).Nodup := (List.nodup_cons.mp hnodup).2
    have hrestk : rest.lookup k = none := lookup_eq_none_of_not_mem_keys rest k hk
    obtain ⟨i1, i2, i3, i4, i5, i6, i7⟩ := ih (applyDesc DeepEqual c k kdesc).1 hrest
    have hid := applyDesc_nextID DeepEqual c k kdesc
    simp only [applyDescs]
    refine ⟨Nat.le_trans hid i1, ?_, ?_, ?_, ?_, ?_, ?_⟩
    · intro n hn
      have hne : n ≠ k := by
        intro h; subst h; simp [List.lookup] at hn
      have h1 : (n == k) = false := by simpa using hne
      simp only [List.lookup, h1] at hn
      rw [i2 n hn, applyDesc_lookup_ne DeepEqual c k n kdesc hne]
    · intro n desc m hn hm
      by_cases hne : n = k
      · subst hne
        simp only [List.lookup, beq_self_eq_true, Option.some.injEq] at hn
        subst hn
        rw [i2 n hrestk, applyDesc_tracked DeepEqual c n kdesc m hm]
        simp only [lookup_mapPut, if_true, List.mem_append, List.mem_singleton, true_or, and_self]
      · have h1 : (n == k) = false := by simpa using hne
        simp only [List.lookup, h1] at hn
        have hm2 : (applyDesc DeepEqual c k kdesc).1.managers.lookup n = some m := by
          rw [applyDesc_lookup_ne DeepEqual c k n kdesc hne]; exact hm
        obtain ⟨h3, h4⟩ := i3 n desc m hn hm2
        exact ⟨h3, List.mem_append.mpr (Or.inr h4)⟩
    · intro n desc hn hm
      by_cases hne : n = k
      · subst hne
        simp only [List.lookup, beq_self_eq_true, Option.some.injEq] at hn
        subst hn
        refine ⟨c.nextID, Nat.le_refl _, ?_, ?_, ?_⟩
        · rw [i2 n hrestk, applyDesc_new DeepEqual c n kdesc hm]
          simp [lookup_append, hm, List.lookup]
        · rw [applyDesc_new DeepEqual c n kdesc hm]
          simp
        · rw [applyDesc_new DeepEqual c n kdesc hm]
          simp
      · have h1 : (n == k) = false := by simpa using hne
        simp only [List.lookup, h1] at hn
        have hm2 : (applyDesc DeepEqual c k kdesc).1.managers.lookup n = none := by
          rw [applyDesc_lookup_ne DeepEqual c k n kdesc hne]; exact hm
        obtain ⟨id, h3, h4, h5, h6⟩ := i4 n desc hn hm2
        exact ⟨id, Nat.le_trans hid h3, h4, List.mem_append.mpr (Or.inr h5),
          List.mem_append.mpr (Or.inr h6)⟩
    · intro n id h
      rcases List.mem_append.mp h with h | h
      · cases hl : c.managers.lookup k with
        | some m =>
          rw [applyDesc_tracked DeepEqual c k kdesc m hl] at h
          simp at h
        | none =>
          rw [applyDesc_new DeepEqual c k kdesc hl] at h
          simp only [List.mem_cons, Effect.New.injEq, List.mem_singleton, reduceCtorEq,
            or_false, List.not_mem_nil] at h
          rw [h.1]; exact hl
      · have h2 := i5 n id h
        by_cases hne : n = k
        · subst hne
          cases hl : c.managers.lookup n with
          | some m =>
            rw [applyDesc_tracked DeepEqual c n kdesc m hl] at h2
            simp [lookup_mapPut] at h2
          | none => rfl
        · rw [applyDesc_lookup_ne DeepEqual c k n kdesc hne] at h2
          exact h2
    · intro n id h
      rcases List.mem_append.mp h with h | h
      · cases hl : c.managers.lookup k with
        | some m =>
          rw [applyDesc_tracked DeepEqual c k kdesc m hl] at h
          simp at h
        | none =>
          rw [applyDesc_new DeepEqual c k kdesc hl] at h
          simp at h
      · exact i6 n id h
    · intro hc
      exact i7 (applyDesc_nodup DeepEqual c k kdesc hc)

/-- C20: after `applyConfig` with the descriptions of the status as desired list
(the managers map having distinct keys and manager ids below `nextID`, the
second loop visiting `resDescMap` in any order): a name is a key of the map if
and only if it is the resource name of a desired description, and the keys stay
distinct; a manager tracked before whose name is not desired has been cancelled
and is no longer in the map; a desired name not tracked before has a manager
with a new id, created in this call; a manager tracked before whose name is
desired is still the one in the map, neither cancelled nor created again; and
every manager in the map has received `Update` with the description that
`resDescMap` holds for its name, the last one of that name in the list. -/
theorem applyConfig_reconciles (DeepEqual : ResourceDescription → ResourceDescription → Bool)
    (c : Controller) (nrcfg : NodeResourceConfiguration)
    (order : List (String × ResourceDescription))
    (hkeys : (c.managers.map Prod.fst).Nodup)
    (hfresh : ∀ e ∈ c.managers, e.2.id < c.nextID)
    (horder : VisitingOrder order (buildResDescMap nrcfg.Status.ResourceDescriptions)) :
    (∀ name, ((c.applyConfig DeepEqual nrcfg order).1.managers.lookup name).isSome = true ↔
      ∃ d ∈ nrcfg.Status.ResourceDescriptions, d.ResourceName = name) ∧
    ((c.applyConfig DeepEqual nrcfg order).1.managers.map Prod.fst).Nodup ∧
    (∀ name m, c.managers.lookup name = some m →
      (¬ ∃ d ∈ nrcfg.Status.ResourceDescriptions, d.ResourceName = name) →
      Effect.Cancel name m.id ∈ (c.applyConfig DeepEqual nrcfg order).2 ∧
      (c.applyConfig DeepEqual nrcfg order).1.managers.lookup name = none) ∧
    (∀ name, (∃ d ∈ nrcfg.Status.ResourceDescriptions, d.ResourceName = name) →
      c.managers.lookup name = none →
      ∃ id desc, desiredDesc nrcfg.Status.ResourceDescriptions name = some desc ∧
        (∀ e ∈ c.managers, e.2.id ≠ id) ∧
        (c.applyConfig DeepEqual nrcfg order).1.managers.lookup name
          = some { id := id,
                   ResourceManager := (resmanager.New name).Update DeepEqual desc } ∧
        Effect.New name id ∈ (c.applyConfig DeepEqual nrcfg order).2 ∧
        Effect.Update name id desc ∈ (c.applyConfig DeepEqual nrcfg order).2) ∧
    (∀ name m, c.managers.lookup name = some m →
      (∃ d ∈ nrcfg.Status.ResourceDescriptions, d.ResourceName = name) →
      ∃ desc, desiredDesc nrcfg.Status.ResourceDescriptions name = some desc ∧
        (c.applyConfig DeepEqual nrcfg order).1.managers.lookup name
          = some { id := m.id, ResourceManager := m.ResourceManager.Update DeepEqual desc } ∧
        Effect.Update name m.id desc ∈ (c.applyConfig DeepEqual nrcfg order).2 ∧
        (∀ id, Effect.New name id ∉ (c.applyConfig DeepEqual nrcfg order).2) ∧
        (∀ id, Effect.Cancel name id ∉ (c.applyConfig DeepEqual nrcfg order).2)) ∧
    (∀ name m, (c.applyConfig DeepEqual nrcfg order).1.managers.lookup name = some m →
      ∃ desc, desiredDesc nrcfg.Status.ResourceDescriptions name = some desc ∧
        Effect.Update name m.id desc ∈ (c.applyConfig DeepEqual nrcfg order).2) := by
  obtain ⟨hnodup, hlook⟩ := horder
  have hdes : ∀ n, order.lookup n = desiredDesc nrcfg.Status.ResourceDescriptions n := by
    intro n; rw [hlook n, lookup_buildResDescMap]
  have hkept : ∀ n, (cleanUp (buildResDescMap nrcfg.Status.ResourceDescriptions)
      c.managers).1.lookup n
      = if (desiredDesc nrcfg.Status.ResourceDescriptions n).isSome then c.managers.lookup n
        else none := by
    intro n; rw [lookup_cleanUp, lookup_buildResDescMap]
  obtain ⟨_, s2, s3, s4, s5, s6, s7⟩ := applyDescs_spec DeepEqual order
    { c with managers :=
        (cleanUp (buildResDescMap nrcfg.Status.ResourceDescriptions) c.managers).1 } hnodup
  simp only [hkept, hdes] at s2 s3 s4 s5
  have hwanted : ∀ name, (∃ d ∈ nrcfg.Status.ResourceDescriptions, d.ResourceName = name) →
      ∃ desc, desiredDesc nrcfg.Status.ResourceDescriptions name = some desc := by
    intro name h
    exact Option.isSome_iff_exists.mp ((desiredDesc_isSome_iff _ name).mpr h)
  have hunwanted : ∀ name, (¬ ∃ d ∈ nrcfg.Status.ResourceDescriptions, d.ResourceName = name) →
      desiredDesc nrcfg.Status.ResourceDescriptions name = none := by
    intro name h
    cases hd : desiredDesc nrcfg.Status.ResourceDescriptions name with
    | none => rfl
    | some d =>
      exfalso
      apply h
      apply (desiredDesc_isSome_iff _ name).mp
      rw [hd]; rfl
  have hcreated : ∀ name desc, desiredDesc nrcfg.Status.ResourceDescriptions name = some desc →
      c.managers.lookup name = none →
      ∃ id, c.nextID ≤ id ∧
        (c.applyConfig DeepEqual nrcfg order).1.managers.lookup name
          = some { id := id,
                   ResourceManager := (resmanager.New name).Update DeepEqual desc } ∧
        Effect.New name id ∈ (c.applyConfig DeepEqual nrcfg order).2 ∧
        Effect.Update name id desc ∈ (c.applyConfig DeepEqual nrcfg order).2 := by
    intro name desc hd hm
    obtain ⟨id, h1, h2, h3, h4⟩ := s4 name desc hd (by simp [hd, hm])
    exact ⟨id, h1, h2, List.mem_append.mpr (Or.inr h3), List.mem_append.mpr (Or.inr h4)⟩
  have hkeptm : ∀ name desc m, desiredDesc nrcfg.Status.ResourceDescriptions name = some desc →
      c.managers.lookup name = some m →
      (c.applyConfig DeepEqual nrcfg order).1.managers.lookup name
        = some { id := m.id, ResourceManager := m.ResourceManager.Update DeepEqual desc } ∧
      Effect.Update name m.id desc ∈ (c.applyConfig DeepEqual nrcfg order).2 := by
    intro name desc m hd hm
    obtain ⟨h1, h2⟩ := s3 name desc m hd (by simp [hd, hm])
    exact ⟨h1, List.mem_append.mpr (Or.inr h2)⟩
  refine ⟨?_, ?_, ?_, ?_, ?_, ?_⟩
  · intro name
    constructor
    · intro h
      by_contra hno
      have hd := hunwanted name hno
      have := s2 name hd
      simp only [hd, Option.isSome_none, Bool.false_eq_true, if_false] at this
      unfold Controller.applyConfig at h
      rw [this] at h
      cases h
    · intro h
      obtain ⟨desc, hd⟩ := hwanted name h
      cases hm : c.managers.lookup name with
      | none =>
        obtain ⟨id, _, h2, _, _⟩ := hcreated name desc hd hm
        rw [h2]; rfl
      | some m =>
        obtain ⟨h1, _⟩ := hkeptm name desc m hd hm
        rw [h1]; rfl
  · exact s7 (List.Nodup.sublist (keys_cleanUp_sublist _ _) hkeys)
  · intro name m hm hno
    have hd := hunwanted name hno
    constructor
    · apply List.mem_append.mpr
      left
      apply (effects_cleanUp _ _ _).mpr
      refine ⟨name, m, mem_of_lookup_eq_some _ _ _ hm, ?_, rfl⟩
      rw [lookup_buildResDescMap, hd]; rfl
    · have := s2 name hd
      simp only [hd, Option.isSome_none, Bool.false_eq_true, if_false] at this
      exact this
  · intro name h hm
    obtain ⟨desc, hd⟩ := hwanted name h
    obtain ⟨id, h1, h2, h3, h4⟩ := hcreated name desc hd hm
    refine ⟨id, desc, hd, ?_, h2, h3, h4⟩
    intro e he heq
    have := hfresh e he
    omega
  · intro name m hm h
    obtain ⟨desc, hd⟩ := hwanted name h
    obtain ⟨h1, h2⟩ := hkeptm name desc m hd hm
    refine ⟨desc, hd, h1, h2, ?_, ?_⟩
    · intro id hmem
      rcases List.mem_append.mp hmem with hmem | hmem
      · obtain ⟨n2, m2, _, _, h5⟩ := (effects_cleanUp _ _ _).mp hmem
        cases h5
      · have := s5 name id hmem
        simp [hd, hm] at this
    · intro id hmem
      rcases List.mem_append.mp hmem with hmem | hmem
      · obtain ⟨n2, m2, _, h4, h5⟩ := (effects_cleanUp _ _ _).mp hmem
        cases h5
        rw [lookup_buildResDescMap, hd] at h4
        cases h4
      · exact s6 name id hmem
  · intro name m hm
    have hsome : ((c.applyConfig DeepEqual nrcfg order).1.managers.lookup name).isSome = true := by
      rw [hm]; rfl
    have hw : ∃ d ∈ nrcfg.Status.ResourceDescriptions, d.ResourceName = name := by
      by_contra hno
      have hd := hunwanted name hno
      have := s2 name hd
      simp only [hd, Option.isSome_none, Bool.false_eq_true, if_false] at this
      unfold Controller.applyConfig at hsome
      rw [this] at hsome
      cases hsome
    obtain ⟨desc, hd⟩ := hwanted name hw
    refine ⟨desc, hd, ?_⟩
    cases hc : c.managers.lookup name with
    | none =>
      obtain ⟨id, _, h2, _, h4⟩ := hcreated name desc hd hc
      rw [h2] at hm
      cases hm
      exact h4
    | some m0 =>
      obtain ⟨h1, h2⟩ := hkeptm name desc m0 hd hc
      rw [h1] at hm
      cases hm
      exact h2

/-- C20 on the example controller, which tracks `x` and `a`, with the desired
descriptions `a`, `b` visited as `b`, `a`: `x` is cancelled, `b` is created with
the new id 2, both `b` and `a` are updated, and the map holds `a` and `b`. -/
theorem applyConfig_reconciles_witness :
    (exampleController.applyConfig (fun stored desc => decide (stored = desc))
        (exampleConfig [] [exampleDesc "a", exampleDesc "b"])
        [("b", exampleDesc "b"), ("a", exampleDesc "a")]).2
      = [Effect.Cancel "x" 0, Effect.New "b" 2, Effect.Update "b" 2 (exampleDesc "b"),
         Effect.Update "a" 1 (exampleDesc "a")] ∧
    (exampleController.applyConfig (fun stored desc => decide (stored = desc))
        (exampleConfig [] [exampleDesc "a", exampleDesc "b"])
        [("b", exampleDesc "b"), ("a", exampleDesc "a")]).1.managers.map Prod.fst
      = ["a", "b"] ∧
    ((exampleController.applyConfig (fun stored desc => decide (stored = desc))
        (exampleConfig [] [exampleDesc "a", exampleDesc "b"])
        [("b", exampleDesc "b"), ("a", exampleDesc "a")]).1.managers.map Prod.fst).Nodup :=
  ⟨by decide, by decide,
    (applyConfig_reconciles (fun stored desc => decide (stored = desc)) exampleController
      (exampleConfig [] [exampleDesc "a", exampleDesc "b"])
      [("b", exampleDesc "b"), ("a", exampleDesc "a")] (by decide) (by decide)
      ⟨by decide, fun k => by
        by_cases ha : k = "a"
        · subst ha; decide
        · by_cases hb : k = "b"
          · subst hb; decide
          · have h1 : (k == "a") = false := by simpa using ha
            have h2 : (k == "b") = false := by simpa using hb
            simp [buildResDescMap, mapPut, exampleDesc, exampleConfig, List.lookup, h1, h2,
              ha, hb]⟩).2.1⟩

/-! ## Claims C21 and C22: `Update` and the second `applyConfig` -/

theorem Update_of_equal (DeepEqual : ResourceDescription → ResourceDescription → Bool)
    (m : resourceManager) (desc stored : ResourceDescription)
    (hs : m.desc = some stored) (he : DeepEqual stored desc = true) :
    m.Update DeepEqual desc = m := by
  simp only [resourceManager.Update, hs, he, if_true]

theorem Update_of_changed (DeepEqual : ResourceDescription → ResourceDescription → Bool)
    (m : resourceManager) (desc : ResourceDescription)
    (h : ∀ stored, m.desc = some stored → DeepEqual stored desc = false) :
    m.Update DeepEqual desc
      = { resourceName := m.resourceName, desc := some desc, synchronized := false } := by
  unfold resourceManager.Update
  cases hs : m.desc with
  | none => rfl
  | some stored => simp only [h stored hs, Bool.false_eq_true, if_false]

theorem Update_idem (DeepEqual : ResourceDescription → ResourceDescription → Bool)
    (hrefl : ∀ d, DeepEqual d d = true) (m : resourceManager) (desc : ResourceDescription) :
    (m.Update DeepEqual desc).Update DeepEqual desc = m.Update DeepEqual desc := by
  cases hs : m.desc with
  | none =>
    rw [Update_of_changed DeepEqual m desc (by intro s h; rw [hs] at h; cases h)]
    exact Update_of_equal DeepEqual _ desc desc rfl (hrefl desc)
  | some stored =>
    cases he : DeepEqual stored desc with
    | true =>
      rw [Update_of_equal DeepEqual m desc stored hs he]
      exact Update_of_equal DeepEqual m desc stored hs he
    | false =>
      rw [Update_of_changed DeepEqual m desc
        (by intro s h; rw [hs] at h; cases h; exact he)]
      exact Update_of_equal DeepEqual _ desc desc rfl (hrefl desc)

theorem map_put_of_lookup {α : Type} (k : String) (v : α) :
    ∀ m : List (String × α), (m.map Prod.fst).Nodup → m.lookup k = some v →
      m.map (fun e => (e.1, if e.1 = k then v else e.2)) = m := by
  intro m
  induction m with
  | nil => intro _ _; rfl
  | cons e rest ih =>
    obtain ⟨a, b⟩ := e
    intro hk hl
    simp only [List.map_cons, List.nodup_cons] at hk
    by_cases hka : k = a
    · subst hka
      simp only [List.lookup, beq_self_eq_true] at hl
      cases hl
      simp only [List.map_cons, if_true]
      congr 1
      have hid : rest.map (fun e => (e.1, if e.1 = k then v else e.2)) = rest.map id := by
        apply List.map_congr_left
        intro e he
        have hne : e.1 ≠ k := by
          intro h
          apply hk.1
          rw [← h]
          exact List.mem_map_of_mem Prod.fst he
        simp only [hne, if_false, id]
      rw [hid, List.map_id]
    · have h1 : (k == a) = false := by simpa using hka
      simp only [List.lookup, h1] at hl
      have hak : ¬ a = k := fun h => hka h.symm
      simp only [List.map_cons, hak, if_false, ih hk.2 hl]

theorem mapPut_of_lookup {α : Type} (m : List (String × α)) (k : String) (v : α)
    (hk : (m.map Prod.fst).Nodup) (hl : m.lookup k = some v) : mapPut m k v = m := by
  unfold mapPut
  rw [hl]
  simp only [Option.isSome_some, if_true]
  exact map_put_of_lookup k v m hk hl

theorem lookup_of_mem_nodup {α : Type} (k : String) (v : α) :
    ∀ m : List (String × α), (m.map Prod.fst).Nodup → (k, v) ∈ m → m.lookup k = some v := by
  intro m
  induction m with
  | nil => intro _ h; cases h
  | cons e rest ih =>
    obtain ⟨a, b⟩ := e
    intro hk hmem
    simp only [List.map_cons, List.nodup_cons] at hk
    rcases List.mem_cons.mp hmem with h | h
    · cases h
      simp only [List.lookup, beq_self_eq_true]
    · have hka : k ≠ a := by
        intro h2
        apply hk.1
        rw [← h2]
        exact List.mem_map_of_mem Prod.fst h
      have h1 : (k == a) = false := by simpa using hka
      simp only [List.lookup, h1]
      exact ih hk.2 h

theorem cleanUp_of_all_desired (resDescMap : List (String × ResourceDescription)) :
    ∀ managers : List (String × resourceManagerWithCancel),
      (∀ e ∈ managers, (resDescMap.lookup e.1).isSome = true) →
      cleanUp resDescMap managers = (managers, []) := by
  intro managers
  induction managers with
  | nil => intro _; rfl
  | cons e rest ih =>
    obtain ⟨a, m⟩ := e
    intro h
    have ha : (resDescMap.lookup a).isSome = true := h (a, m) (List.mem_cons_self _ _)
    have hr := ih (fun e he => h e (List.mem_cons_of_mem _ he))
    simp only [cleanUp, ha, if_true, hr]

theorem applyDesc_settled (DeepEqual : ResourceDescription → ResourceDescription → Bool)
    (c : Controller) (k : String) (desc : ResourceDescription) (m : resourceManagerWithCancel)
    (hk : (c.managers.map Prod.fst).Nodup) (hl : c.managers.lookup k = some m)
    (hu : m.ResourceManager.Update DeepEqual desc = m.ResourceManager) :
    applyDesc DeepEqual c k desc = (c, [Effect.Update k m.id desc]) := by
  rw [applyDesc_tracked DeepEqual c k desc m hl, hu]
  have hm : ({ id := m.id, ResourceManager := m.ResourceManager } : resourceManagerWithCancel)
      = m := rfl
  rw [hm, mapPut_of_lookup c.managers k m hk hl]

theorem applyDescs_settled (DeepEqual : ResourceDescription → ResourceDescription → Bool)
    (c : Controller) (hk : (c.managers.map Prod.fst).Nodup) :
    ∀ order : List (String × ResourceDescription),
      (∀ n desc, (n, desc) ∈ order → ∃ m, c.managers.lookup n = some m ∧
        m.ResourceManager.Update DeepEqual desc = m.ResourceManager) →
      (applyDescs DeepEqual c order).1 = c ∧
      ∀ e ∈ (applyDescs DeepEqual c order).2, ∃ n m desc, e = Effect.Update n m.id desc ∧
        c.managers.lookup n = some m ∧
        m.ResourceManager.Update DeepEqual desc = m.ResourceManager := by
  intro order
  induction order with
  | nil =>
    intro _
    exact ⟨rfl, fun e he => by cases he⟩
  | cons x rest ih =>
    obtain ⟨k, desc⟩ := x
    intro h
    obtain ⟨m, hl, hu⟩ := h k desc (List.mem_cons_self _ _)
    obtain ⟨h1, h2⟩ := ih (fun n d hmem => h n d (List.mem_cons_of_mem _ hmem))
    have hstep := applyDesc_settled DeepEqual c k desc m hk hl hu
    simp only [applyDescs, hstep, h1]
    refine ⟨trivial, ?_⟩
    intro e he
    rcases List.mem_append.mp he with he | he
    · rw [List.mem_singleton] at he
      exact ⟨k, m, desc, he, hl, hu⟩
    · exact h2 e he

theorem applyConfig_managers_updated
    (DeepEqual : ResourceDescription → ResourceDescription → Bool)
    (hrefl : ∀ d, DeepEqual d d = true)
    (c : Controller) (nrcfg : NodeResourceConfiguration)
    (order : List (String × ResourceDescription))
    (hkeys : (c.managers.map Prod.fst).Nodup)
    (horder : VisitingOrder order (buildResDescMap nrcfg.Status.ResourceDescriptions)) :
    ((c.applyConfig DeepEqual nrcfg order).1.managers.map Prod.fst).Nodup ∧
    (∀ n m, (c.applyConfig DeepEqual nrcfg order).1.managers.lookup n = some m →
      ∃ desc, (buildResDescMap nrcfg.Status.ResourceDescriptions).lookup n = some desc ∧
        m.ResourceManager.Update DeepEqual desc = m.ResourceManager) ∧
    ∀ n desc, (buildResDescMap nrcfg.Status.ResourceDescriptions).lookup n = some desc →
      ((c.applyConfig DeepEqual nrcfg order).1.managers.lookup n).isSome = true := by
  obtain ⟨hnodup, hlook⟩ := horder
  obtain ⟨_, s2, s3, s4, _, _, s7⟩ := applyDescs_spec DeepEqual order
    { c with managers :=
        (cleanUp (buildResDescMap nrcfg.Status.ResourceDescriptions) c.managers).1 } hnodup
  refine ⟨s7 (List.Nodup.sublist (keys_cleanUp_sublist _ _) hkeys), ?_, ?_⟩
  rotate_left
  · intro n desc hd
    rw [← hlook n] at hd
    unfold Controller.applyConfig
    simp only
    cases hc : (cleanUp (buildResDescMap nrcfg.Status.ResourceDescriptions)
        c.managers).1.lookup n with
    | none =>
      obtain ⟨id, _, h2, _, _⟩ := s4 n desc hd hc
      rw [h2]; rfl
    | some m0 =>
      obtain ⟨h1, _⟩ := s3 n desc m0 hd hc
      rw [h1]; rfl
  intro n m hm
  unfold Controller.applyConfig at hm
  simp only at hm
  cases ho : order.lookup n with
  | none =>
    exfalso
    have h1 := s2 n ho
    simp only [lookup_cleanUp, ← hlook n, ho, Option.isSome_none, Bool.false_eq_true,
      if_false] at h1
    rw [h1] at hm
    cases hm
  | some desc =>
    refine ⟨desc, by rw [← hlook n, ho], ?_⟩
    cases hc : (cleanUp (buildResDescMap nrcfg.Status.ResourceDescriptions)
        c.managers).1.lookup n with
    | none =>
      obtain ⟨id, _, h2, _, _⟩ := s4 n desc ho hc
      rw [h2] at hm
      cases hm
      exact Update_idem DeepEqual hrefl (resmanager.New n) desc
    | some m0 =>
      obtain ⟨h1, _⟩ := s3 n desc m0 ho hc
      rw [h1] at hm
      cases hm
      exact Update_idem DeepEqual hrefl m0.ResourceManager desc

/-- C21: `applyConfig` is idempotent.  With a reflexive `DeepEqual`, distinct keys
in the managers map and any two visiting orders of `resDescMap`: the second
`applyConfig` with the same configuration leaves the controller as the first
one left it (the same managers under the same keys, each with the same stored
description and the same `synchronized` flag), and every effect of the second
call is an `Update` on a tracked manager that changes nothing in the manager;
so no manager is created and none is cancelled. -/
theorem applyConfig_idempotent (DeepEqual : ResourceDescription → ResourceDescription → Bool)
    (c : Controller) (nrcfg : NodeResourceConfiguration)
    (order order2 : List (String × ResourceDescription))
    (hrefl : ∀ d, DeepEqual d d = true)
    (hkeys : (c.managers.map Prod.fst).Nodup)
    (horder : VisitingOrder order (buildResDescMap nrcfg.Status.ResourceDescriptions))
    (horder2 : VisitingOrder order2 (buildResDescMap nrcfg.Status.ResourceDescriptions)) :
    ((c.applyConfig DeepEqual nrcfg order).1.applyConfig DeepEqual nrcfg order2).1
      = (c.applyConfig DeepEqual nrcfg order).1 ∧
    (∀ e ∈ ((c.applyConfig DeepEqual nrcfg order).1.applyConfig DeepEqual nrcfg order2).2,
      ∃ name m desc, e = Effect.Update name m.id desc ∧
        (c.applyConfig DeepEqual nrcfg order).1.managers.lookup name = some m ∧
        m.ResourceManager.Update DeepEqual desc = m.ResourceManager) ∧
    (∀ name id, Effect.New name id ∉
      ((c.applyConfig DeepEqual nrcfg order).1.applyConfig DeepEqual nrcfg order2).2) ∧
    (∀ name id, Effect.Cancel name id ∉
      ((c.applyConfig DeepEqual nrcfg order).1.applyConfig DeepEqual nrcfg order2).2) := by
  obtain ⟨hk1, hup, hall⟩ :=
    applyConfig_managers_updated DeepEqual hrefl c nrcfg order hkeys horder
  generalize (c.applyConfig DeepEqual nrcfg order).1 = c1 at hk1 hup hall
  have hclean : cleanUp (buildResDescMap nrcfg.Status.ResourceDescriptions) c1.managers
      = (c1.managers, []) := by
    apply cleanUp_of_all_desired
    intro e he
    have hsome : (c1.managers.lookup e.1).isSome = true :=
      (lookup_isSome_iff_mem_keys c1.managers e.1).mpr (List.mem_map_of_mem Prod.fst he)
    obtain ⟨m, hm⟩ := Option.isSome_iff_exists.mp hsome
    obtain ⟨desc, hd, _⟩ := hup e.1 m hm
    rw [hd]; rfl
  have hsettled := applyDescs_settled DeepEqual c1 hk1 order2 (by
    intro n desc hmem
    have hl2 : order2.lookup n = some desc := lookup_of_mem_nodup n desc order2 horder2.1 hmem
    rw [horder2.2 n] at hl2
    have hwant : (c1.managers.lookup n).isSome = true := hall n desc hl2
    obtain ⟨m, hm⟩ := Option.isSome_iff_exists.mp hwant
    obtain ⟨desc2, hd, hu⟩ := hup n m hm
    rw [hl2] at hd
    cases hd
    exact ⟨m, hm, hu⟩)
  have hsecond : c1.applyConfig DeepEqual nrcfg order2
      = (applyDescs DeepEqual c1 order2) := by
    unfold Controller.applyConfig
    rw [hclean]
    rfl
  rw [hsecond]
  refine ⟨hsettled.1, hsettled.2, ?_, ?_⟩
  · intro name id hmem
    obtain ⟨n, m, desc, he, _, _⟩ := hsettled.2 _ hmem
    cases he
  · intro name id hmem
    obtain ⟨n, m, desc, he, _, _⟩ := hsettled.2 _ hmem
    cases he

/-- C21 on the example controller with the desired descriptions `a`, `b`: the
first call visits `b`, `a`, the second call visits `a`, `b`; the second call
issues two `Update` calls and nothing else, and leaves the controller as it was. -/
theorem applyConfig_idempotent_witness :
    ((exampleController.applyConfig (fun stored desc => decide (stored = desc))
        (exampleConfig [] [exampleDesc "a", exampleDesc "b"])
        [("b", exampleDesc "b"), ("a", exampleDesc "a")]).1.applyConfig
      (fun stored desc => decide (stored = desc))
      (exampleConfig [] [exampleDesc "a", exampleDesc "b"])
      [("a", exampleDesc "a"), ("b", exampleDesc "b")]).2
      = [Effect.Update "a" 1 (exampleDesc "a"), Effect.Update "b" 2 (exampleDesc "b")] ∧
    ((exampleController.applyConfig (fun stored desc => decide (stored = desc))
        (exampleConfig [] [exampleDesc "a", exampleDesc "b"])
        [("b", exampleDesc "b"), ("a", exampleDesc "a")]).1.applyConfig
      (fun stored desc => decide (stored = desc))
      (exampleConfig [] [exampleDesc "a", exampleDesc "b"])
      [("a", exampleDesc "a"), ("b", exampleDesc "b")]).1
      = (exampleController.applyConfig (fun stored desc => decide (stored = desc))
        (exampleConfig [] [exampleDesc "a", exampleDesc "b"])
        [("b", exampleDesc "b"), ("a", exampleDesc "a")]).1 :=
  ⟨by decide,
    (applyConfig_idempotent (fun stored desc => decide (stored = desc)) exampleController
      (exampleConfig [] [exampleDesc "a", exampleDesc "b"])
      [("b", exampleDesc "b"), ("a", exampleDesc "a")]
      [("a", exampleDesc "a"), ("b", exampleDesc "b")]
      (fun _ => decide_eq_true rfl) (by decide)
      ⟨by decide, fun k => by
        by_cases ha : k = "a"
        · subst ha; decide
        · by_cases hb : k = "b"
          · subst hb; decide
          · have h1 : (k == "a") = false := by simpa using ha
            have h2 : (k == "b") = false := by simpa using hb
            simp [buildResDescMap, mapPut, exampleDesc, exampleConfig, List.lookup, h1, h2,
              ha, hb]⟩
      ⟨by decide, fun k => by
        by_cases ha : k = "a"
        · subst ha; decide
        · by_cases hb : k = "b"
          · subst hb; decide
          · have h1 : (k == "a") = false := by simpa using ha
            have h2 : (k == "b") = false := by simpa using hb
            simp [buildResDescMap, mapPut, exampleDesc, exampleConfig, List.lookup, h1, h2,
              ha, hb]⟩).1⟩

/-- C22: `Update(desc)` on a manager.  When a description is stored and `DeepEqual`
holds between it and `desc`, the stored description and the flag `synchronized`
stay as they are; when no description is stored, or `DeepEqual` fails, the
stored description becomes `desc` (the value of the deep copy) and
`synchronized` becomes false.  The resource name never changes. -/
theorem resourceManager_Update_spec
    (DeepEqual : ResourceDescription → ResourceDescription → Bool)
    (m : resourceManager) (desc : ResourceDescription) :
    (∀ stored, m.desc = some stored → DeepEqual stored desc = true →
      (m.Update DeepEqual desc).desc = m.desc ∧
      (m.Update DeepEqual desc).synchronized = m.synchronized) ∧
    ((∀ stored, m.desc = some stored → DeepEqual stored desc = false) →
      (m.Update DeepEqual desc).desc = some desc ∧
      (m.Update DeepEqual desc).synchronized = false) ∧
    (m.Update DeepEqual desc).resourceName = m.resourceName := by
  refine ⟨?_, ?_, ?_⟩
  · intro stored hs he
    rw [Update_of_equal DeepEqual m desc stored hs he]
    exact ⟨rfl, rfl⟩
  · intro h
    rw [Update_of_changed DeepEqual m desc h]
    exact ⟨rfl, rfl⟩
  · unfold resourceManager.Update
    cases m.desc with
    | none => rfl
    | some stored =>
      simp only
      split <;> rfl

/-- C22 on a synchronized manager that stores the description `a`: `Update` with
`a` leaves it synchronized, `Update` with `b` stores `b` and clears the flag. -/
theorem resourceManager_Update_spec_witness :
    ((({ resourceName := "a", desc := some (exampleDesc "a"), synchronized := true } :
        resourceManager).Update (fun stored desc => decide (stored = desc))
        (exampleDesc "a")).desc = some (exampleDesc "a") ∧
      (({ resourceName := "a", desc := some (exampleDesc "a"), synchronized := true } :
        resourceManager).Update (fun stored desc => decide (stored = desc))
        (exampleDesc "a")).synchronized = true) ∧
    ((({ resourceName := "a", desc := some (exampleDesc "a"), synchronized := true } :
        resourceManager).Update (fun stored desc => decide (stored = desc))
        (exampleDesc "b")).desc = some (exampleDesc "b") ∧
      (({ resourceName := "a", desc := some (exampleDesc "a"), synchronized := true } :
        resourceManager).Update (fun stored desc => decide (stored = desc))
        (exampleDesc "b")).synchronized = false) :=
  ⟨(resourceManager_Update_spec (fun stored desc => decide (stored = desc))
      { resourceName := "a", desc := some (exampleDesc "a"), synchronized := true }
      (exampleDesc "a")).1 (exampleDesc "a") rfl (by decide),
    (resourceManager_Update_spec (fun stored desc => decide (stored = desc))
      { resourceName := "a", desc := some (exampleDesc "a"), synchronized := true }
      (exampleDesc "b")).2.1 (fun stored hs => by cases hs; decide)⟩

/-! ## Claims C23 and C24: the sync function and the teardown of a manager -/

theorem patchToNode_calls (env : NodeEnv) (patch : String) :
    (patchToNode env patch).2
      = match env.YAMLToJSON patch with
        | Except.ok jsonPatch => [NodeCall.Patch jsonPatch]
        | Except.error _ => [] := by
  unfold patchToNode
  cases env.YAMLToJSON patch with
  | error e => rfl
  | ok jsonPatch =>
    simp only
    cases env.Patch jsonPatch <;> rfl

theorem patchToNode_ok_iff (env : NodeEnv) (patch : String) :
    (patchToNode env patch).1 = none ↔
      ∃ jsonPatch, env.YAMLToJSON patch = Except.ok jsonPatch ∧ env.Patch jsonPatch = none := by
  unfold patchToNode
  cases h : env.YAMLToJSON patch with
  | error e => simp
  | ok jsonPatch =>
    simp only
    cases hp : env.Patch jsonPatch with
    | none => simp [hp]
    | some e => simp [hp]

theorem syncTick_desc (env : NodeEnv) (m : resourceManager) :
    (m.syncTick env).1.desc = m.desc ∧ (m.syncTick env).1.resourceName = m.resourceName := by
  unfold resourceManager.syncTick
  split
  · exact ⟨rfl, rfl⟩
  · split <;> exact ⟨rfl, rfl⟩

/-- C23: one run of the sync function of a manager.  A manager whose flag
`synchronized` is set makes no call and stays as it is.  A manager whose flag
is clear and that stores no description makes no call and sets the flag.  A
manager whose flag is clear and that stores `desc` first hands
`BuildDeviceID` of the stored format to the plugin server, then runs
`patchToNode` on the apply patch exactly when that patch is not empty, and makes
no other call; afterwards the flag is clear if and only if the apply patch is not
empty and `patchToNode` returned an error.  `patchToNode` sends the converted
patch to the node exactly when `yaml.YAMLToJSON` converts it, and returns no
error exactly when it converts and the API server accepts the request. -/
theorem syncTick_spec (env : NodeEnv) (m : resourceManager) :
    (m.synchronized = true → m.syncTick env = (m, [])) ∧
    (m.synchronized = false → m.desc = none →
      m.syncTick env = ({ m with synchronized := true }, [])) ∧
    (∀ desc, m.synchronized = false → m.desc = some desc →
      (m.syncTick env).2
        = NodeCall.UpdateDeviceIDs (BuildDeviceID desc.DeviceIDFormat) ::
            (if desc.NodePatch = "" then [] else (patchToNode env desc.NodePatch).2) ∧
      ((m.syncTick env).1.synchronized = false ↔
        desc.NodePatch ≠ "" ∧ (patchToNode env desc.NodePatch).1 ≠ none) ∧
      (m.syncTick env).1.desc = some desc ∧
      (m.syncTick env).1.resourceName = m.resourceName) ∧
    (∀ patch, (patchToNode env patch).2
        = match env.YAMLToJSON patch with
          | Except.ok jsonPatch => [NodeCall.Patch jsonPatch]
          | Except.error _ => []) ∧
    (∀ patch, (patchToNode env patch).1 = none ↔
      ∃ jsonPatch, env.YAMLToJSON patch = Except.ok jsonPatch ∧ env.Patch jsonPatch = none) := by
  refine ⟨?_, ?_, ?_, patchToNode_calls env, patchToNode_ok_iff env⟩
  · intro hs
    simp only [resourceManager.syncTick, hs, if_true]
  · intro hs hd
    simp only [resourceManager.syncTick, hs, Bool.false_eq_true, if_false,
      resourceManager.syncConfigOnce, hd]
  · intro desc hs hd
    by_cases hp : desc.NodePatch = ""
    · simp only [resourceManager.syncTick, hs, Bool.false_eq_true, if_false,
        resourceManager.syncConfigOnce, hd, hp, ne_eq, not_true_eq_false, if_true,
        false_and, iff_false]
      simp
    · cases he : (patchToNode env desc.NodePatch).1 with
      | none =>
        simp only [resourceManager.syncTick, hs, Bool.false_eq_true, if_false,
          resourceManager.syncConfigOnce, hd, hp, ne_eq, not_false_eq_true, if_true, he]
        simp
      | some e =>
        simp only [resourceManager.syncTick, hs, Bool.false_eq_true, if_false,
          resourceManager.syncConfigOnce, hd, hp, ne_eq, not_false_eq_true, if_true, he]
        simp

/-- C23 on a manager that stores the description `a` with the label patch `gpu-a`
and is not synchronized: on a node that accepts the patch it pushes `a/0`, sends
the patch and is synchronized afterwards; on a node that refuses the patch it
makes the same calls and is not synchronized afterwards. -/
theorem syncTick_spec_witness :
    exampleDirtyManager.syncTick exampleNodeEnv
      = ({ exampleDirtyManager with synchronized := true },
         [NodeCall.UpdateDeviceIDs ["a/0"], NodeCall.Patch (exampleApplyPatch "gpu-a")]) ∧
    exampleDirtyManager.syncTick refusingNodeEnv
      = (exampleDirtyManager,
         [NodeCall.UpdateDeviceIDs ["a/0"], NodeCall.Patch (exampleApplyPatch "gpu-a")]) ∧
    ((exampleDirtyManager.syncTick refusingNodeEnv).1.synchronized = false ↔
      (exampleLabelDesc "a" "gpu-a").NodePatch ≠ "" ∧
        (patchToNode refusingNodeEnv (exampleLabelDesc "a" "gpu-a").NodePatch).1 ≠ none) :=
  ⟨by decide, by decide,
    ((syncTick_spec refusingNodeEnv exampleDirtyManager).2.2.1
      (exampleLabelDesc "a" "gpu-a") rfl rfl).2.1⟩

theorem getLast_cons_eq {α : Type} (a : α) (l : List α) :
    (a :: l).getLast? = match l.getLast? with
      | some b => some b
      | none => some a := by
  cases l with
  | nil => rfl
  | cons b rest =>
    rw [List.getLast?_cons_cons]
    cases h : (b :: rest).getLast? with
    | some c => rfl
    | none => simp at h

theorem steps_desc (DeepEqual : ResourceDescription → ResourceDescription → Bool)
    (env : NodeEnv) :
    ∀ (events : List ManagerEvent) (m : resourceManager),
      (resourceManager.steps DeepEqual env m events).1.desc
        = match (acceptedDescs DeepEqual m.desc events).getLast? with
          | some desc => some desc
          | none => m.desc := by
  intro events
  induction events with
  | nil => intro m; rfl
  | cons ev rest ih =>
    intro m
    cases ev with
    | Tick =>
      simp only [resourceManager.steps, resourceManager.step, acceptedDescs]
      rw [ih, (syncTick_desc env m).1]
    | Update desc =>
      simp only [resourceManager.steps, resourceManager.step, acceptedDescs]
      rw [ih]
      cases hs : m.desc with
      | none =>
        rw [Update_of_changed DeepEqual m desc (by intro s h; rw [hs] at h; cases h)]
        simp only [Bool.false_eq_true, if_false, getLast_cons_eq]
        cases (acceptedDescs DeepEqual (some desc) rest).getLast? <;> rfl
      | some stored =>
        cases he : DeepEqual stored desc with
        | true =>
          rw [Update_of_equal DeepEqual m desc stored hs he]
          simp only [hs, he, if_true]
        | false =>
          rw [Update_of_changed DeepEqual m desc
            (by intro s h; rw [hs] at h; cases h; exact he)]
          simp only [he, Bool.false_eq_true, if_false, getLast_cons_eq]
          cases (acceptedDescs DeepEqual (some desc) rest).getLast? <;> rfl

theorem syncTick_calls (env : NodeEnv) (m : resourceManager) :
    ∀ call ∈ (m.syncTick env).2, (∃ ids, call = NodeCall.UpdateDeviceIDs ids) ∨
      ∃ desc, m.desc = some desc ∧ desc.NodePatch ≠ "" ∧
        call ∈ (patchToNode env desc.NodePatch).2 := by
  intro call hcall
  cases hsync : m.synchronized with
  | true =>
    simp only [resourceManager.syncTick, hsync, if_true] at hcall
    cases hcall
  | false =>
    have hsame : (m.syncTick env).2
        = (resourceManager.syncConfigOnce env { m with synchronized := true }).2 := by
      simp only [resourceManager.syncTick, hsync, Bool.false_eq_true, if_false]
      split <;> rfl
    rw [hsame] at hcall
    cases hd : m.desc with
    | none =>
      simp only [resourceManager.syncConfigOnce, hd] at hcall
      cases hcall
    | some desc =>
      by_cases hp : desc.NodePatch = ""
      · simp only [resourceManager.syncConfigOnce, hd, hp, ne_eq, not_true_eq_false,
          if_false, List.mem_singleton] at hcall
        exact Or.inl ⟨_, hcall⟩
      · simp only [resourceManager.syncConfigOnce, hd, hp, ne_eq, not_false_eq_true,
          if_true, List.mem_cons] at hcall
        rcases hcall with h | h
        · exact Or.inl ⟨_, h⟩
        · exact Or.inr ⟨desc, rfl, hp, h⟩

theorem steps_calls (DeepEqual : ResourceDescription → ResourceDescription → Bool)
    (env : NodeEnv) :
    ∀ (events : List ManagerEvent) (m : resourceManager),
      ∀ call ∈ (resourceManager.steps DeepEqual env m events).2,
        (∃ ids, call = NodeCall.UpdateDeviceIDs ids) ∨
        ∃ desc, (m.desc = some desc ∨ desc ∈ acceptedDescs DeepEqual m.desc events) ∧
          desc.NodePatch ≠ "" ∧ call ∈ (patchToNode env desc.NodePatch).2 := by
  intro events
  induction events with
  | nil => intro m call h; cases h
  | cons ev rest ih =>
    intro m call hcall
    simp only [resourceManager.steps] at hcall
    rcases List.mem_append.mp hcall with h | h
    · cases ev with
      | Update desc => cases h
      | Tick =>
        rcases syncTick_calls env m call h with h1 | ⟨desc, h1, h2, h3⟩
        · exact Or.inl h1
        · exact Or.inr ⟨desc, Or.inl h1, h2, h3⟩
    · rcases ih _ call h with h1 | ⟨d, h1, h2, h3⟩
      · exact Or.inl h1
      · right
        refine ⟨d, ?_, h2, h3⟩
        cases ev with
        | Tick =>
          simp only [resourceManager.step, (syncTick_desc env m).1] at h1
          simpa only [acceptedDescs] using h1
        | Update desc =>
          simp only [resourceManager.step] at h1
          simp only [acceptedDescs]
          cases hs : m.desc with
          | none =>
            rw [Update_of_changed DeepEqual m desc (by intro s h; rw [hs] at h; cases h)]
              at h1
            simp only [Bool.false_eq_true, if_false, List.mem_cons]
            rcases h1 with h1 | h1
            · cases h1
              exact Or.inr (Or.inl rfl)
            · exact Or.inr (Or.inr h1)
          | some stored =>
            cases he : DeepEqual stored desc with
            | true =>
              rw [Update_of_equal DeepEqual m desc stored hs he, hs] at h1
              simpa only [he, if_true] using h1
            | false =>
              rw [Update_of_changed DeepEqual m desc
                (by intro s h; rw [hs] at h; cases h; exact he)] at h1
              simp only [he, Bool.false_eq_true, if_false, List.mem_cons]
              rcases h1 with h1 | h1
              · cases h1
                exact Or.inr (Or.inl rfl)
              · exact Or.inr (Or.inr h1)

/-- C24, as the code has it: for a manager started by `resmanager.New` and any
sequence of `Update` calls and sync runs before the cancellation, `onExit` runs
`patchToNode` once on the undo patch of the description stored at that moment,
which is the last one that an `Update` call stored, when that undo patch is not
empty, and makes no call otherwise; `patchToNode` sends at most one request; and
every patch request of the loop before comes from the apply patch of a stored
description.  The undo patch of a description that a later `Update` replaced is
not applied. -/
theorem Run_undo_patch (DeepEqual : ResourceDescription → ResourceDescription → Bool)
    (env : NodeEnv) (name : String) (events : List ManagerEvent) :
    (resourceManager.Run DeepEqual env (resmanager.New name) events).2
      = (match (acceptedDescs DeepEqual none events).getLast? with
        | none => []
        | some desc =>
          if desc.NodeUndoPatch = "" then [] else (patchToNode env desc.NodeUndoPatch).2) ∧
    (∀ patch, (patchToNode env patch).2
        = match env.YAMLToJSON patch with
          | Except.ok jsonPatch => [NodeCall.Patch jsonPatch]
          | Except.error _ => []) ∧
    (∀ call ∈ (resourceManager.Run DeepEqual env (resmanager.New name) events).1,
      (∃ ids, call = NodeCall.UpdateDeviceIDs ids) ∨
      ∃ desc ∈ acceptedDescs DeepEqual none events,
        desc.NodePatch ≠ "" ∧ call ∈ (patchToNode env desc.NodePatch).2) := by
  refine ⟨?_, patchToNode_calls env, ?_⟩
  · have h : (resourceManager.steps DeepEqual env (resmanager.New name) events).1.desc
        = match (acceptedDescs DeepEqual none events).getLast? with
          | some desc => some desc
          | none => none := steps_desc DeepEqual env events (resmanager.New name)
    unfold resourceManager.Run resourceManager.onExit
    simp only
    rw [h]
    cases (acceptedDescs DeepEqual none events).getLast? with
    | none => rfl
    | some desc =>
      simp only
      by_cases hu : desc.NodeUndoPatch = ""
      · simp only [hu, ne_eq, not_true_eq_false, if_false, if_true]
      · simp only [hu, ne_eq, not_false_eq_true, if_true, if_false]
  · intro call hcall
    rcases steps_calls DeepEqual env events (resmanager.New name) call hcall with
      h | ⟨d, h1, h2, h3⟩
    · exact Or.inl h
    · rcases h1 with h1 | h1
      · cases h1
      · exact Or.inr ⟨d, h1, h2, h3⟩

/-- C24 fails for a description that a later `Update` replaces: a manager receives
the description with the label `gpu-a`, syncs, receives the description with the
label `gpu-b`, syncs, and is torn down.  Both descriptions were stored and both
have an undo patch; the teardown sends the undo patch of `gpu-b` only, and the
undo patch of `gpu-a` is sent at no time. -/
theorem undo_patch_of_replaced_description_not_applied :
    acceptedDescs (fun stored desc => decide (stored = desc)) none
        [ManagerEvent.Update (exampleLabelDesc "a" "gpu-a"), ManagerEvent.Tick,
         ManagerEvent.Update (exampleLabelDesc "a" "gpu-b"), ManagerEvent.Tick]
      = [exampleLabelDesc "a" "gpu-a", exampleLabelDesc "a" "gpu-b"] ∧
    (exampleLabelDesc "a" "gpu-a").NodeUndoPatch = exampleUndoPatch "gpu-a" ∧
    exampleUndoPatch "gpu-a" ≠ "" ∧
    resourceManager.Run (fun stored desc => decide (stored = desc)) exampleNodeEnv
        (resmanager.New "a")
        [ManagerEvent.Update (exampleLabelDesc "a" "gpu-a"), ManagerEvent.Tick,
         ManagerEvent.Update (exampleLabelDesc "a" "gpu-b"), ManagerEvent.Tick]
      = ([NodeCall.UpdateDeviceIDs ["a/0"], NodeCall.Patch (exampleApplyPatch "gpu-a"),
          NodeCall.UpdateDeviceIDs ["a/0"], NodeCall.Patch (exampleApplyPatch "gpu-b")],
         [NodeCall.Patch (exampleUndoPatch "gpu-b")]) ∧
    NodeCall.Patch (exampleUndoPatch "gpu-a") ∉
      (resourceManager.Run (fun stored desc => decide (stored = desc)) exampleNodeEnv
        (resmanager.New "a")
        [ManagerEvent.Update (exampleLabelDesc "a" "gpu-a"), ManagerEvent.Tick,
         ManagerEvent.Update (exampleLabelDesc "a" "gpu-b"), ManagerEvent.Tick]).1 ++
      (resourceManager.Run (fun stored desc => decide (stored = desc)) exampleNodeEnv
        (resmanager.New "a")
        [ManagerEvent.Update (exampleLabelDesc "a" "gpu-a"), ManagerEvent.Tick,
         ManagerEvent.Update (exampleLabelDesc "a" "gpu-b"), ManagerEvent.Tick]).2 := by
  refine ⟨by decide, rfl, by decide, by decide, by decide⟩

/-! ## Claims C25 and C26: the list monitor -/

theorem elems_makeCopy {T : Type} (mem : Memory T) (s : Slice) :
    (mem.makeCopy s).1.elems (mem.makeCopy s).2 = mem.elems s := by
  simp only [Memory.makeCopy, Memory.elems, List.drop_zero]
  rw [List.getD_eq_getElem?_getD, List.getElem?_append_right (Nat.le_refl _)]
  simp only [Nat.sub_self, List.getElem?_cons_zero, Option.getD_some, List.take_take,
    Nat.min_self]

theorem elems_makeCopy_old {T : Type} (mem : Memory T) (list s : Slice)
    (hs : s.len = 0 ∨ s.array < mem.arrays.length) :
    (mem.makeCopy list).1.elems s = mem.elems s := by
  rcases hs with hs | hs
  · simp only [Memory.elems, hs, List.take_zero]
  · simp only [Memory.makeCopy, Memory.elems]
    simp only [List.getD_eq_getElem?_getD]
    rw [List.getElem?_append_left hs]

theorem elems_assign_other {T : Type} (mem : Memory T) (s t : Slice) (i : Nat) (v : T)
    (hne : s.array ≠ t.array) : (mem.assign s i v).elems t = mem.elems t := by
  unfold Memory.assign
  split
  · simp only [Memory.elems]
    simp only [List.getD_eq_getElem?_getD]
    rw [List.getElem?_set_ne hne]
  · rfl

/-- C25, as the code has it: `Update(list)` sets the version to its successor as
a `uint64`, which is the version plus one below `math.MaxUint64` and zero at
`math.MaxUint64`, whatever the list is (also one with the elements of the
stored list); the stored list afterwards has the elements of `list`; the slices
that existed before keep their elements; and an assignment through any slice
that existed before the call, such as the caller's `list`, leaves the elements
of the stored list as they are. -/
theorem listMonitor_Update_spec {T : Type} (mem : Memory T) (m : listMonitor) (list : Slice) :
    (listMonitor.Update mem m list).2.version = (m.version + 1) % 18446744073709551616 ∧
    (m.version < 18446744073709551615 →
      (listMonitor.Update mem m list).2.version = m.version + 1) ∧
    (m.version = 18446744073709551615 → (listMonitor.Update mem m list).2.version = 0) ∧
    (listMonitor.Update mem m list).1.elems (listMonitor.Update mem m list).2.list
      = mem.elems list ∧
    (∀ s : Slice, s.array < mem.arrays.length →
      (listMonitor.Update mem m list).1.elems s = mem.elems s) ∧
    (∀ (s : Slice) (i : Nat) (v : T), s.array < mem.arrays.length →
      ((listMonitor.Update mem m list).1.assign s i v).elems
        (listMonitor.Update mem m list).2.list = mem.elems list) := by
  refine ⟨rfl, ?_, ?_, elems_makeCopy mem list, ?_, ?_⟩
  · intro h
    simp only [listMonitor.Update]
    omega
  · intro h
    simp only [listMonitor.Update, h]
  · intro s hs
    exact elems_makeCopy_old mem list s (Or.inr hs)
  · intro s i v hs
    simp only [listMonitor.Update]
    rw [elems_assign_other _ s _ i v (by
      simp only [Memory.makeCopy]
      omega)]
    exact elems_makeCopy mem list

/-- C25 on a memory with the caller's list `x`, `y` at address 0 and a new
monitor: after `Update` the version is 1 and the stored list is `x`, `y`, also
after the caller has overwritten the first element of its list. -/
theorem listMonitor_Update_spec_witness :
    (listMonitor.Update ({ arrays := [["x", "y"]] } : Memory String) NewListMonitor
      { array := 0, off := 0, len := 2 }).2.version = 0 + 1 ∧
    ((listMonitor.Update ({ arrays := [["x", "y"]] } : Memory String) NewListMonitor
        { array := 0, off := 0, len := 2 }).1.assign { array := 0, off := 0, len := 2 } 0 "z").elems
      (listMonitor.Update ({ arrays := [["x", "y"]] } : Memory String) NewListMonitor
        { array := 0, off := 0, len := 2 }).2.list = ["x", "y"] ∧
    ((listMonitor.Update ({ arrays := [["x", "y"]] } : Memory String) NewListMonitor
        { array := 0, off := 0, len := 2 }).1.assign { array := 0, off := 0, len := 2 } 0 "z").elems
      { array := 0, off := 0, len := 2 } = ["z", "y"] :=
  ⟨(listMonitor_Update_spec ({ arrays := [["x", "y"]] } : Memory String) NewListMonitor
      { array := 0, off := 0, len := 2 }).2.1 (by decide),
    (listMonitor_Update_spec ({ arrays := [["x", "y"]] } : Memory String) NewListMonitor
      { array := 0, off := 0, len := 2 }).2.2.2.2.2 { array := 0, off := 0, len := 2 } 0 "z"
      (by decide),
    by decide⟩

/-- C25 fails at the largest version: `Update` on a monitor whose version is
`math.MaxUint64` leaves the version 0, not one more. -/
theorem listMonitor_Update_wraps :
    (listMonitor.Update ({ arrays := [] } : Memory String)
      { list := Slice.nil, version := 18446744073709551615 } Slice.nil).2.version = 0 ∧
    (listMonitor.Update ({ arrays := [] } : Memory String)
      { list := Slice.nil, version := 18446744073709551615 } Slice.nil).2.version
      ≠ 18446744073709551615 + 1 := by
  constructor <;> decide

theorem Updates_spec {T : Type} :
    ∀ (lists : List Slice) (mem : Memory T) (m : listMonitor),
      (m.list.len = 0 ∨ m.list.array < mem.arrays.length) →
      (listMonitor.Updates mem m lists).2.version
        = (m.version + lists.length) % 18446744073709551616 ∨
        (lists = [] ∧ (listMonitor.Updates mem m lists).2.version = m.version) := by
  intro lists
  induction lists with
  | nil => intro mem m _; exact Or.inr ⟨rfl, rfl⟩
  | cons list rest ih =>
    intro mem m _
    left
    simp only [listMonitor.Updates]
    rcases ih (listMonitor.Update mem m list).1 (listMonitor.Update mem m list).2
      (Or.inr (by simp [listMonitor.Update, Memory.makeCopy])) with h | ⟨h1, h2⟩
    · rw [h]
      simp only [listMonitor.Update, List.length_cons]
      omega
    · rw [h2, h1]
      simp only [listMonitor.Update, List.length_cons, List.length_nil]

theorem Updates_version {T : Type} (mem : Memory T) (lists : List Slice) :
    (listMonitor.Updates mem NewListMonitor lists).2.version
      = lists.length % 18446744073709551616 := by
  rcases Updates_spec lists mem NewListMonitor (Or.inl rfl) with h | ⟨h1, h2⟩
  · rw [h]
    simp only [NewListMonitor, Nat.zero_add]
  · rw [h2, h1]
    rfl

theorem Updates_valid {T : Type} :
    ∀ (lists : List Slice) (mem : Memory T) (m : listMonitor),
      (m.list.len = 0 ∨ m.list.array < mem.arrays.length) →
      ((listMonitor.Updates mem m lists).2.list.len = 0 ∨
        (listMonitor.Updates mem m lists).2.list.array
          < (listMonitor.Updates mem m lists).1.arrays.length) := by
  intro lists
  induction lists with
  | nil => intro mem m h; exact h
  | cons list rest ih =>
    intro mem m _
    simp only [listMonitor.Updates]
    exact ih _ _ (Or.inr (by simp [listMonitor.Update, Memory.makeCopy]))

theorem watchInv_start {T : Type} (mem : Memory T) (lists : List Slice)
    (h : lists.length < 18446744073709551615) :
    watchInv lists.length (watchState.start mem lists) := by
  refine ⟨?_, h, Updates_valid lists mem NewListMonitor (Or.inl rfl), Or.inl ⟨rfl, rfl⟩⟩
  simp only [watchState.start, Updates_version]
  omega

theorem poll_spec {T : Type} (mem : Memory T) (m : listMonitor) (w : watcher T) :
    (listMonitor.poll mem m w).2.version = m.version ∧
    (listMonitor.poll mem m w).2.delivered
      = (if w.version = m.version then w.delivered else w.delivered ++ [mem.elems m.list]) ∧
    ((m.list.len = 0 ∨ m.list.array < mem.arrays.length) →
      (listMonitor.poll mem m w).1.elems m.list = mem.elems m.list ∧
      (m.list.len = 0 ∨ m.list.array < (listMonitor.poll mem m w).1.arrays.length)) := by
  unfold listMonitor.poll
  by_cases h : w.version = m.version
  · simp only [h, if_true]
    exact ⟨trivial, trivial, fun hv => ⟨trivial, hv⟩⟩
  · simp only [h, if_false, elems_makeCopy]
    refine ⟨trivial, trivial, fun hv => ⟨elems_makeCopy_old mem m.list m.list hv, ?_⟩⟩
    rcases hv with hv | hv
    · exact Or.inl hv
    · right
      simp only [Memory.makeCopy, List.length_append, List.length_singleton]
      omega

theorem watchInv_step {T : Type} (n : Nat) (s : watchState T) (ev : WatchEvent)
    (hinv : watchInv n s) (hn : n + updateCount [ev] < 18446744073709551615) :
    watchInv (n + updateCount [ev]) (s.step ev) := by
  obtain ⟨hv, hb, hvalid, hstream⟩ := hinv
  cases ev with
  | Update list =>
    have hc : updateCount [WatchEvent.Update list] = 1 := by
      simp [updateCount]
    rw [hc] at hn ⊢
    refine ⟨?_, hn, ?_, ?_⟩
    · simp only [watchState.step, listMonitor.Update, hv]
      omega
    · right
      simp [watchState.step, listMonitor.Update, Memory.makeCopy]
    · rcases hstream with h | ⟨h1, _⟩
      · exact Or.inl h
      · right
        refine ⟨?_, ?_⟩
        · simp only [watchState.step]
          omega
        · intro h
          simp only [watchState.step] at h
          omega
  | Poll =>
    have hc : updateCount [WatchEvent.Poll] = 0 := by
      simp [updateCount]
    rw [hc, Nat.add_zero]
    obtain ⟨p1, p2, p3⟩ := poll_spec s.mem s.monitor s.stream
    obtain ⟨p4, p5⟩ := p3 hvalid
    refine ⟨hv, hb, p5, Or.inr ⟨?_, ?_⟩⟩
    · simp only [watchState.step, p1, hv]
      exact Nat.le_refl _
    · intro _
      simp only [watchState.step, p2, p4]
      by_cases h : s.stream.version = s.monitor.version
      · simp only [h, if_true]
        rcases hstream with ⟨h1, _⟩ | ⟨_, h2⟩
        · omega
        · exact h2 (by rw [h, hv])
      · simp only [h, if_false, List.getLast?_append, List.getLast?_singleton]
        rfl

theorem updateCount_cons (ev : WatchEvent) (events : List WatchEvent) :
    updateCount (ev :: events) = updateCount [ev] + updateCount events := by
  unfold updateCount
  simp only [List.filter_cons, List.filter_nil]
  split <;> simp [Nat.add_comm]

theorem updateCount_append (xs ys : List WatchEvent) :
    updateCount (xs ++ ys) = updateCount xs + updateCount ys := by
  unfold updateCount
  simp only [List.filter_append, List.length_append]

theorem watchInv_steps {T : Type} :
    ∀ (events : List WatchEvent) (n : Nat) (s : watchState T),
      watchInv n s → n + updateCount events < 18446744073709551615 →
      watchInv (n + updateCount events) (s.steps events) := by
  intro events
  induction events with
  | nil =>
    intro n s hinv _
    exact hinv
  | cons ev rest ih =>
    intro n s hinv hn
    rw [updateCount_cons] at hn ⊢
    have h1 := watchInv_step n s ev hinv (by omega)
    have h2 := ih (n + updateCount [ev]) (s.step ev) h1 (by omega)
    rw [Nat.add_assoc] at h2
    exact h2

theorem steps_append {T : Type} (s : watchState T) (xs ys : List WatchEvent) :
    s.steps (xs ++ ys) = (s.steps xs).steps ys := by
  simp only [watchState.steps, List.foldl_append]

theorem steps_stream_of_no_poll {T : Type} :
    ∀ (events : List WatchEvent) (s : watchState T),
      (∀ ev ∈ events, ev ≠ WatchEvent.Poll) → (s.steps events).stream = s.stream := by
  intro events
  induction events with
  | nil => intro s _; rfl
  | cons ev rest ih =>
    intro s h
    have h1 : (s.steps (ev :: rest)) = (s.step ev).steps rest := rfl
    rw [h1, ih (s.step ev) (fun e he => h e (List.mem_cons_of_mem _ he))]
    cases ev with
    | Update list => rfl
    | Poll => exact absurd rfl (h WatchEvent.Poll (List.mem_cons_self _ _))

/-- C26, as the code has it: a stream is started on the monitor that `lists.length`
calls of `Update` leave behind, further calls of `Update` and polls follow, and
the calls of `Update` are fewer than `math.MaxUint64` in all.  Then after every
poll the list delivered last is the stored list; when the poll is the first one
of the stream, it is the only list delivered so far (also when it is empty).
In every state a poll delivers the stored list if the version of the stream
differs from the stored version, delivers nothing if they agree, and leaves the
stream with the stored version. -/
theorem ListAndWatch_delivers {T : Type} (mem : Memory T) (lists : List Slice)
    (events : List WatchEvent)
    (hbound : lists.length + updateCount events < 18446744073709551615) :
    ((watchState.start mem lists).steps (events ++ [WatchEvent.Poll])).stream.delivered.getLast?
      = some (((watchState.start mem lists).steps (events ++ [WatchEvent.Poll])).mem.elems
          ((watchState.start mem lists).steps (events ++ [WatchEvent.Poll])).monitor.list) ∧
    ((∀ ev ∈ events, ev ≠ WatchEvent.Poll) →
      ((watchState.start mem lists).steps (events ++ [WatchEvent.Poll])).stream.delivered
        = [((watchState.start mem lists).steps (events ++ [WatchEvent.Poll])).mem.elems
            ((watchState.start mem lists).steps (events ++ [WatchEvent.Poll])).monitor.list]) ∧
    (∀ s : watchState T,
      (s.step WatchEvent.Poll).stream.delivered
        = (if s.stream.version = s.monitor.version then s.stream.delivered
           else s.stream.delivered ++ [s.mem.elems s.monitor.list]) ∧
      (s.step WatchEvent.Poll).stream.version = s.monitor.version ∧
      (s.step WatchEvent.Poll).monitor = s.monitor) := by
  have hstart := watchInv_start mem lists (by omega)
  have hinv := watchInv_steps events lists.length (watchState.start mem lists) hstart hbound
  have hlast := watchInv_step _ _ WatchEvent.Poll hinv (by
    have hc : updateCount [WatchEvent.Poll] = 0 := by simp [updateCount]
    omega)
  have hc : updateCount [WatchEvent.Poll] = 0 := by simp [updateCount]
  rw [hc, Nat.add_zero] at hlast
  have hsteps : (watchState.start mem lists).steps (events ++ [WatchEvent.Poll])
      = ((watchState.start mem lists).steps events).step WatchEvent.Poll := by
    rw [steps_append]; rfl
  have pv : (((watchState.start mem lists).steps events).step WatchEvent.Poll).stream.version
      = ((watchState.start mem lists).steps events).monitor.version :=
    (poll_spec ((watchState.start mem lists).steps events).mem
      ((watchState.start mem lists).steps events).monitor
      ((watchState.start mem lists).steps events).stream).1
  have hver : ((watchState.start mem lists).steps events).monitor.version
      = lists.length + updateCount events := hinv.1
  refine ⟨?_, ?_, ?_⟩
  · rw [hsteps]
    obtain ⟨hv, hb, _, hstream⟩ := hlast
    rcases hstream with ⟨h1, _⟩ | ⟨_, h2⟩
    · exfalso
      rw [pv] at h1
      omega
    · apply h2
      rw [pv]
      exact hver
  · intro hno
    rw [hsteps]
    have hstream := steps_stream_of_no_poll events (watchState.start mem lists) hno
    obtain ⟨p1, p2, p3⟩ := poll_spec ((watchState.start mem lists).steps events).mem
      ((watchState.start mem lists).steps events).monitor
      ((watchState.start mem lists).steps events).stream
    obtain ⟨p4, _⟩ := p3 hinv.2.2.1
    have hne : ¬ ((watchState.start mem lists).steps events).stream.version
        = ((watchState.start mem lists).steps events).monitor.version := by
      rw [hstream, hinv.1]
      simp only [watchState.start, listMonitor.ListAndWatch]
      omega
    simp only [watchState.step]
    rw [p2, if_neg hne, p4, hstream]
    rfl
  · intro s
    obtain ⟨p1, p2, _⟩ := poll_spec s.mem s.monitor s.stream
    exact ⟨p2, p1, rfl⟩

/-- C26 on a memory with the lists `x`, `y` and `z`: the monitor has received
`x`, `y`; the stream polls, the monitor receives `z`, the stream polls twice.
The stream has been handed `x`, `y` and then `z`, each once, and the list
delivered last is the stored one. -/
theorem ListAndWatch_delivers_witness :
    ((watchState.start ({ arrays := [["x", "y"], ["z"]] } : Memory String)
        [{ array := 0, off := 0, len := 2 }]).steps
      ([WatchEvent.Poll, WatchEvent.Update { array := 1, off := 0, len := 1 }, WatchEvent.Poll]
        ++ [WatchEvent.Poll])).stream.delivered = [["x", "y"], ["z"]] ∧
    ((watchState.start ({ arrays := [["x", "y"], ["z"]] } : Memory String)
        [{ array := 0, off := 0, len := 2 }]).steps
      ([WatchEvent.Poll, WatchEvent.Update { array := 1, off := 0, len := 1 }, WatchEvent.Poll]
        ++ [WatchEvent.Poll])).stream.delivered.getLast?
      = some (((watchState.start ({ arrays := [["x", "y"], ["z"]] } : Memory String)
          [{ array := 0, off := 0, len := 2 }]).steps
        ([WatchEvent.Poll, WatchEvent.Update { array := 1, off := 0, len := 1 },
          WatchEvent.Poll] ++ [WatchEvent.Poll])).mem.elems
        ((watchState.start ({ arrays := [["x", "y"], ["z"]] } : Memory String)
          [{ array := 0, off := 0, len := 2 }]).steps
        ([WatchEvent.Poll, WatchEvent.Update { array := 1, off := 0, len := 1 },
          WatchEvent.Poll] ++ [WatchEvent.Poll])).monitor.list) :=
  ⟨by decide,
    (ListAndWatch_delivers ({ arrays := [["x", "y"], ["z"]] } : Memory String)
      [{ array := 0, off := 0, len := 2 }]
      [WatchEvent.Poll, WatchEvent.Update { array := 1, off := 0, len := 1 }, WatchEvent.Poll]
      (by decide)).1⟩

theorem start_monitor {T : Type} (mem : Memory T) (lists : List Slice) :
    (watchState.start mem lists).monitor = (listMonitor.Updates mem NewListMonitor lists).2 :=
  rfl

theorem start_stream {T : Type} (mem : Memory T) (lists : List Slice) :
    (watchState.start mem lists).stream = listMonitor.ListAndWatch := rfl

theorem steps_poll_of_eq {T : Type} (s : watchState T)
    (h : s.stream.version = s.monitor.version) :
    (s.steps [WatchEvent.Poll]).stream = s.stream := by
  simp only [watchState.steps, List.foldl_cons, List.foldl_nil, watchState.step,
    listMonitor.poll, h, if_true]

/-- C26 fails after `math.MaxUint64` calls of `Update`: the version of the monitor
is `math.MaxUint64` then, which is the value a new stream starts with, and the
first poll of a stream started in that state delivers nothing. -/
theorem first_poll_misses_at_MaxUint64 :
    (watchState.start ({ arrays := [] } : Memory String)
      (List.replicate 18446744073709551615 Slice.nil)).monitor.version
      = 18446744073709551615 ∧
    ((watchState.start ({ arrays := [] } : Memory String)
      (List.replicate 18446744073709551615 Slice.nil)).steps
        [WatchEvent.Poll]).stream.delivered = [] := by
  have hv : (watchState.start ({ arrays := [] } : Memory String)
      (List.replicate 18446744073709551615 Slice.nil)).monitor.version
      = 18446744073709551615 := by
    rw [start_monitor, Updates_version, List.length_replicate]
  refine ⟨hv, ?_⟩
  rw [steps_poll_of_eq _ (by rw [hv, start_stream]; rfl), start_stream]
  rfl

/-! ## Claim C27: `Allocate` -/

theorem intercalate_go_eq_foldl (sep : String) :
    ∀ (rest : List String) (acc : String),
      String.intercalate.go acc sep rest = rest.foldl (fun b s => b ++ sep ++ s) acc := by
  intro rest
  induction rest with
  | nil => intro acc; rfl
  | cons a rest ih =>
    intro acc
    simp only [String.intercalate.go, List.foldl_cons, ih]

theorem Join_eq_intercalate (elems : List String) (sep : String) :
    strings.Join elems sep = sep.intercalate elems := by
  cases elems with
  | nil => rfl
  | cons first rest =>
    simp only [strings.Join, String.intercalate, intercalate_go_eq_foldl]

theorem foldl_responses (f : ContainerAllocateRequest → ContainerAllocateResponse) :
    ∀ (reqs : List ContainerAllocateRequest) (ret : AllocateResponse),
      (reqs.foldl
        (fun ret req => { ContainerResponses := ret.ContainerResponses ++ [f req] })
        ret).ContainerResponses = ret.ContainerResponses ++ reqs.map f := by
  intro reqs
  induction reqs with
  | nil => intro ret; simp
  | cons req rest ih =>
    intro ret
    simp only [List.foldl_cons, ih, List.map_cons, List.append_assoc, List.singleton_append]

/-- C27: for every server state and every allocate request, `Allocate` returns no
error and a response whose container responses are, in the order of the
container requests, one per request, each with the single environment entry
`DEV_IDS` whose value is the device ids of that request joined by commas in
their order.  The response is the same in every server state, whatever the
monitor of advertised device ids holds; the call only increments the counter of
the server. -/
theorem Allocate_spec (s : server) (request : AllocateRequest) :
    (s.Allocate request).2
      = Outcome.ok
          { ContainerResponses := request.ContainerRequests.map fun req =>
              { Envs := [("DEV_IDS", ",".intercalate req.DevicesIds)] } } ∧
    (∀ s2 : server, (s2.Allocate request).2 = (s.Allocate request).2) ∧
    (s.Allocate request).1.deviceIDs = s.deviceIDs ∧
    (s.Allocate request).1.resourceName = s.resourceName ∧
    (s.Allocate request).1.allocateID = (s.allocateID + 1) % 18446744073709551616 := by
  refine ⟨?_, fun _ => rfl, rfl, rfl, rfl⟩
  simp only [server.Allocate]
  congr 1
  have h := foldl_responses
    (fun req => { Envs := [("DEV_IDS", strings.Join req.DevicesIds ",")] })
    request.ContainerRequests { ContainerResponses := [] }
  simp only [List.nil_append] at h
  have hmap : (request.ContainerRequests.map fun req =>
      ({ Envs := [("DEV_IDS", strings.Join req.DevicesIds ",")] } : ContainerAllocateResponse))
      = request.ContainerRequests.map fun req =>
      { Envs := [("DEV_IDS", ",".intercalate req.DevicesIds)] } := by
    apply List.map_congr_left
    intro req _
    rw [Join_eq_intercalate]
  rw [← hmap, ← h]

/-! ## Claim C28: total capacity and the number of device ids -/

theorem foldl_mapSet_nodup (v : Int) :
    ∀ (prefixes : List String) (m : List (String × Int)),
      prefixes.Nodup → (∀ p ∈ prefixes, p ∉ m.map Prod.fst) →
      prefixes.foldl (fun m pfx => mapSet m pfx v) m = m ++ prefixes.map (fun p => (p, v)) := by
  intro prefixes
  induction prefixes with
  | nil => intro m _ _; simp
  | cons p rest ih =>
    intro m hnd hdis
    rw [List.nodup_cons] at hnd
    simp only [List.foldl_cons]
    rw [mapSet_of_not_mem m p v (hdis p (List.mem_cons_self _ _))]
    rw [ih (m ++ [(p, v)]) hnd.2 (by
      intro q hq hmem
      simp only [List.map_append, List.map_cons, List.map_nil, List.mem_append,
        List.mem_singleton] at hmem
      rcases hmem with hmem | hmem
      · exact hdis q (List.mem_cons_of_mem _ hq) hmem
      · subst hmem
        exact hnd.1 hq)]
    simp

theorem buildPrefixMap_nodup (prefixes : List String) (capInt : Int) (h : prefixes.Nodup) :
    buildPrefixMap prefixes capInt = prefixes.map (fun p => (p, wrap32 capInt)) := by
  unfold buildPrefixMap
  rw [foldl_mapSet_nodup (wrap32 capInt) prefixes [] h (by intro p _ hm; cases hm)]
  rfl

theorem BuildDeviceID_length_uniform (prefixes : List String) (c : Int) (d : String) (o : Int) :
    (BuildDeviceID { Prefix := prefixes.map (fun p => (p, c)), Delimiter := d,
                     OrdinalStart := o }).length = prefixes.length * c.toNat := by
  rw [BuildDeviceID_eq, specDeviceIDs32_length]
  simp only [List.map_map]
  induction prefixes with
  | nil => simp
  | cons p rest ih =>
    simp only [List.map_cons, List.sum_cons, List.length_cons, ih, Function.comp]
    ring

/-- C28 fails.  For every description `d` the reference resolver returns, with the
prefix list `prefixes` and the per-prefix capacity `capInt` it was built from,
the capacity of `d` is `capInt` times the length of `prefixes`; it is the number
of device ids that `BuildDeviceID` gives on the format of `d` when the prefixes
are distinct and `0 ≤ capInt < 2^31`.  For the static prefix list `a`, `a` with
capacity 2 the description has capacity 4 and the two device ids `a-0`, `a-1`;
for the prefix list `a`, `b` with capacity 4294967296 it has capacity
8589934592 and no device id. -/
theorem total_capacity_and_device_ids :
    (∀ (env : Env) (nrcfg : NodeResourceConfiguration) (resIdx : Int)
        (res : ResourceRequirement) (d : ResourceDescription),
      0 ≤ resIdx → nrcfg.Spec.Resources[resIdx.toNat]? = some res →
      nodeResourceResolver.Resolve env nrcfg resIdx = Outcome.ok d →
      ∃ (nr : NodeResource) (prefixes : List String) (capInt : Int),
        nodeResourceResolver.getResourceRef env res.ResourceRef = Outcome.ok nr ∧
        nodeResourceResolver.getPrefixes env nr nrcfg = Outcome.ok prefixes ∧
        (nodeResourceResolver.getCapacity res nr).AsInt64 = some capInt ∧
        d.Capacity.val = (capInt : ℚ) * (prefixes.length : ℚ) ∧
        (prefixes.Nodup → 0 ≤ capInt → capInt < 2147483648 →
          d.Capacity.val = ((BuildDeviceID d.DeviceIDFormat).length : ℚ))) ∧
    (nodeResourceResolver.Resolve twinEnv
        (exampleConfig [exampleEntry "" (some (configMapRef "twin")) none] []) 0
      = Outcome.ok
          { ResourceName := "example.com/twin"
            Capacity := Quantity.int64 4 0
            DeviceIDFormat := { Prefix := [("a", 2)], Delimiter := "-", OrdinalStart := 0 }
            NodePatch := ""
            NodeUndoPatch := "" } ∧
      BuildDeviceID { Prefix := [("a", 2)], Delimiter := "-", OrdinalStart := 0 }
        = ["a-0", "a-1"]) ∧
    (nodeResourceResolver.Resolve exampleEnv
        (exampleConfig
          [exampleEntry "" (some gpuConfigMapRef) (some (Quantity.int64 4294967296 0))] []) 0
      = Outcome.ok
          { ResourceName := "example.com/gpu"
            Capacity := Quantity.int64 8589934592 0
            DeviceIDFormat :=
              { Prefix := [("a", 0), ("b", 0)], Delimiter := "-", OrdinalStart := 0 }
            NodePatch := ""
            NodeUndoPatch := "" } ∧
      BuildDeviceID { Prefix := [("a", 0), ("b", 0)], Delimiter := "-", OrdinalStart := 0 }
        = []) := by
  refine ⟨?_, ⟨by decide, by decide⟩, ⟨by decide, by decide⟩⟩
  intro env nrcfg resIdx res d hidx hres hok
  obtain ⟨nr, prefixes, capInt, policy, h1, h2, h3, _, h5, _⟩ :=
    nodeResourceResolver_Resolve_ok env nrcfg resIdx res d hidx hres hok
  have hcap : d.Capacity = (nodeResourceResolver.getCapacity res nr).Mul (prefixes.length : Int) :=
    congrArg ResourceBasicDescription.Capacity h5
  have hfmt : d.DeviceIDFormat =
      { Prefix := buildPrefixMap prefixes capInt, Delimiter := policy.Delimiter,
        OrdinalStart := policy.OrdinalStart } :=
    congrArg ResourceBasicDescription.DeviceIDFormat h5
  have hval : d.Capacity.val = (capInt : ℚ) * (prefixes.length : ℚ) := by
    rw [hcap, Quantity.val_Mul, AsInt64_val _ _ h3]
    push_cast
    rfl
  refine ⟨nr, prefixes, capInt, h1, h2, h3, hval, ?_⟩
  intro hnd h0 hlt
  have hw : wrap32 capInt = capInt := by
    unfold wrap32
    omega
  rw [hval, hfmt, buildPrefixMap_nodup prefixes capInt hnd, hw,
    BuildDeviceID_length_uniform]
  have hq : ((capInt.toNat : Nat) : ℚ) = (capInt : ℚ) := by
    have h := Int.toNat_of_nonneg h0
    calc ((capInt.toNat : Nat) : ℚ) = (((capInt.toNat : Nat) : Int) : ℚ) := by
          rw [Int.cast_natCast]
      _ = (capInt : ℚ) := by rw [h]
  push_cast
  rw [hq]
  ring

/-- C28 on the example cluster, where the claim holds: the entry overrides the
capacity of `gpu` (prefixes `a`, `b`) with 3; the description has capacity 6 and
six device ids. -/
theorem total_capacity_and_device_ids_witness :
    nodeResourceResolver.Resolve exampleEnv
      (exampleConfig [exampleEntry "" (some gpuConfigMapRef) (some (Quantity.int64 3 0))] []) 0
      = Outcome.ok
          { ResourceName := "example.com/gpu", Capacity := Quantity.int64 6 0,
            DeviceIDFormat :=
              { Prefix := [("a", 3), ("b", 3)], Delimiter := "-", OrdinalStart := 0 },
            NodePatch := "", NodeUndoPatch := "" } ∧
    BuildDeviceID { Prefix := [("a", 3), ("b", 3)], Delimiter := "-", OrdinalStart := 0 }
      = ["a-0", "a-1", "a-2", "b-0", "b-1", "b-2"] ∧
    ∃ (nr : NodeResource) (prefixes : List String) (capInt : Int),
      nodeResourceResolver.getResourceRef exampleEnv (some gpuConfigMapRef) = Outcome.ok nr ∧
      nodeResourceResolver.getPrefixes exampleEnv nr
        (exampleConfig [exampleEntry "" (some gpuConfigMapRef) (some (Quantity.int64 3 0))] [])
        = Outcome.ok prefixes ∧
      (nodeResourceResolver.getCapacity
        (exampleEntry "" (some gpuConfigMapRef) (some (Quantity.int64 3 0))) nr).AsInt64
        = some capInt ∧
      (Quantity.int64 6 0).val = (capInt : ℚ) * (prefixes.length : ℚ) ∧
      (prefixes.Nodup → 0 ≤ capInt → capInt < 2147483648 →
        (Quantity.int64 6 0).val
          = ((BuildDeviceID
              { Prefix := [("a", 3), ("b", 3)], Delimiter := "-", OrdinalStart := 0 }).length
              : ℚ)) :=
  ⟨by decide, by decide,
    total_capacity_and_device_ids.1 exampleEnv
      (exampleConfig [exampleEntry "" (some gpuConfigMapRef) (some (Quantity.int64 3 0))] []) 0
      (exampleEntry "" (some gpuConfigMapRef) (some (Quantity.int64 3 0)))
      { ResourceName := "example.com/gpu", Capacity := Quantity.int64 6 0,
        DeviceIDFormat :=
          { Prefix := [("a", 3), ("b", 3)], Delimiter := "-", OrdinalStart := 0 },
        NodePatch := "", NodeUndoPatch := "" }
      (by decide) rfl (by decide)⟩

/-! ## Claim C29: `syncConfigOnce` of the controller -/

theorem firstMatching_spec (env : ControllerEnv) (labels : List (String × String)) :
    ∀ l : List NodeResourceConfiguration,
      (firstMatching env labels l = none ∧ ∀ x ∈ l, selects env labels x = false) ∨
      ∃ pre a post, l = pre ++ a :: post ∧ (∀ x ∈ pre, selects env labels x = false) ∧
        selects env labels a = true ∧ firstMatching env labels l = some a := by
  intro l
  induction l with
  | nil => exact Or.inl ⟨rfl, fun x hx => by cases hx⟩
  | cons nrcfg rest ih =>
    by_cases hsel : selects env labels nrcfg = true
    · right
      refine ⟨[], nrcfg, rest, rfl, (fun x hx => by cases hx), hsel, ?_⟩
      unfold selects at hsel
      unfold firstMatching
      cases hc : env.LabelSelectorAsSelector nrcfg.Spec.NodeSelector with
      | error e => rw [hc] at hsel; cases hsel
      | ok selector =>
        rw [hc] at hsel
        simp only at hsel
        simp only [hsel, if_true]
    · have hfalse : selects env labels nrcfg = false := Bool.eq_false_iff.mpr hsel
      have hstep : firstMatching env labels (nrcfg :: rest) = firstMatching env labels rest := by
        unfold selects at hfalse
        conv_lhs => unfold firstMatching
        cases hc : env.LabelSelectorAsSelector nrcfg.Spec.NodeSelector with
        | error e => rfl
        | ok selector =>
          rw [hc] at hfalse
          simp only at hfalse
          simp only [hfalse, Bool.false_eq_true, if_false]
      rcases ih with ⟨h1, h2⟩ | ⟨pre, a, post, h1, h2, h3, h4⟩
      · left
        refine ⟨by rw [hstep, h1], ?_⟩
        intro x hx
        rcases List.mem_cons.mp hx with hx | hx
        · rw [hx]; exact hfalse
        · exact h2 x hx
      · right
        refine ⟨nrcfg :: pre, a, post, by rw [h1]; rfl, ?_, h3, by rw [hstep, h4]⟩
        intro x hx
        rcases List.mem_cons.mp hx with hx | hx
        · rw [hx]; exact hfalse
        · exact h2 x hx

theorem nrcfgLess_iff (a b : NodeResourceConfiguration) :
    nrcfgLess a b = true ↔
      (a.CreationTimestamp < b.CreationTimestamp ∨
        (a.CreationTimestamp = b.CreationTimestamp ∧ a.UID < b.UID)) := by
  unfold nrcfgLess
  by_cases h : a.CreationTimestamp = b.CreationTimestamp
  · simp only [h, if_true, decide_eq_true_eq, lt_irrefl, false_or, true_and]
  · simp only [h, if_false, decide_eq_true_eq, false_and, or_false]

theorem nrcfgLess_false_iff (a b : NodeResourceConfiguration) :
    nrcfgLess b a = false ↔
      (a.CreationTimestamp < b.CreationTimestamp ∨
        (a.CreationTimestamp = b.CreationTimestamp ∧ a.UID ≤ b.UID)) := by
  rw [← Bool.not_eq_true, nrcfgLess_iff]
  constructor
  · intro h
    rcases lt_trichotomy a.CreationTimestamp b.CreationTimestamp with hlt | heq | hgt
    · exact Or.inl hlt
    · refine Or.inr ⟨heq, ?_⟩
      by_contra hle
      exact h (Or.inr ⟨heq.symm, not_le.mp hle⟩)
    · exact absurd (Or.inl hgt) h
  · rintro (hlt | ⟨heq, hle⟩) (hgt | ⟨heq2, hlt2⟩)
    · exact lt_asymm hlt hgt
    · rw [heq2] at hlt
      exact lt_irrefl _ hlt
    · rw [heq] at hgt
      exact lt_irrefl _ hgt
    · exact not_le.mpr hlt2 hle

theorem nrcfgLess_strictWeakOrder : strictWeakOrder nrcfgLess := by
  refine ⟨?_, ?_, ?_⟩
  · intro a
    rw [nrcfgLess_false_iff]
    exact Or.inr ⟨rfl, le_refl _⟩
  · intro a b c hab hbc
    rw [nrcfgLess_iff] at hab hbc ⊢
    rcases hab with h1 | ⟨h1, h2⟩
    · rcases hbc with h3 | ⟨h3, _⟩
      · exact Or.inl (lt_trans h1 h3)
      · exact Or.inl (h3 ▸ h1)
    · rcases hbc with h3 | ⟨h3, h4⟩
      · exact Or.inl (h1 ▸ h3)
      · exact Or.inr ⟨h1.trans h3, lt_trans h2 h4⟩
  · intro a b c hab hba hbc hcb
    rw [nrcfgLess_false_iff] at hab hba hbc hcb
    have h1 : a.CreationTimestamp = b.CreationTimestamp ∧ a.UID = b.UID := by
      rcases hab with h | ⟨h, h2⟩
      · rcases hba with h3 | ⟨h3, _⟩
        · exact absurd h (lt_asymm h3)
        · rw [h3] at h
          exact absurd h (lt_irrefl _)
      · rcases hba with h3 | ⟨_, h4⟩
        · rw [h] at h3
          exact absurd h3 (lt_irrefl _)
        · exact ⟨h.symm, le_antisymm h4 h2⟩
    have h2 : b.CreationTimestamp = c.CreationTimestamp ∧ b.UID = c.UID := by
      rcases hbc with h | ⟨h, h2⟩
      · rcases hcb with h3 | ⟨h3, _⟩
        · exact absurd h (lt_asymm h3)
        · rw [h3] at h
          exact absurd h (lt_irrefl _)
      · rcases hcb with h3 | ⟨_, h4⟩
        · rw [h] at h3
          exact absurd h3 (lt_irrefl _)
        · exact ⟨h.symm, le_antisymm h4 h2⟩
    rw [nrcfgLess_false_iff, nrcfgLess_false_iff]
    exact ⟨Or.inr ⟨(h1.1.trans h2.1).symm, le_of_eq (h1.2.trans h2.2).symm⟩,
      Or.inr ⟨h1.1.trans h2.1, le_of_eq (h1.2.trans h2.2)⟩⟩

theorem insertionSort_contract {α : Type} (less : α → α → Bool) (h : strictWeakOrder less)
    (l : List α) :
    (l.insertionSort (fun a b => less b a = false)).Perm l ∧
    (l.insertionSort (fun a b => less b a = false)).Pairwise (fun a b => less b a = false) := by
  obtain ⟨hirr, htrans, hinc⟩ := h
  have hasymm : ∀ a b, less a b = true → less b a = false := by
    intro a b hab
    cases hba : less b a with
    | false => rfl
    | true =>
      have := htrans a b a hab hba
      rw [hirr a] at this
      cases this
  haveI : IsTotal α (fun a b => less b a = false) := by
    refine ⟨fun a b => ?_⟩
    cases hba : less b a with
    | false => exact Or.inl rfl
    | true => exact Or.inr (hasymm b a hba)
  haveI : IsTrans α (fun a b => less b a = false) := by
    refine ⟨fun a b c hba hcb => ?_⟩
    cases hca : less c a with
    | false => rfl
    | true =>
      exfalso
      have hab : less a b = false := by
        cases hab : less a b with
        | false => rfl
        | true =>
          have := htrans c a b hca hab
          rw [hcb] at this
          cases this
      have hbc : less b c = false := by
        cases hbc : less b c with
        | false => rfl
        | true =>
          have := htrans b c a hbc hca
          rw [hba] at this
          cases this
      have := (hinc a b c hab hba hbc hcb).2
      rw [hca] at this
      cases this
  exact ⟨List.perm_insertionSort _ l, List.sorted_insertionSort _ l⟩

theorem exampleControllerEnv_contract : sortSliceContract exampleControllerEnv := by
  intro less l h
  exact insertionSort_contract less h l

theorem cleanUp_nil :
    ∀ managers : List (String × resourceManagerWithCancel),
      cleanUp [] managers = ([], managers.map fun e => Effect.Cancel e.1 e.2.id) := by
  intro managers
  induction managers with
  | nil => rfl
  | cons e rest ih =>
    obtain ⟨name, m⟩ := e
    simp only [cleanUp, List.lookup, Option.isSome_none, Bool.false_eq_true, if_false, ih,
      List.map_cons]

/-- C29: `syncConfigOnce` of the controller.  An error of the node lookup or of
the lister is returned and nothing is applied.  Otherwise, with a `sort.Slice`
that keeps its promise for every strict weak ordering: when some listed
configuration has a selector that converts and matches the labels of the node,
exactly one `applyConfig` runs, on such a configuration `a` that is least among
them: every such configuration `b` has a later creation timestamp than `a`, or
the same creation timestamp and a UID that is not below the UID of `a`; when no
listed configuration has such a selector, `applyConfig` runs on the empty
configuration, which cancels every manager and leaves the managers map empty.
No error is returned in both cases. -/
theorem syncConfigOnce_applies_first (env : ControllerEnv)
    (DeepEqual : ResourceDescription → ResourceDescription → Bool) (c : Controller)
    (order : NodeResourceConfiguration → List (String × ResourceDescription)) :
    (∀ e, env.GetNode = Except.error e →
      c.syncConfigOnce env DeepEqual order = (some (SyncErr.getNode e), c, [])) ∧
    (∀ node e, env.GetNode = Except.ok node → env.ListConfigs = Except.error e →
      c.syncConfigOnce env DeepEqual order = (some (SyncErr.list e), c, [])) ∧
    (∀ node nrcfgList, env.GetNode = Except.ok node → env.ListConfigs = Except.ok nrcfgList →
      sortSliceContract env →
      ((∃ a ∈ nrcfgList, selects env node.Labels a = true) →
        ∃ a ∈ nrcfgList, selects env node.Labels a = true ∧
          (∀ b ∈ nrcfgList, selects env node.Labels b = true →
            a.CreationTimestamp < b.CreationTimestamp ∨
            (a.CreationTimestamp = b.CreationTimestamp ∧ a.UID ≤ b.UID)) ∧
          c.syncConfigOnce env DeepEqual order
            = (none, c.applyConfig DeepEqual a (order a))) ∧
      ((∀ a ∈ nrcfgList, selects env node.Labels a = false) →
        c.syncConfigOnce env DeepEqual order
          = (none, c.applyConfig DeepEqual nrcfgEmpty (order nrcfgEmpty)) ∧
        (order nrcfgEmpty = [] →
          (c.syncConfigOnce env DeepEqual order).2.1.managers = [] ∧
          (c.syncConfigOnce env DeepEqual order).2.2
            = c.managers.map fun e => Effect.Cancel e.1 e.2.id))) := by
  refine ⟨?_, ?_, ?_⟩
  · intro e he
    simp only [Controller.syncConfigOnce, he]
  · intro node e hn he
    simp only [Controller.syncConfigOnce, hn, he]
  · intro node nrcfgList hn hl hsort
    obtain ⟨hperm, hsorted⟩ := hsort nrcfgLess nrcfgList nrcfgLess_strictWeakOrder
    have hsync : c.syncConfigOnce env DeepEqual order
        = match firstMatching env node.Labels (env.SortSlice nrcfgLess nrcfgList) with
          | some nrcfg => (none, c.applyConfig DeepEqual nrcfg (order nrcfg))
          | none => (none, c.applyConfig DeepEqual nrcfgEmpty (order nrcfgEmpty)) := by
      simp only [Controller.syncConfigOnce, hn, hl]
    constructor
    · rintro ⟨a0, ha0, hsel0⟩
      rcases firstMatching_spec env node.Labels (env.SortSlice nrcfgLess nrcfgList) with
        ⟨_, hnone⟩ | ⟨pre, a, post, hsplit, hpre, hsel, hfirst⟩
      · have := hnone a0 (hperm.mem_iff.mpr ha0)
        rw [this] at hsel0
        cases hsel0
      · refine ⟨a, ?_, hsel, ?_, by rw [hsync, hfirst]⟩
        · apply hperm.mem_iff.mp
          rw [hsplit]
          simp
        · intro b hb hselb
          rw [← nrcfgLess_false_iff]
          have hb2 : b ∈ env.SortSlice nrcfgLess nrcfgList := hperm.mem_iff.mpr hb
          rw [hsplit] at hb2 hsorted
          rcases List.mem_append.mp hb2 with hb3 | hb3
          · rw [hpre b hb3] at hselb
            cases hselb
          · rcases List.mem_cons.mp hb3 with hb4 | hb4
            · rw [hb4]
              exact nrcfgLess_strictWeakOrder.1 a
            · have hp := (List.pairwise_append.mp hsorted).2.1
              exact (List.pairwise_cons.mp hp).1 b hb4
    · intro hnone
      have hfirst : firstMatching env node.Labels (env.SortSlice nrcfgLess nrcfgList) = none := by
        rcases firstMatching_spec env node.Labels (env.SortSlice nrcfgLess nrcfgList) with
          ⟨h, _⟩ | ⟨pre, a, post, hsplit, _, hsel, _⟩
        · exact h
        · have ha : a ∈ nrcfgList := by
            apply hperm.mem_iff.mp
            rw [hsplit]
            simp
          rw [hnone a ha] at hsel
          cases hsel
      have hres : c.syncConfigOnce env DeepEqual order
          = (none, c.applyConfig DeepEqual nrcfgEmpty (order nrcfgEmpty)) := by
        rw [hsync, hfirst]
      refine ⟨hres, ?_⟩
      intro ho
      rw [hres, ho]
      have hmap : buildResDescMap nrcfgEmpty.Status.ResourceDescriptions = [] := rfl
      simp only [Controller.applyConfig, hmap, cleanUp_nil, applyDescs, List.append_nil]
      exact ⟨trivial, trivial⟩

/-- C29 on the example daemon: of the four listed configurations `early` and
`late` select the node, `broken` has a selector that does not convert and
`other` selects another pool; `applyConfig` runs on `early`, the older of the
two, which cancels the managers `x` and `a` and creates the manager `early`. -/
theorem syncConfigOnce_applies_first_witness :
    (exampleController.syncConfigOnce exampleControllerEnv
        (fun stored desc => decide (stored = desc)) exampleOrder).1 = none ∧
    (exampleController.syncConfigOnce exampleControllerEnv
        (fun stored desc => decide (stored = desc)) exampleOrder).2.1.managers.map Prod.fst
      = ["early"] ∧
    (exampleController.syncConfigOnce exampleControllerEnv
        (fun stored desc => decide (stored = desc)) exampleOrder).2.2
      = [Effect.Cancel "x" 0, Effect.Cancel "a" 1, Effect.New "early" 2,
         Effect.Update "early" 2 (exampleDesc "early")] ∧
    ∃ a ∈ [exampleSelecting "late" 3 (poolSelector "mock"),
           exampleSelecting "broken" 0 brokenSelector,
           exampleSelecting "other" 1 (poolSelector "real"),
           exampleSelecting "early" 2 (poolSelector "mock")],
      selects exampleControllerEnv [("pool", "mock")] a = true ∧
      (∀ b ∈ [exampleSelecting "late" 3 (poolSelector "mock"),
              exampleSelecting "broken" 0 brokenSelector,
              exampleSelecting "other" 1 (poolSelector "real"),
              exampleSelecting "early" 2 (poolSelector "mock")],
        selects exampleControllerEnv [("pool", "mock")] b = true →
          a.CreationTimestamp < b.CreationTimestamp ∨
          (a.CreationTimestamp = b.CreationTimestamp ∧ a.UID ≤ b.UID)) ∧
      exampleController.syncConfigOnce exampleControllerEnv
          (fun stored desc => decide (stored = desc)) exampleOrder
        = (none, exampleController.applyConfig (fun stored desc => decide (stored = desc)) a
            (exampleOrder a)) :=
  ⟨by decide, by decide, by decide,
    ((syncConfigOnce_applies_first exampleControllerEnv
      (fun stored desc => decide (stored = desc)) exampleController exampleOrder).2.2
      { Labels := [("pool", "mock")] }
      [exampleSelecting "late" 3 (poolSelector "mock"),
       exampleSelecting "broken" 0 brokenSelector,
       exampleSelecting "other" 1 (poolSelector "real"),
       exampleSelecting "early" 2 (poolSelector "mock")]
      rfl rfl exampleControllerEnv_contract).1
      ⟨exampleSelecting "early" 2 (poolSelector "mock"), by decide, by decide⟩⟩

/-! ## Claim C30: the error channel of `Serve` -/

theorem serveGoroutine_nil (env : ServeEnv) : serveGoroutine none env = none := by
  unfold serveGoroutine
  cases env.grpcServeErr <;> rfl

theorem serveSelect_nil (kubeletConnEvt : Option (chanState Unit)) (ctxDone : Bool)
    (e : Option String) :
    some (ServeErr.grpcTerminated e) ∉ serveSelect none kubeletConnEvt ctxDone := by
  unfold serveSelect
  rw [show chanRecv (none : Option String) (none : Option (chanState (Option String))) = none
    from rfl]
  cases chanRecv () kubeletConnEvt <;> cases ctxDone <;> simp

/-- C30 fails: `errCh` is declared and never made, so it is `nil`; the goroutine
blocks on its send and the receive from `errCh` is never ready.  In no run does
`Serve` return the error "grpc server terminated with error".  When
`grpcServer.Serve` fails after a successful registration, `Serve` does not
return as long as the kubelet stays connected and the context is not cancelled,
and returns `nil` when the context is cancelled.  (With a channel made by
`make(chan error, 1)` the same `select` would return that error.) -/
theorem Serve_never_returns_grpc_error :
    (∀ (env : ServeEnv) (e : Option String),
      some (ServeErr.grpcTerminated e) ∉ server.Serve env) ∧
    server.Serve grpcFailsEnv = [] ∧
    server.Serve { grpcFailsEnv with ctxDone := true } = [none] ∧
    serveSelect (serveGoroutine (makeChan 1) grpcFailsEnv) (makeChan 1) false
      = [some (ServeErr.grpcTerminated
          (some "accept unix: use of closed network connection"))] := by
  refine ⟨?_, by decide, by decide, by decide⟩
  intro env e
  unfold server.Serve
  split
  · simp
  · split
    · simp
    · split
      · simp
      · split
        · simp
        · rw [serveGoroutine_nil]
          exact serveSelect_nil _ _ e

end DPMock
